import Mathlib

/-!
# ITK-SNAP `DistributedSegmentationModel`: connection, catalog, tag binding, tickets

A shallow embedding of `GUI/Model/DistributedSegmentationModel.cxx`.

* `std::string` is a list of characters, ordered lexicographically
  (`std::string::operator<`).
* `IdType` (a C `long`) is an unbounded integer; no arithmetic is performed on ids.
* `double` progress values are only copied and compared for equality; they are
  embedded as rationals.
* `std::map<K,V>` is an association list whose keys are strictly increasing.
  A map iterator is the suffix of the entry list that starts at the element the
  iterator points to; `end()` is the empty suffix.
* Every property model carries the trace of the events invoked on it, oldest
  first, so that "which notification fired" is a statement about the trace.
* The workspace (`IRISApplication`) is a list of layers; a pointer to a layer is
  its position in the list.
* A call into the transport client or the JSON decoder either returns or throws
  (`Fallible`); the outcomes of the calls of one fetch are an explicit input.
-/

/-- The C++ `std::string`: a sequence of characters compared lexicographically. -/
abbrev std_string := List Char

/-- Events of the ITK-SNAP event framework that the model invokes. -/
inductive EventType where
  | ValueChangedEvent
  | DomainChangedEvent
  | DomainDescriptionChangedEvent
deriving DecidableEq, Repr

/-- Modelled from the spec: `ConcretePropertyModel<TVal, TDomain>` of the
property/event-notification framework (`PropertyModel.h`, an external
collaborator that is not part of the source under study). It holds a value, a
domain and a validity flag; `events` is the trace of the events invoked on the
object. -/
structure ConcretePropertyModel (α : Type) (δ : Type) where
  m_Value : α
  m_Domain : δ
  m_IsValid : Bool
  events : List EventType
deriving DecidableEq, Repr

namespace ConcretePropertyModel

variable {α δ : Type}

/-- Modelled from the spec: `GetValueAndDomain(value, NULL)` of the property
framework; it returns the validity flag and writes the stored value to the
out-parameter. The result is the pair (return value, out-parameter). -/
def GetValueAndDomain (p : ConcretePropertyModel α δ) : Bool × α :=
  (p.m_IsValid, p.m_Value)

/-- Modelled from the spec: `InvokeEvent(e)` of the property framework; the
event is delivered to the observers of this object, recorded here in the trace. -/
def InvokeEvent (p : ConcretePropertyModel α δ) (e : EventType) : ConcretePropertyModel α δ :=
  { p with events := p.events ++ [e] }

/-- Modelled from the spec: `SetValue(v)` of the property framework; stores the
value and invokes `ValueChangedEvent` when the value differs from the stored one. -/
def SetValue [DecidableEq α] (p : ConcretePropertyModel α δ) (v : α) : ConcretePropertyModel α δ :=
  if p.m_Value ≠ v then { p with m_Value := v, events := p.events ++ [EventType.ValueChangedEvent] }
  else p

/-- Modelled from the spec: `SetIsValid(b)` of the property framework; stores the
flag and invokes `ValueChangedEvent` when the flag differs from the stored one. -/
def SetIsValid (p : ConcretePropertyModel α δ) (b : Bool) : ConcretePropertyModel α δ :=
  if p.m_IsValid ≠ b then { p with m_IsValid := b, events := p.events ++ [EventType.ValueChangedEvent] }
  else p

/-- Modelled from the spec: `SetDomain(d)` of the property framework; stores the
domain and invokes `DomainChangedEvent` when the domain differs from the stored one. -/
def SetDomain [DecidableEq δ] (p : ConcretePropertyModel α δ) (d : δ) : ConcretePropertyModel α δ :=
  if p.m_Domain ≠ d then { p with m_Domain := d, events := p.events ++ [EventType.DomainChangedEvent] }
  else p

end ConcretePropertyModel

namespace dss_model

/-- Universal id type of the model (`typedef long IdType`). -/
abbrev IdType := Int

/-- One entry of the service catalog. -/
structure ServiceSummary where
  name : std_string
  githash : std_string
  version : std_string
  desc : std_string
deriving DecidableEq, Repr

/-- The comparator handed to `std::sort` in `SetServiceListing`
(source lines 52-61). -/
def service_summary_cmp (a b : ServiceSummary) : Bool :=
  if a.name < b.name then true
  else if a.name = b.name ∧ a.version < b.version then true
  else false

/-- Status of a ticket, in the order of `ticket_status_emap_initializer`. -/
inductive TicketStatus where
  | STATUS_INIT
  | STATUS_READY
  | STATUS_CLAIMED
  | STATUS_SUCCESS
  | STATUS_FAILED
  | STATUS_TIMEOUT
  | STATUS_UNKNOWN
deriving DecidableEq, Repr

/-- One row of the ticket listing. -/
structure TicketStatusSummary where
  id : IdType
  service_name : std_string
  status : TicketStatus
deriving DecidableEq, Repr

/-- Category of a log entry, in the order of `log_type_emap_initializer`. -/
inductive LogType where
  | LOG_INFO
  | LOG_WARNING
  | LOG_ERROR
  | LOG_UNKNOWN
deriving DecidableEq, Repr

/-- An attachment of a log entry. -/
structure Attachment where
  desc : std_string
  url : std_string
  mimetype : std_string
deriving DecidableEq, Repr

/-- One entry of a ticket log. -/
structure TicketLogEntry where
  id : IdType
  type : LogType
  atime : std_string
  text : std_string
  attachments : List Attachment
deriving DecidableEq, Repr

/-- Detail of one ticket: progress and log (`std::vector<TicketLogEntry>`). -/
structure TicketDetailResponse where
  ticket_id : IdType
  progress : Rat
  log : List TicketLogEntry
deriving DecidableEq, Repr

/-- The ticket listing, `std::map<IdType, TicketStatusSummary>`: entries in
ascending key order, each key at most once. -/
structure TicketListingResponse where
  entries : List (IdType × TicketStatusSummary)
  sorted : (entries.map Prod.fst).Pairwise (· < ·)

namespace TicketListingResponse

/-- The keys of the map in iteration order. -/
def keys (m : TicketListingResponse) : List IdType :=
  m.entries.map Prod.fst

/-- Method `std::map::size()`. -/
def size (m : TicketListingResponse) : Nat :=
  m.entries.length

/-- Method `std::map::begin()`: the iterator at the first element. -/
def begin_ (m : TicketListingResponse) : List (IdType × TicketStatusSummary) :=
  m.entries

/-- Method `std::map::find(k)`: the iterator at the element with key `k`, or
`end()` (the empty suffix) when there is none. -/
def find (m : TicketListingResponse) (k : IdType) : List (IdType × TicketStatusSummary) :=
  m.entries.dropWhile (fun e => e.1 != k)

/-- Iterator increment `++it`. -/
def next (it : List (IdType × TicketStatusSummary)) : List (IdType × TicketStatusSummary) :=
  it.tail

/-- Method `std::map::erase(k)`: removes the element with key `k`, if any. -/
def erase (m : TicketListingResponse) (k : IdType) : TicketListingResponse :=
  ⟨m.entries.eraseP (fun e => e.1 == k),
   (m.sorted.sublist ((List.eraseP_sublist m.entries).map Prod.fst))⟩

/-- Method `std::map::rbegin()`: the reverse iterator at the last element. -/
def rbegin (m : TicketListingResponse) : List (IdType × TicketStatusSummary) :=
  m.entries.reverse

/-- The empty map of a default-constructed `TicketListingResponse`. -/
def empty : TicketListingResponse :=
  ⟨[], List.Pairwise.nil⟩

/-- Assignment `m[k] = v` on the map: the entries with a smaller key, then the
pair `(k, v)`, then the entries with a larger key. -/
def assign (m : TicketListingResponse) (k : IdType) (v : TicketStatusSummary) :
    TicketListingResponse :=
  ⟨m.entries.filter (fun e => e.1 < k) ++ (k, v) :: m.entries.filter (fun e => k < e.1), by
    have h := m.sorted
    simp only [List.map_append, List.map_cons, List.pairwise_append, List.pairwise_cons,
      List.mem_map, List.mem_cons, List.mem_filter, decide_eq_true_eq]
    refine ⟨h.sublist ((List.filter_sublist _).map _),
      ⟨?_, h.sublist ((List.filter_sublist _).map _)⟩, ?_⟩
    · rintro a ⟨e, ⟨_, he⟩, rfl⟩
      exact he
    · rintro a ⟨e, ⟨_, he⟩, rfl⟩ b hb
      rcases hb with rfl | ⟨e', ⟨_, he'⟩, rfl⟩
      · exact he
      · exact lt_trans he he'⟩

/-- Element access `m[k]` on the non-const map: the value stored under `k` and
the map after the access; a missing key is inserted with a value-initialised
summary (id 0, empty service name, first status). -/
def subscript (m : TicketListingResponse) (k : IdType) :
    TicketStatusSummary × TicketListingResponse :=
  match m.find k with
  | e :: _ => (e.2, m)
  | [] =>
    (⟨0, [], TicketStatus.STATUS_INIT⟩, m.assign k ⟨0, [], TicketStatus.STATUS_INIT⟩)

instance : DecidableEq TicketListingResponse := fun a b =>
  decidable_of_iff (a.entries = b.entries)
    ⟨fun h => by cases a; cases b; cases h; rfl, fun h => by rw [h]⟩

end TicketListingResponse

/-- Domain of the service selection, `std::map<int, std::string>`: the label
shown for each catalog index, in ascending index order. -/
abbrev CurrentServiceDomain := List (Int × std_string)

/-- Assignment `domain[i] = v` on a `std::map<int, std::string>`: overwrites the
value stored at `i`, or inserts the pair at its place in key order. -/
def map_assign (d : CurrentServiceDomain) (i : Int) (v : std_string) : CurrentServiceDomain :=
  match d with
  | [] => [(i, v)]
  | (k, w) :: rest =>
    if i < k then (i, v) :: (k, w) :: rest
    else if i = k then (k, v) :: rest
    else (k, w) :: map_assign rest i v

/-- Domain of the progress property, `NumericValueRange<double>`. -/
structure NumericValueRange where
  minimum : Rat
  maximum : Rat
  step : Rat
deriving DecidableEq, Repr

/-- Element access `v[i]` on a `std::vector` with an `int` index. An index
outside `0 .. size-1` is undefined behaviour in C++; it is `none` here. -/
def vector_at {α : Type} (v : List α) (i : Int) : Option α :=
  if 0 ≤ i then v.get? i.toNat else none

/-- Modelled from the spec: `std::find(first, last, value)` of the C++ standard
library on a whole container, as the position of the first element equal to
`value`; the length of the list stands for the iterator `last`. -/
def std_find {α : Type} [DecidableEq α] : List α → α → Nat
  | [], _ => 0
  | x :: rest, value => if x = value then 0 else std_find rest value + 1

/-- Insertion step of `std_sort`: puts `x` in front of the first element that
`cmp` orders after it. -/
def std_sort_insert {α : Type} (cmp : α → α → Bool) (x : α) : List α → List α
  | [] => [x]
  | y :: ys => if cmp x y then x :: y :: ys else y :: std_sort_insert cmp x ys

/-- Modelled from the spec: `std::sort(first, last, cmp)` of the C++ standard
library, which is not part of the source under study. The standard fixes only
that the result is a rearrangement of the input ordered by `cmp`; the relative
order of elements that `cmp` does not distinguish is unspecified. The model is
insertion sort. -/
def std_sort {α : Type} (cmp : α → α → Bool) : List α → List α
  | [] => []
  | x :: xs => std_sort_insert cmp x (std_sort cmp xs)

/-- Modelled from the spec: the outcome of one blocking `RESTClient::Get`
request of the transport client (an external collaborator): the request's
return value and the text then returned by `GetResponseText()`. -/
structure RESTResponse where
  ok : Bool
  text : std_string
deriving DecidableEq, Repr

/-- Modelled from the spec: the remote side seen through `RESTClient`; it maps a
path template and its id argument to the outcome of the request. -/
abbrev RESTClient := std_string → IdType → RESTResponse

/-- The exception `IRISException(format, id, text)` thrown by
`DeleteSelectedTicket`: the message template and the two arguments formatted
into it. -/
structure IRISException where
  format : std_string
  ticket_id : IdType
  response_text : std_string
deriving DecidableEq, Repr

/-- Kind of a tag, in the order of `tag_type_strings`. -/
inductive TagType where
  | TAG_LAYER_ANATOMICAL
  | TAG_LAYER_MAIN
  | TAG_LAYER_OVERLAY
  | TAG_SEGMENTATION_LABEL
  | TAG_POINT_LANDMARK
  | TAG_UNKNOWN
deriving DecidableEq, Repr

/-- A tag requirement declared by a service; the fields are those compared by
`TagSpec::operator==` (source lines 63-69). -/
structure TagSpec where
  required : Bool
  type : TagType
  name : std_string
  hint : std_string
  object_id : Int
deriving DecidableEq, Repr

/-- The binding of a tag requirement to an object of the workspace:
`object_id` is the bound object (0 when unbound), `desc` its description. -/
structure TagTargetSpec where
  tag_spec : TagSpec
  object_id : Nat
  desc : std_string
deriving DecidableEq, Repr

/-- The two flags of a probe result (`auth_response`). -/
structure AuthResponse where
  connected : Bool
  authenticated : Bool
deriving DecidableEq, Repr

/-- Result of the connection probe `AsyncCheckStatus`. -/
structure StatusCheckResponse where
  auth_response : AuthResponse
  service_listing : List ServiceSummary
deriving DecidableEq, Repr

/-- Result of the service detail lookup `AsyncGetServiceDetails`. -/
structure ServiceDetailResponse where
  valid : Bool
  longdesc : std_string
  url : std_string
  tag_specs : List TagSpec
deriving DecidableEq, Repr

/-- Modelled from the spec: the roles `LayerRole` of the image-layer store (an
external collaborator); every layer has exactly one role. -/
inductive LayerRole where
  | MAIN_ROLE
  | OVERLAY_ROLE
  | SNAP_ROLE
  | LABEL_ROLE
  | NO_ROLE
deriving DecidableEq, Repr

/-- Modelled from the spec: the value of a role constant, one bit of a role
mask per role, so that `MAIN_ROLE | OVERLAY_ROLE` is the mask of both. -/
def LayerRole.mask : LayerRole → Nat
  | LayerRole.MAIN_ROLE => 0x0001
  | LayerRole.OVERLAY_ROLE => 0x0002
  | LayerRole.SNAP_ROLE => 0x0004
  | LayerRole.LABEL_ROLE => 0x0008
  | LayerRole.NO_ROLE => 0x0010

/-- Modelled from the spec: an object of the workspace object graph
(`ImageWrapperBase`, an external collaborator): unique id, display name, role
and the list of tag names it carries. -/
structure ImageWrapperBase where
  m_UniqueId : Nat
  m_Nickname : std_string
  role : LayerRole
  m_Tags : List std_string
deriving DecidableEq, Repr

/-- Modelled from the spec: the workspace object graph reached through
`GetParent()->GetDriver()`: whether a main image is loaded, and the layers in
the order in which `GetLayers()` visits them. A pointer to a layer is its
position in `layers`. -/
structure IRISApplication where
  main_image_loaded : Bool
  layers : List ImageWrapperBase
deriving DecidableEq, Repr

namespace IRISApplication

/-- Modelled from the spec: `IsMainImageLoaded()` of the workspace. -/
def IsMainImageLoaded (d : IRISApplication) : Bool :=
  d.main_image_loaded

/-- Modelled from the spec: `FindLayersByTag(tag, role_filter)` of the
workspace (`FindObjectsByTag(name, roleMask)`): the layers whose role is in the
mask and whose tags contain `tag`, in visiting order. -/
def FindLayersByTag (d : IRISApplication) (tag : std_string) (role_filter : Nat) :
    List ImageWrapperBase :=
  d.layers.filter (fun l => (l.role.mask &&& role_filter != 0) && l.m_Tags.contains tag)

/-- The search loop of `FindLayer` from position `j` on. -/
def FindLayer_from : Nat → List ImageWrapperBase → Nat → Option Nat
  | _, [], _ => none
  | j, l :: rest, unique_id =>
    if l.m_UniqueId == unique_id then some j else FindLayer_from (j + 1) rest unique_id

/-- Modelled from the spec: `FindLayer(unique_id, false)` of the workspace
(`FindObject(id)`): the first layer, over all roles, with the given unique id,
or `none` for the null pointer. -/
def FindLayer (d : IRISApplication) (unique_id : Nat) : Option Nat :=
  FindLayer_from 0 d.layers unique_id

end IRISApplication

/-- A call that either returns a value or throws. -/
inductive Fallible (α : Type) where
  | returns (a : α)
  | throws
deriving DecidableEq, Repr

/-- A request made to the transport client, in the form it is issued. -/
inductive TransportCall where
  | SetServerURL (url : std_string)
  | Authenticate (url token : std_string)
  | Get (path : std_string)
deriving DecidableEq, Repr

end dss_model

open dss_model

/-- The connectivity status `DistributedSegmentationModel::ServerStatus`. -/
inductive DistributedSegmentationModel.ServerStatus where
  | NOT_CONNECTED
  | CONNECTED_NOT_AUTHORIZED
  | CONNECTED_AUTHORIZED
deriving DecidableEq, Repr

/-- The state flags `DistributedSegmentationModel::UIState` of `CheckState`. -/
inductive DistributedSegmentationModel.UIState where
  | UIF_AUTHENTICATED
  | UIF_TAGS_ASSIGNED
deriving DecidableEq, Repr

/-- The members of `DistributedSegmentationModel` that the connection manager,
the service catalog, the tag binding and the ticket tracker read and write. -/
structure DistributedSegmentationModel where
  m_SystemServerURLList : List std_string
  m_ServerURLList : List std_string
  m_ServerURLModel : ConcretePropertyModel Int Unit
  m_TokenModel : ConcretePropertyModel std_string Unit
  m_ServerStatusModel : ConcretePropertyModel DistributedSegmentationModel.ServerStatus Unit
  m_ServiceDescriptionModel : ConcretePropertyModel std_string Unit
  m_TagSpecArray : List TagTargetSpec
  m_TagListModel : ConcretePropertyModel Int Unit
  m_ServiceListing : List ServiceSummary
  m_CurrentServiceModel : ConcretePropertyModel Int CurrentServiceDomain
  m_TicketListing : TicketListingResponse
  m_TicketListModel : ConcretePropertyModel IdType Unit
  m_SelectedTicketDetail : TicketDetailResponse
  m_SelectedTicketProgressModel : ConcretePropertyModel Rat NumericValueRange
  m_SelectedTicketLogModel : ConcretePropertyModel IdType Unit
deriving DecidableEq

namespace DistributedSegmentationModel

/-- The label of a catalog entry: `name << " " << version << " : " << desc`. -/
def service_label (svc : ServiceSummary) : std_string :=
  svc.name ++ " ".toList ++ svc.version ++ " : ".toList ++ svc.desc

/-- The `for` loop of `SetServiceListing` (source lines 213-222) from index `i`
on, over the not yet visited entries; it carries `domain` and `new_service_id`. -/
def SetServiceListing_loop (is_curr_service_valid : Bool) (curr_service_hash : std_string) :
    List ServiceSummary → Int → CurrentServiceDomain × Int → CurrentServiceDomain × Int
  | [], _, acc => acc
  | svc :: rest, i, (domain, new_service_id) =>
    SetServiceListing_loop is_curr_service_valid curr_service_hash rest (i + 1)
      (map_assign domain i (service_label svc),
       if is_curr_service_valid && svc.githash == curr_service_hash then i else new_service_id)

/-- The method `SetServiceListing` (source lines 187-228). The result is `none`
when the call reads `m_ServiceListing[curr_service_id]` out of range. -/
def SetServiceListing (s : DistributedSegmentationModel) (listing : List ServiceSummary) :
    Option DistributedSegmentationModel :=
  -- Get the current service info
  let (is_curr_service_valid, curr_service_id) := s.m_CurrentServiceModel.GetValueAndDomain
  let curr_service_hash? : Option std_string :=
    if is_curr_service_valid then (vector_at s.m_ServiceListing curr_service_id).map (·.githash)
    else some []
  match curr_service_hash? with
  | none => none
  | some curr_service_hash =>
    -- Set the service listing
    let s := { s with m_ServiceListing := listing }
    -- Deal with empty listing
    if s.m_ServiceListing.length == 0 then
      some { s with m_CurrentServiceModel := (s.m_CurrentServiceModel.SetDomain []).SetIsValid false }
    else
      -- Sort the service listing
      let s := { s with m_ServiceListing := std_sort service_summary_cmp s.m_ServiceListing }
      -- Generate the domain for the selected service model
      let (domain, new_service_id) :=
        SetServiceListing_loop is_curr_service_valid curr_service_hash s.m_ServiceListing 0 ([], 0)
      -- Set the current service
      some { s with m_CurrentServiceModel :=
        ((s.m_CurrentServiceModel.SetIsValid true).SetDomain domain).SetValue new_service_id }

/-- The method `DeleteSelectedTicket` (source lines 333-358). The result pairs
the way the call ends (normal return, or the exception thrown) with the state
of the object at that point. -/
def DeleteSelectedTicket (rc : RESTClient) (s : DistributedSegmentationModel) :
    Except IRISException Unit × DistributedSegmentationModel :=
  let (valid, selected_ticket_id) := s.m_TicketListModel.GetValueAndDomain
  if !valid || (s.m_TicketListing.find selected_ticket_id).isEmpty then
    (Except.ok (), s)
  else
    -- Delete the ticket
    let r := rc "api/tickets/%d/delete".toList selected_ticket_id
    if !r.ok then
      (Except.error ⟨"Error deleting ticket %d: %s".toList, selected_ticket_id, r.text⟩, s)
    else
      -- Select the next ticket in the list
      let it := TicketListingResponse.next (s.m_TicketListing.find selected_ticket_id)
      let model :=
        match it with
        | e :: _ => s.m_TicketListModel.SetValue e.1
        | [] =>
          if s.m_TicketListing.size != 0 then
            match s.m_TicketListing.rbegin with
            | e :: _ => s.m_TicketListModel.SetValue e.1
            | [] => s.m_TicketListModel
          else
            s.m_TicketListModel.SetIsValid false
      -- Remove the ticket
      (Except.ok (),
       { s with
         m_TicketListing := s.m_TicketListing.erase selected_ticket_id
         m_TicketListModel := model.InvokeEvent EventType.DomainChangedEvent })

/-- The method `GetLastLogIdOfSelectedTicket` (source lines 360-374). -/
def GetLastLogIdOfSelectedTicket (s : DistributedSegmentationModel) : IdType :=
  let (valid, selected_ticket_id) := s.m_TicketListModel.GetValueAndDomain
  if !valid
      || selected_ticket_id != s.m_SelectedTicketDetail.ticket_id
      || s.m_SelectedTicketDetail.log.length == 0 then
    0
  else
    -- Get the latest id: log.back().id
    match s.m_SelectedTicketDetail.log.getLast? with
    | some e => e.id
    | none => 0

/-- The key comparison loop of `ApplyTicketListingResponse` (source lines
647-654): walks both maps in step and stops at the first differing key. -/
def same_keys_loop :
    List (IdType × TicketStatusSummary) → List (IdType × TicketStatusSummary) → Bool
  | a :: it_old, b :: it_new => if a.1 != b.1 then false else same_keys_loop it_old it_new
  | _, _ => true

/-- The method `ApplyTicketListingResponse` (source lines 634-667). -/
def ApplyTicketListingResponse (s : DistributedSegmentationModel) (resp : TicketListingResponse) :
    DistributedSegmentationModel :=
  -- Check if the ticket listing has changed
  let same_keys :=
    if s.m_TicketListing.size != resp.size then false
    else same_keys_loop s.m_TicketListing.begin_ resp.begin_
  -- Just store the ticket listing
  let s := { s with m_TicketListing := resp }
  -- Set the status of the model
  let s := { s with m_TicketListModel :=
    s.m_TicketListModel.SetIsValid (decide (s.m_TicketListing.size > 0)) }
  if same_keys then
    { s with m_TicketListModel :=
      s.m_TicketListModel.InvokeEvent EventType.DomainDescriptionChangedEvent }
  else
    { s with m_TicketListModel := s.m_TicketListModel.InvokeEvent EventType.DomainChangedEvent }

/-- The append loop of `ApplyTicketDetailResponse` (source lines 747-751) over
the not yet visited entries of the response; it carries the cached log and
`log_modified`. -/
def ApplyTicketDetailResponse_loop :
    List TicketLogEntry → List TicketLogEntry × Bool → List TicketLogEntry × Bool
  | [], acc => acc
  | e :: rest, (log, _) => ApplyTicketDetailResponse_loop rest (log ++ [e], true)

/-- The method `ApplyTicketDetailResponse` (source lines 723-761). -/
def ApplyTicketDetailResponse (s : DistributedSegmentationModel) (resp : TicketDetailResponse) :
    DistributedSegmentationModel :=
  -- Make sure that the detail is for the ticket that is currently selected
  let (valid, selected_ticket_id) := s.m_TicketListModel.GetValueAndDomain
  if !valid || selected_ticket_id != resp.ticket_id then
    -- Just ignore this update
    s
  else
    -- Store the progress
    let s := { s with m_SelectedTicketProgressModel :=
      (s.m_SelectedTicketProgressModel.SetValue resp.progress).SetIsValid true }
    -- Store the log for the current ticket
    let (log, log_modified) :=
      if s.m_SelectedTicketDetail.ticket_id != resp.ticket_id then (([] : List TicketLogEntry), true)
      else (s.m_SelectedTicketDetail.log, false)
    -- Append the log
    let (log, log_modified) := ApplyTicketDetailResponse_loop resp.log (log, log_modified)
    -- Update the other fields
    let s := { s with m_SelectedTicketDetail :=
      { ticket_id := resp.ticket_id, progress := resp.progress, log := log } }
    -- Cause update in the log model
    let s := { s with m_SelectedTicketLogModel := s.m_SelectedTicketLogModel.SetIsValid true }
    if log_modified then
      { s with m_SelectedTicketLogModel :=
        s.m_SelectedTicketLogModel.InvokeEvent EventType.DomainChangedEvent }
    else s

/-- Modelled from the spec: the accessor `GetServerURL()` that the header
generates for `m_ServerURLModel` (read the stored value). -/
def GetServerURL (s : DistributedSegmentationModel) : Int :=
  s.m_ServerURLModel.GetValueAndDomain.2

/-- Modelled from the spec: the accessor `SetServerURL(v)` that the header
generates for `m_ServerURLModel` (`SetValue` on the property). -/
def SetServerURL (s : DistributedSegmentationModel) (v : Int) : DistributedSegmentationModel :=
  { s with m_ServerURLModel := s.m_ServerURLModel.SetValue v }

/-- Modelled from the spec: the accessor `SetServerStatus(v)` that the header
generates for `m_ServerStatusModel`. -/
def SetServerStatus (s : DistributedSegmentationModel) (v : ServerStatus) :
    DistributedSegmentationModel :=
  { s with m_ServerStatusModel := s.m_ServerStatusModel.SetValue v }

/-- Modelled from the spec: the accessor `SetToken(v)` that the header generates
for `m_TokenModel`. -/
def SetToken (s : DistributedSegmentationModel) (v : std_string) : DistributedSegmentationModel :=
  { s with m_TokenModel := s.m_TokenModel.SetValue v }

/-- Modelled from the spec: the accessor `SetServiceDescription(v)` that the
header generates for `m_ServiceDescriptionModel`. -/
def SetServiceDescription (s : DistributedSegmentationModel) (v : std_string) :
    DistributedSegmentationModel :=
  { s with m_ServiceDescriptionModel := s.m_ServiceDescriptionModel.SetValue v }

/-- The loop of `AreAllRequiredTagsAssignedTarget` (source lines 128-132) over
the not yet visited entries. -/
def AreAllRequiredTagsAssignedTarget_loop : List TagTargetSpec → Bool
  | [] => true
  | e :: rest =>
    if e.tag_spec.required && e.object_id == 0 then false
    else AreAllRequiredTagsAssignedTarget_loop rest

/-- The method `AreAllRequiredTagsAssignedTarget` (source lines 126-134). -/
def AreAllRequiredTagsAssignedTarget (s : DistributedSegmentationModel) : Bool :=
  AreAllRequiredTagsAssignedTarget_loop s.m_TagSpecArray

/-- The method `CheckState` (source lines 136-147). -/
def CheckState (s : DistributedSegmentationModel) (state : UIState) : Bool :=
  match state with
  | UIState.UIF_AUTHENTICATED =>
    s.m_ServerStatusModel.GetValueAndDomain.2 == ServerStatus.CONNECTED_AUTHORIZED
  | UIState.UIF_TAGS_ASSIGNED => s.AreAllRequiredTagsAssignedTarget

/-- The method `GetUserServerList` (source lines 149-156): the URLs after the
built-in ones. -/
def GetUserServerList (s : DistributedSegmentationModel) : List std_string :=
  s.m_ServerURLList.drop s.m_SystemServerURLList.length

/-- The method `SetUserServerList` (source lines 158-178). The result is `none`
when the call reads `m_ServerURLList[GetServerURL()]` out of range. -/
def SetUserServerList (s : DistributedSegmentationModel) (servers : List std_string) :
    Option DistributedSegmentationModel :=
  -- Get the current server (the URL model is always valid)
  match vector_at s.m_ServerURLList s.GetServerURL with
  | none => none
  | some my_server =>
    -- Reset the list of servers
    let s := { s with m_ServerURLList := s.m_SystemServerURLList }
    let s := { s with m_ServerURLList := s.m_ServerURLList ++ servers }
    -- Is the selected server still on the list
    let it := std_find s.m_ServerURLList my_server
    let s := if it == s.m_ServerURLList.length then s.SetServerURL 0 else s.SetServerURL it
    -- Update the domain
    some { s with m_ServerURLModel :=
      s.m_ServerURLModel.InvokeEvent EventType.DomainChangedEvent }

/-- The method `ApplyStatusCheckResponse` (source lines 468-487). The result is
`none` when the final `SetServiceListing` is undefined. -/
def ApplyStatusCheckResponse (s : DistributedSegmentationModel) (result : StatusCheckResponse) :
    Option DistributedSegmentationModel :=
  let s :=
    if result.auth_response.connected then
      if result.auth_response.authenticated then
        -- We no longer need a token
        (s.SetServerStatus ServerStatus.CONNECTED_AUTHORIZED).SetToken []
      else
        s.SetServerStatus ServerStatus.CONNECTED_NOT_AUTHORIZED
    else
      s.SetServerStatus ServerStatus.NOT_CONNECTED
  s.SetServiceListing result.service_listing

/-- The role filter that `AssignTagObjectIds` computes from the tag kind
(source lines 549-556); `-1` stands for no filter. -/
def role_filter_of (type : TagType) : Int :=
  match type with
  | TagType.TAG_LAYER_MAIN => (LayerRole.MAIN_ROLE.mask : Int)
  | TagType.TAG_LAYER_OVERLAY => (LayerRole.OVERLAY_ROLE.mask : Int)
  | TagType.TAG_LAYER_ANATOMICAL =>
    ((LayerRole.MAIN_ROLE.mask ||| LayerRole.OVERLAY_ROLE.mask : Nat) : Int)
  | _ => -1

/-- The body of the loop of `AssignTagObjectIds` (source lines 543-568) for one
entry of the binding array. -/
def AssignTagObjectIds_body (driver : IRISApplication) (tag : TagTargetSpec) : TagTargetSpec :=
  let tag := { tag with object_id := 0, desc := "Unassigned".toList }
  if driver.IsMainImageLoaded then
    let role_filter := role_filter_of tag.tag_spec.type
    if role_filter >= 0 then
      let found := driver.FindLayersByTag tag.tag_spec.name role_filter.toNat
      if found.length == 1 then
        match found with
        | front :: _ => { tag with object_id := front.m_UniqueId, desc := front.m_Nickname }
        | [] => tag
      else tag
    else tag
  else tag

/-- The method `AssignTagObjectIds` (source lines 535-570): every entry of the
binding array is rebound in turn, each independently of the others. -/
def AssignTagObjectIds (s : DistributedSegmentationModel) (driver : IRISApplication) :
    DistributedSegmentationModel :=
  { s with m_TagSpecArray := s.m_TagSpecArray.map (AssignTagObjectIds_body driver) }

/-- The loop of `ApplyServiceDetailResponse` (source lines 578-584) that stores
one fresh unbound entry per tag spec. The description of a fresh entry is the
empty string of a default-constructed `TagTargetSpec`. -/
def fresh_tag_targets : List TagSpec → List TagTargetSpec → List TagTargetSpec
  | [], acc => acc
  | ts :: rest, acc => fresh_tag_targets rest (acc ++ [{ tag_spec := ts, object_id := 0, desc := [] }])

/-- The method `ApplyServiceDetailResponse` (source lines 572-600); `driver` is
the workspace read by the auto-binding. -/
def ApplyServiceDetailResponse (s : DistributedSegmentationModel) (driver : IRISApplication)
    (resp : ServiceDetailResponse) : DistributedSegmentationModel :=
  let s := s.SetServiceDescription resp.longdesc
  -- Store the tag spec array
  let s := { s with m_TagSpecArray := fresh_tag_targets resp.tag_specs [] }
  -- Assign tag ids to objects in current workspace
  let s := s.AssignTagObjectIds driver
  -- Fire off a domain modified event
  let s := { s with m_TagListModel := s.m_TagListModel.InvokeEvent EventType.DomainChangedEvent }
  if resp.tag_specs.length != 0 then
    { s with m_TagListModel := (s.m_TagListModel.SetValue 0).SetIsValid true }
  else
    { s with m_TagListModel := s.m_TagListModel.SetIsValid false }

/-- The method `SetCurrentTagImageLayerValue` (source lines 811-828). The result
is `none` when the call writes `m_TagSpecArray[curr_tag]` out of range. -/
def SetCurrentTagImageLayerValue (s : DistributedSegmentationModel) (driver : IRISApplication)
    (value : Nat) : Option DistributedSegmentationModel :=
  let (valid, curr_tag) := s.m_TagListModel.GetValueAndDomain
  if valid then
    match vector_at s.m_TagSpecArray curr_tag with
    | none => none
    | some entry =>
      -- Set the target id and the target description
      let w := driver.FindLayer value
      let desc :=
        match w.bind (fun j => driver.layers.get? j) with
        | some l => l.m_Nickname
        | none => "Unassigned".toList
      some { s with
        m_TagSpecArray :=
          s.m_TagSpecArray.set curr_tag.toNat { entry with object_id := value, desc := desc }
        m_TagListModel := s.m_TagListModel.InvokeEvent EventType.DomainChangedEvent }
  else some s

/-- Modelled from the spec: `GetTags()` of the layer at position `w`. -/
def GetTags (d : IRISApplication) (w : Nat) : List std_string :=
  match d.layers.get? w with
  | some l => l.m_Tags
  | none => []

/-- Modelled from the spec: `SetTags(tags)` on the layer at position `w`. -/
def SetTags (d : IRISApplication) (w : Nat) (tags : List std_string) : IRISApplication :=
  match d.layers.get? w with
  | some l => { d with layers := d.layers.set w { l with m_Tags := tags } }
  | none => d

/-- The inner loop of `ApplyTagsToTargets` (source lines 276-285) over the
layer positions not yet visited: the tag `name` is removed from every layer
other than `wrapper`. -/
def ApplyTagsToTargets_others (wrapper : Nat) (name : std_string) :
    List Nat → IRISApplication → IRISApplication
  | [], d => d
  | it :: rest, d =>
    let d :=
      if it != wrapper then
        let tags := GetTags d it
        if tags.contains name then SetTags d it (tags.filter (fun t => t != name))
        else d
      else d
    ApplyTagsToTargets_others wrapper name rest d

/-- The body of the outer loop of `ApplyTagsToTargets` (source lines 264-287)
for one entry of the binding array. -/
def ApplyTagsToTargets_body (d : IRISApplication) (tts : TagTargetSpec) : IRISApplication :=
  let ts := tts.tag_spec
  if ts.type == TagType.TAG_LAYER_MAIN || ts.type == TagType.TAG_LAYER_ANATOMICAL
      || ts.type == TagType.TAG_LAYER_OVERLAY then
    match d.FindLayer tts.object_id with
    | some wrapper =>
      let tags := GetTags d wrapper
      let d := if !tags.contains ts.name then SetTags d wrapper (tags ++ [ts.name]) else d
      ApplyTagsToTargets_others wrapper ts.name (List.range d.layers.length) d
    | none => d
  else d

/-- The outer loop of `ApplyTagsToTargets` (source line 262) over the entries
of the binding array not yet visited. -/
def ApplyTagsToTargets_loop : List TagTargetSpec → IRISApplication → IRISApplication
  | [], d => d
  | tts :: rest, d => ApplyTagsToTargets_loop rest (ApplyTagsToTargets_body d tts)

/-- The method `ApplyTagsToTargets` (source lines 259-289): the workspace after
the call. The model itself is not written. -/
def ApplyTagsToTargets (s : DistributedSegmentationModel) (driver : IRISApplication) :
    IRISApplication :=
  ApplyTagsToTargets_loop s.m_TagSpecArray driver

/-- The layer that an entry of the binding array writes its tag to: the layer
found for the bound id when the tag is of a layer kind, `none` otherwise. -/
def bound_layer (d : IRISApplication) (tts : TagTargetSpec) : Option Nat :=
  if tts.tag_spec.type == TagType.TAG_LAYER_MAIN || tts.tag_spec.type == TagType.TAG_LAYER_ANATOMICAL
      || tts.tag_spec.type == TagType.TAG_LAYER_OVERLAY then
    d.FindLayer tts.object_id
  else none

/-- The layer to which the last entry of `specs` that writes the tag name `t`
writes it, `none` when no entry writes `t`. -/
def last_bound_layer (d : IRISApplication) : List TagTargetSpec → std_string → Option Nat
  | [], _ => none
  | tts :: rest, t =>
    match last_bound_layer d rest t with
    | some w => some w
    | none => if tts.tag_spec.name = t then bound_layer d tts else none

/-- Modelled from the spec: what the transport client and the JSON decoder do
during one `AsyncGetServiceListing`: the outcome of the request
`api/services?format=json`, of parsing the body, and of decoding each entry of
the `result` array in turn. -/
structure ServiceListingTransport where
  Get : Fallible Bool
  parse : Fallible Bool
  result : List (Fallible ServiceSummary)
deriving DecidableEq, Repr

/-- Modelled from the spec: what the transport client does during one
`AsyncCheckStatus`: the outcome of `SetServerURL`, of `Authenticate` and of the
catalog fetch. -/
structure StatusCheckTransport where
  SetServerURL : Fallible Unit
  Authenticate : Fallible Bool
  listing : ServiceListingTransport
deriving DecidableEq, Repr

/-- Modelled from the spec: what the transport client and the JSON decoder do
during one `AsyncGetTicketListing`: the outcome of the request
`api/tickets?format=json`, of parsing the body, and of decoding each entry of
the `result` array in turn. -/
structure TicketListingTransport where
  Get : Fallible Bool
  parse : Fallible Bool
  tickets : List (Fallible TicketStatusSummary)
deriving DecidableEq, Repr

/-- The decoding loop of `AsyncGetServiceListing` (source lines 405-413) over
the entries not yet decoded: each decoded entry is pushed to `services`; a
fault ends the loop with the entries pushed so far. -/
def AsyncGetServiceListing_loop :
    List (Fallible ServiceSummary) → List ServiceSummary → Fallible Unit × List ServiceSummary
  | [], services => (Fallible.returns (), services)
  | Fallible.returns service :: rest, services =>
    AsyncGetServiceListing_loop rest (services ++ [service])
  | Fallible.throws :: _, services => (Fallible.throws, services)

/-- The method `AsyncGetServiceListing` (source lines 390-424): the return
value and the content of the reference parameter `services` after the call. -/
def AsyncGetServiceListing (t : ServiceListingTransport) (services : List ServiceSummary) :
    Bool × List ServiceSummary :=
  match t.Get with
  | Fallible.returns true =>
    match t.parse with
    | Fallible.returns true =>
      match AsyncGetServiceListing_loop t.result services with
      | (Fallible.returns (), services) => (true, services)
      | (Fallible.throws, services) => (false, services)
    | Fallible.returns false => (true, services)
    | Fallible.throws => (false, services)
  | Fallible.returns false => (false, services)
  | Fallible.throws => (false, services)

/-- The `try` block of `AsyncCheckStatus` (source lines 434-459): how it ends
(normally, also for the early `return response`, or by a fault), the value of
`response` at that point, and the requests made. -/
def AsyncCheckStatus_try (url token : std_string) (t : StatusCheckTransport)
    (response : StatusCheckResponse) :
    Fallible Unit × StatusCheckResponse × List TransportCall :=
  -- See if we can successfully get a listing
  let fetch (calls : List TransportCall) : Fallible Unit × StatusCheckResponse × List TransportCall :=
    let (ok, services) := AsyncGetServiceListing t.listing response.service_listing
    let response := { response with service_listing := services }
    let calls := calls ++ [TransportCall.Get "api/services?format=json".toList]
    if ok then
      (Fallible.returns (),
       { response with auth_response := { connected := true, authenticated := true } }, calls)
    else (Fallible.returns (), response, calls)
  -- If token is empty, bypass the authentication step
  if token.length == 0 then
    match t.SetServerURL with
    | Fallible.returns () => fetch [TransportCall.SetServerURL url]
    | Fallible.throws => (Fallible.throws, response, [TransportCall.SetServerURL url])
  else
    match t.Authenticate with
    | Fallible.returns false =>
      -- Failed authentication but did connect
      (Fallible.returns (),
       { response with auth_response := { response.auth_response with connected := true } },
       [TransportCall.Authenticate url token])
    | Fallible.returns true => fetch [TransportCall.Authenticate url token]
    | Fallible.throws => (Fallible.throws, response, [TransportCall.Authenticate url token])

/-- The method `AsyncCheckStatus` (source lines 426-466): how the call ends
(a returned response, or a fault that leaves the function) and the requests
made to the transport client. -/
def AsyncCheckStatus (url token : std_string) (t : StatusCheckTransport) :
    Fallible StatusCheckResponse × List TransportCall :=
  let response : StatusCheckResponse :=
    { auth_response := { connected := false, authenticated := false }, service_listing := [] }
  match AsyncCheckStatus_try url token t response with
  | (Fallible.returns (), response, calls) => (Fallible.returns response, calls)
  | (Fallible.throws, response, calls) =>
    -- catch(...)
    (Fallible.returns
      { response with auth_response := { response.auth_response with connected := false } },
     calls)

/-- The decoding loop of `AsyncGetTicketListing` (source lines 615-623) over
the entries not yet decoded: each decoded ticket is stored under its id; a
fault ends the loop with the tickets stored so far. -/
def AsyncGetTicketListing_loop :
    List (Fallible TicketStatusSummary) → TicketListingResponse →
      Fallible Unit × TicketListingResponse
  | [], result => (Fallible.returns (), result)
  | Fallible.returns tss :: rest, result =>
    AsyncGetTicketListing_loop rest (result.assign tss.id tss)
  | Fallible.throws :: _, result => (Fallible.throws, result)

/-- The method `AsyncGetTicketListing` (source lines 602-632): every fault is
caught and `result` is returned as it stands. -/
def AsyncGetTicketListing (t : TicketListingTransport) : TicketListingResponse :=
  let result := TicketListingResponse.empty
  match t.Get with
  | Fallible.returns true =>
    match t.parse with
    | Fallible.returns true => (AsyncGetTicketListing_loop t.tickets result).2
    | _ => result
  | _ => result

/-- The role filter of a tag kind in the words of the specification: the main
role for `LayerMain`, the overlay role for `LayerOverlay`, the main or the
overlay role for `LayerAnatomical`, and no role for the other kinds. -/
def kind_allows_role (type : TagType) (r : LayerRole) : Bool :=
  match type with
  | TagType.TAG_LAYER_MAIN => r == LayerRole.MAIN_ROLE
  | TagType.TAG_LAYER_OVERLAY => r == LayerRole.OVERLAY_ROLE
  | TagType.TAG_LAYER_ANATOMICAL => r == LayerRole.MAIN_ROLE || r == LayerRole.OVERLAY_ROLE
  | _ => false

/-- The objects that match a tag spec in the words of the specification: the
objects whose role is allowed for the kind and that carry the tag's name. -/
def tag_candidates (driver : IRISApplication) (ts : TagSpec) : List ImageWrapperBase :=
  driver.layers.filter (fun l => kind_allows_role ts.type l.role && l.m_Tags.contains ts.name)

/-- The layer kinds among the tag kinds. -/
def is_layer_kind (type : TagType) : Prop :=
  type = TagType.TAG_LAYER_MAIN ∨ type = TagType.TAG_LAYER_OVERLAY
    ∨ type = TagType.TAG_LAYER_ANATOMICAL

instance (type : TagType) : Decidable (is_layer_kind type) :=
  inferInstanceAs (Decidable (type = TagType.TAG_LAYER_MAIN ∨ type = TagType.TAG_LAYER_OVERLAY
    ∨ type = TagType.TAG_LAYER_ANATOMICAL))

/-- Modelled from the spec: what the transport client and the JSON decoder do
during one `AsyncGetTicketDetails`: the outcome of the request
`api/tickets/<id>/detail?since=<id>`, of parsing the body, of reading the
progress, and of decoding each log entry (with its attachments) in turn. -/
structure TicketDetailTransport where
  Get : Fallible Bool
  parse : Fallible Bool
  progress : Fallible Rat
  log : List (Fallible TicketLogEntry)
deriving DecidableEq, Repr

/-- The decoding loop of `AsyncGetTicketDetails` (source lines 692-712) over the
log entries not yet decoded: each decoded entry is pushed to `tdr.log`; a fault
ends the loop with the entries pushed so far. -/
def AsyncGetTicketDetails_loop :
    List (Fallible TicketLogEntry) → TicketDetailResponse → Fallible Unit × TicketDetailResponse
  | [], tdr => (Fallible.returns (), tdr)
  | Fallible.returns loglet :: rest, tdr =>
    AsyncGetTicketDetails_loop rest { tdr with log := tdr.log ++ [loglet] }
  | Fallible.throws :: _, tdr => (Fallible.throws, tdr)

/-- The method `AsyncGetTicketDetails` (source lines 669-721): every fault is
caught and `tdr` is returned as it stands. -/
def AsyncGetTicketDetails (t : TicketDetailTransport) (ticket_id _last_log : IdType) :
    TicketDetailResponse :=
  let tdr : TicketDetailResponse := { ticket_id := ticket_id, progress := 0, log := [] }
  match t.Get with
  | Fallible.returns true =>
    match t.parse with
    | Fallible.returns true =>
      -- Read progress
      match t.progress with
      | Fallible.returns progress =>
        -- Read logs
        (AsyncGetTicketDetails_loop t.log { tdr with progress := progress }).2
      | Fallible.throws => tdr
    | _ => tdr
  | _ => tdr

/-- Modelled from the spec: what the transport client and the JSON decoder do
during one `AsyncGetServiceDetails`: the outcome of the request
`api/services/<hash>/detail`, of parsing the body, of reading `longdesc` and
`url`, and of decoding each entry of the `tags` array in turn. -/
structure ServiceDetailTransport where
  Get : Fallible Bool
  parse : Fallible Bool
  longdesc : Fallible std_string
  url : Fallible std_string
  tags : List (Fallible TagSpec)
deriving DecidableEq, Repr

/-- The decoding loop of `AsyncGetServiceDetails` (source lines 515-524) over
the tag entries not yet decoded: each decoded tag spec is pushed to
`result.tag_specs`; a fault ends the loop with the specs pushed so far. -/
def AsyncGetServiceDetails_loop :
    List (Fallible TagSpec) → ServiceDetailResponse → Fallible Unit × ServiceDetailResponse
  | [], result => (Fallible.returns (), result)
  | Fallible.returns tag_spec :: rest, result =>
    AsyncGetServiceDetails_loop rest { result with tag_specs := result.tag_specs ++ [tag_spec] }
  | Fallible.throws :: _, result => (Fallible.throws, result)

/-- The `try` block of `AsyncGetServiceDetails` (source lines 503-527): how it
ends and the value of `result` at that point. -/
def AsyncGetServiceDetails_try (t : ServiceDetailTransport) (result : ServiceDetailResponse) :
    Fallible Unit × ServiceDetailResponse :=
  match t.Get with
  | Fallible.throws => (Fallible.throws, result)
  | Fallible.returns false => (Fallible.returns (), result)
  | Fallible.returns true =>
    match t.parse with
    | Fallible.throws => (Fallible.throws, result)
    | Fallible.returns false => (Fallible.returns (), result)
    | Fallible.returns true =>
      match t.longdesc with
      | Fallible.throws => (Fallible.throws, result)
      | Fallible.returns longdesc =>
        let result := { result with longdesc := longdesc }
        match t.url with
        | Fallible.throws => (Fallible.throws, result)
        | Fallible.returns url =>
          let result := { result with url := url }
          let result := { result with valid := true }
          AsyncGetServiceDetails_loop t.tags result

/-- The method `AsyncGetServiceDetails` (source lines 489-533): how the call
ends (a returned result, or a fault that leaves the function). The handler
`catch (...)` is empty, so after a fault `result` is returned as it stands. -/
def AsyncGetServiceDetails (t : ServiceDetailTransport) (_githash : std_string) :
    Fallible ServiceDetailResponse :=
  let result : ServiceDetailResponse := { valid := false, longdesc := [], url := [], tag_specs := [] }
  match AsyncGetServiceDetails_try t result with
  | (Fallible.returns (), result) => Fallible.returns result
  | (Fallible.throws, result) => Fallible.returns result

/-- A call that `DownloadWorkspace` makes outside the model: creating a
directory, or downloading the files of a ticket into a directory. -/
inductive FileSystemCall where
  | MakeDirectory (dir : std_string)
  | DownloadTicketFiles (ticket_id : IdType) (outdir : std_string) (provider_mode : Bool)
      (area : std_string)
deriving DecidableEq, Repr

/-- Modelled from the spec: the workspace store (`WorkspaceAPI`, an external
collaborator) as far as `DownloadWorkspace` uses it: the temporary directory
name and the outcome of downloading the result files of a ticket into a
directory. -/
structure WorkspaceAPI where
  GetTempDirName : std_string
  DownloadTicketFiles : IdType → std_string → Fallible std_string

/-- The method `DownloadWorkspace` (source lines 311-331): how the call ends
(the returned string, or a fault of the download leaving the function), the
calls made outside the model, and the state of the object afterwards. -/
def DownloadWorkspace (api : WorkspaceAPI) (s : DistributedSegmentationModel) :
    Fallible std_string × List FileSystemCall × DistributedSegmentationModel :=
  -- Is there a valid ticket id with status of success?
  let (valid, selected_ticket_id) := s.m_TicketListModel.GetValueAndDomain
  if !valid then (Fallible.returns [], [], s)
  else if (s.m_TicketListing.find selected_ticket_id).isEmpty then (Fallible.returns [], [], s)
  else
    let (entry, listing) := s.m_TicketListing.subscript selected_ticket_id
    let s := { s with m_TicketListing := listing }
    if entry.status != TicketStatus.STATUS_SUCCESS then (Fallible.returns [], [], s)
    else
      -- Create temporary directory for the download (for now)
      let tempdir := api.GetTempDirName
      let calls := [FileSystemCall.MakeDirectory tempdir,
        FileSystemCall.DownloadTicketFiles selected_ticket_id tempdir false "results".toList]
      -- Download into this directory
      match api.DownloadTicketFiles selected_ticket_id tempdir with
      | Fallible.returns file_list => (Fallible.returns file_list, calls, s)
      | Fallible.throws => (Fallible.throws, calls, s)

/-- Modelled from the spec: the preferences folder (`Registry`, an external
collaborator) as far as the model uses it: the array `UserServerList` and the
entry `PreferredServerIndex` (0 when absent). -/
structure Registry where
  UserServerList : List std_string
  PreferredServerIndex : Int
deriving DecidableEq, Repr

/-- The method `LoadPreferences` (source lines 104-114). The comparison
`pref_server < m_ServerURLList.size()` converts the `int` to the unsigned
64-bit size type. The result is `none` when `SetUserServerList` is undefined. -/
def LoadPreferences (s : DistributedSegmentationModel) (folder : Registry) :
    Option DistributedSegmentationModel :=
  -- Read the list of servers
  let user_servers := folder.UserServerList
  match s.SetUserServerList user_servers with
  | none => none
  | some s =>
    -- Read the preferred server
    let pref_server := folder.PreferredServerIndex
    if (pref_server % 2 ^ 64).toNat < s.m_ServerURLList.length then
      some { s with m_ServerURLModel := s.m_ServerURLModel.SetValue pref_server }
    else some s

/-- The method `SavePreferences` (source lines 116-124): the folder after the
call. -/
def SavePreferences (s : DistributedSegmentationModel) (folder : Registry) : Registry :=
  -- Save the list of servers
  let user_servers := s.GetUserServerList
  let folder := { folder with UserServerList := user_servers }
  -- Save the preferred server index
  { folder with PreferredServerIndex := s.m_ServerURLModel.GetValueAndDomain.2 }

end DistributedSegmentationModel


/-- The catalog order in the words of the specification: non-decreasing by
name and then by version, both compared as plain strings. -/
def name_version_le (a b : ServiceSummary) : Prop :=
  a.name < b.name ∨ (a.name = b.name ∧ a.version ≤ b.version)

instance (a b : ServiceSummary) : Decidable (name_version_le a b) :=
  inferInstanceAs (Decidable (a.name < b.name ∨ (a.name = b.name ∧ a.version ≤ b.version)))

namespace Scenario

/-- A catalog entry with the given name, version and content hash. -/
def service (name version githash : String) : ServiceSummary :=
  ⟨name.toList, githash.toList, version.toList, "segmentation".toList⟩


/-- A log entry with id `i`, category `info` and empty text. -/
def log_entry (i : IdType) : TicketLogEntry :=
  ⟨i, LogType.LOG_INFO, [], [], []⟩

/-- A listing row for ticket `i` with the given status. -/
def ticket (i : IdType) (st : TicketStatus) : IdType × TicketStatusSummary :=
  (i, ⟨i, "seg-net".toList, st⟩)

/-- A state of the model with the given ticket listing, ticket selection
(`sel`, `valid`) and cached detail; the catalog is empty and no progress or
log has been shown yet. -/
def tracker (listing : TicketListingResponse) (sel : IdType) (valid : Bool)
    (detail : TicketDetailResponse) : DistributedSegmentationModel :=
  open DistributedSegmentationModel in
  { m_SystemServerURLList := ["https://dss.itksnap.org".toList]
    m_ServerURLList := ["https://dss.itksnap.org".toList]
    m_ServerURLModel := ⟨0, (), true, []⟩
    m_TokenModel := ⟨[], (), true, []⟩
    m_ServerStatusModel := ⟨ServerStatus.NOT_CONNECTED, (), true, []⟩
    m_ServiceDescriptionModel := ⟨[], (), true, []⟩
    m_TagSpecArray := []
    m_TagListModel := ⟨-1, (), false, []⟩
    m_ServiceListing := []
    m_CurrentServiceModel := ⟨-1, [], false, []⟩
    m_TicketListing := listing
    m_TicketListModel := ⟨sel, (), valid, []⟩
    m_SelectedTicketDetail := detail
    m_SelectedTicketProgressModel := ⟨0, ⟨0, 1, 0⟩, false, []⟩
    m_SelectedTicketLogModel := ⟨-1, (), false, []⟩ }

/-- The listing with the single ticket 42. -/
def listing_42 : TicketListingResponse :=
  ⟨[ticket 42 TicketStatus.STATUS_CLAIMED], by decide⟩

/-- The listing with the tickets 5 and 7. -/
def listing_5_7 : TicketListingResponse :=
  ⟨[ticket 5 TicketStatus.STATUS_SUCCESS, ticket 7 TicketStatus.STATUS_CLAIMED], by decide⟩

/-- A remote side on which every request succeeds, with response text `ok`. -/
def rc_success : RESTClient := fun _ _ => ⟨true, "ok".toList⟩

/-- A remote side on which every request fails, with response text `denied`. -/
def rc_failure : RESTClient := fun _ _ => ⟨false, "denied".toList⟩

/-- The listing with the tickets 5, 7 and 9. -/
def listing_5_7_9 : TicketListingResponse :=
  ⟨[ticket 5 TicketStatus.STATUS_SUCCESS, ticket 7 TicketStatus.STATUS_CLAIMED,
    ticket 9 TicketStatus.STATUS_READY], by decide⟩

/-- The listing with the tickets 5, 7 and 9, all finished. -/
def listing_5_7_9_done : TicketListingResponse :=
  ⟨[ticket 5 TicketStatus.STATUS_SUCCESS, ticket 7 TicketStatus.STATUS_FAILED,
    ticket 9 TicketStatus.STATUS_SUCCESS], by decide⟩

end Scenario

namespace Scenario

/-- A state whose catalog holds seg-net 1.0 (hash aaa) and seg-net 2.0 (hash
bbb), in sorted order, with the second entry selected. -/
def catalog_selected_bbb : DistributedSegmentationModel :=
  { tracker listing_42 42 true ⟨0, 0, []⟩ with
    m_ServiceListing := [service "seg-net" "1.0" "aaa", service "seg-net" "2.0" "bbb"]
    m_CurrentServiceModel :=
      ⟨1, [(0, DistributedSegmentationModel.service_label (service "seg-net" "1.0" "aaa")),
           (1, DistributedSegmentationModel.service_label (service "seg-net" "2.0" "bbb"))],
       true, []⟩ }

end Scenario

namespace Scenario

/-- A binding-array entry for the tag `name` of the given kind, bound to the
object `object_id` (0 for unbound). -/
def tag (name : String) (type : TagType) (required : Bool) (object_id : Nat) : TagTargetSpec :=
  { tag_spec := { required := required, type := type, name := name.toList, hint := [], object_id := 0 }
    object_id := object_id
    desc := if object_id = 0 then "Unassigned".toList else "bound".toList }

/-- A state of the model with the given binding array and its first entry
selected. -/
def with_tags (tags : List TagTargetSpec) : DistributedSegmentationModel :=
  { tracker listing_42 42 true ⟨0, 0, []⟩ with
    m_TagSpecArray := tags
    m_TagListModel := ⟨0, (), true, []⟩ }

/-- A layer of the workspace with the given id, display name, role and tags. -/
def layer (id : Nat) (nickname : String) (role : LayerRole) (tags : List String) :
    ImageWrapperBase :=
  { m_UniqueId := id, m_Nickname := nickname.toList, role := role,
    m_Tags := tags.map String.toList }

/-- A workspace with a main image (id 1, tagged `T1`) and two overlays (ids 2
and 3, both tagged `Seg`). -/
def workspace : IRISApplication :=
  { main_image_loaded := true
    layers := [layer 1 "t1.nii" LayerRole.MAIN_ROLE ["T1"],
               layer 2 "seg-a.nii" LayerRole.OVERLAY_ROLE ["Seg"],
               layer 3 "seg-b.nii" LayerRole.OVERLAY_ROLE ["Seg"]] }

/-- A state with the built-in server and the user servers `a.org` and `b.org`,
the latter selected. -/
def servers_b_selected : DistributedSegmentationModel :=
  { tracker listing_42 42 true ⟨0, 0, []⟩ with
    m_ServerURLList := ["https://dss.itksnap.org".toList, "a.org".toList, "b.org".toList]
    m_ServerURLModel := ⟨2, (), true, []⟩
    m_TokenModel := ⟨"secret".toList, (), true, []⟩ }

/-- A ticket-listing poll whose request fails. -/
def ticket_poll_failed : DistributedSegmentationModel.TicketListingTransport :=
  { Get := Fallible.returns false, parse := Fallible.returns true, tickets := [] }

end Scenario

namespace Scenario

/-- A probe during which authentication is refused; the catalog request would
succeed if it were made. -/
def probe_auth_refused : DistributedSegmentationModel.StatusCheckTransport :=
  { SetServerURL := Fallible.returns ()
    Authenticate := Fallible.returns false
    listing :=
      { Get := Fallible.returns true, parse := Fallible.returns true
        result := [Fallible.returns (service "seg-net" "1.0" "aaa")] } }

/-- A probe during which authentication succeeds and the catalog with the one
service seg-net 1.0 is fetched. -/
def probe_ok : DistributedSegmentationModel.StatusCheckTransport :=
  { SetServerURL := Fallible.returns ()
    Authenticate := Fallible.returns true
    listing :=
      { Get := Fallible.returns true, parse := Fallible.returns true
        result := [Fallible.returns (service "seg-net" "1.0" "aaa")] } }

end Scenario

namespace Scenario

/-- A ticket-detail poll whose request fails. -/
def detail_poll_failed : DistributedSegmentationModel.TicketDetailTransport :=
  { Get := Fallible.returns false, parse := Fallible.returns true
    progress := Fallible.returns 1, log := [] }

/-- A state in which ticket 42 is selected, its detail is cached with progress 1
and the log ids 1, 2, and the progress model shows 1. -/
def tracker_42_in_progress : DistributedSegmentationModel :=
  { tracker listing_42 42 true ⟨42, 1, [log_entry 1, log_entry 2]⟩ with
    m_SelectedTicketProgressModel := ⟨1, ⟨0, 1, 0⟩, true, []⟩
    m_SelectedTicketLogModel := ⟨-1, (), true, []⟩ }

end Scenario

namespace Scenario

/-- A service-detail lookup in which the request and the parse succeed, the
descriptions and the first tag entry decode, and decoding the second tag entry
throws. -/
def detail_fault_in_tag : DistributedSegmentationModel.ServiceDetailTransport :=
  { Get := Fallible.returns true, parse := Fallible.returns true
    longdesc := Fallible.returns "Brain segmentation".toList
    url := Fallible.returns "https://seg.org".toList
    tags := [Fallible.returns (tag "T1" TagType.TAG_LAYER_MAIN true 0).tag_spec, Fallible.throws] }

/-- A service-detail lookup in which the request and the parse succeed, the long
description decodes, and decoding the URL throws. -/
def detail_fault_in_url : DistributedSegmentationModel.ServiceDetailTransport :=
  { Get := Fallible.returns true, parse := Fallible.returns true
    longdesc := Fallible.returns "Brain segmentation".toList
    url := Fallible.throws
    tags := [] }

/-- A workspace store whose temporary directory is `/tmp/dss` and whose
download returns the file list `result.nii`. -/
def store : DistributedSegmentationModel.WorkspaceAPI :=
  { GetTempDirName := "/tmp/dss".toList
    DownloadTicketFiles := fun _ _ => Fallible.returns "result.nii".toList }

end Scenario

namespace DistributedSegmentationModel

theorem ApplyTicketDetailResponse_loop_eq (r : List TicketLogEntry) :
    ∀ (log : List TicketLogEntry) (m : Bool),
      ApplyTicketDetailResponse_loop r (log, m) = (log ++ r, m || !r.isEmpty) := by
  induction r with
  | nil => intro log m; simp [ApplyTicketDetailResponse_loop]
  | cons e rest ih => intro log m; simp [ApplyTicketDetailResponse_loop, ih]

theorem ApplyTicketDetailResponse_detail (s : DistributedSegmentationModel)
    (resp : TicketDetailResponse)
    (hsel : s.m_TicketListModel.GetValueAndDomain = (true, resp.ticket_id)) :
    (s.ApplyTicketDetailResponse resp).m_SelectedTicketDetail =
      { ticket_id := resp.ticket_id, progress := resp.progress,
        log := (if s.m_SelectedTicketDetail.ticket_id = resp.ticket_id
                then s.m_SelectedTicketDetail.log else []) ++ resp.log } := by
  simp only [ConcretePropertyModel.GetValueAndDomain, Prod.mk.injEq] at hsel
  obtain ⟨hv, hid⟩ := hsel
  unfold ApplyTicketDetailResponse
  simp only [ConcretePropertyModel.GetValueAndDomain, hv, hid]
  by_cases hc : s.m_SelectedTicketDetail.ticket_id = resp.ticket_id
  · simp [hc, ApplyTicketDetailResponse_loop_eq]
    split <;> rfl
  · simp [hc, ApplyTicketDetailResponse_loop_eq]

theorem ApplyTicketDetailResponse_ticket_model (s : DistributedSegmentationModel)
    (resp : TicketDetailResponse) :
    (s.ApplyTicketDetailResponse resp).m_TicketListModel = s.m_TicketListModel := by
  unfold ApplyTicketDetailResponse
  simp only []
  split
  · rfl
  · split <;> split <;> rfl

theorem ids_le_getLast (l : List TicketLogEntry) (e : TicketLogEntry)
    (hs : (l.map (·.id)).Pairwise (· < ·)) (hl : l.getLast? = some e) :
    ∀ x ∈ l, x.id ≤ e.id := by
  intro x hx
  obtain ⟨l', rfl⟩ : ∃ l', l = l' ++ [e] := by
    refine ⟨l.dropLast, ?_⟩
    have hne : l ≠ [] := by rintro rfl; simp at hl
    have := List.dropLast_append_getLast hne
    rw [List.getLast?_eq_getLast _ hne] at hl
    simp only [Option.some.injEq] at hl
    rw [hl] at this
    exact this.symm
  simp only [List.map_append, List.map_cons, List.map_nil, List.pairwise_append] at hs
  rcases List.mem_append.1 hx with h | h
  · exact le_of_lt (hs.2.2 x.id (List.mem_map_of_mem _ h) e.id (by simp))
  · simp only [List.mem_singleton] at h
    rw [h]


theorem listing_split_at_key (l : List (IdType × TicketStatusSummary)) (sel : IdType)
    (hs : (l.map Prod.fst).Pairwise (· < ·)) (hmem : sel ∈ l.map Prod.fst) :
    ∃ pre v post, l = pre ++ (sel, v) :: post
      ∧ (∀ e ∈ pre, e.1 < sel) ∧ (∀ e ∈ post, sel < e.1) := by
  obtain ⟨e, he, rfl⟩ := List.mem_map.1 hmem
  obtain ⟨pre, post, rfl⟩ := List.append_of_mem he
  refine ⟨pre, e.2, post, rfl, ?_, ?_⟩
  · intro x hx
    simp only [List.map_append, List.map_cons, List.pairwise_append] at hs
    exact hs.2.2 x.1 (List.mem_map_of_mem _ hx) e.1 (by simp)
  · intro x hx
    simp only [List.map_append, List.map_cons, List.pairwise_append, List.pairwise_cons] at hs
    exact hs.2.1.1 x.1 (List.mem_map_of_mem _ hx)

theorem find_of_split (pre post : List (IdType × TicketStatusSummary)) (sel : IdType)
    (v : TicketStatusSummary) (hpre : ∀ e ∈ pre, e.1 < sel) :
    (pre ++ (sel, v) :: post).dropWhile (fun e => e.1 != sel) = (sel, v) :: post := by
  rw [List.dropWhile_append_of_pos (fun e he => by simpa using ne_of_lt (hpre e he))]
  simp [List.dropWhile]

theorem eraseP_of_split (pre post : List (IdType × TicketStatusSummary)) (sel : IdType)
    (v : TicketStatusSummary) (hpre : ∀ e ∈ pre, e.1 < sel) :
    (pre ++ (sel, v) :: post).eraseP (fun e => e.1 == sel) = pre ++ post := by
  rw [List.eraseP_append_right]
  · simp
  · intro b hb
    simpa using ne_of_lt (hpre b hb)

theorem filter_of_split (pre post : List (IdType × TicketStatusSummary)) (sel : IdType)
    (v : TicketStatusSummary) (hpre : ∀ e ∈ pre, e.1 < sel) (hpost : ∀ e ∈ post, sel < e.1) :
    (pre ++ (sel, v) :: post).filter (fun e => e.1 != sel) = pre ++ post := by
  rw [List.filter_append, List.filter_cons]
  have h₁ : pre.filter (fun e => e.1 != sel) = pre :=
    List.filter_eq_self.2 (fun e he => by simpa using ne_of_lt (hpre e he))
  have h₂ : post.filter (fun e => e.1 != sel) = post :=
    List.filter_eq_self.2 (fun e he => by simpa using ne_of_gt (hpost e he))
  simp [h₁, h₂]

theorem same_keys_loop_iff (a : List (IdType × TicketStatusSummary)) :
    ∀ b : List (IdType × TicketStatusSummary), a.length = b.length →
      (same_keys_loop a b = true ↔ a.map Prod.fst = b.map Prod.fst) := by
  induction a with
  | nil =>
    intro b hb
    cases b with
    | nil => simp [same_keys_loop]
    | cons y b => simp at hb
  | cons x a ih =>
    intro b hb
    cases b with
    | nil => simp at hb
    | cons y b =>
      have hlen : a.length = b.length := by simpa using hb
      by_cases hxy : x.1 = y.1
      · simp [same_keys_loop, hxy, ih b hlen]
      · simp [same_keys_loop, hxy]

theorem sorted_keys_eq_of_same_members (l₁ l₂ : List IdType)
    (h₁ : l₁.Pairwise (· < ·)) (h₂ : l₂.Pairwise (· < ·)) (h : ∀ k, k ∈ l₁ ↔ k ∈ l₂) :
    l₁ = l₂ := by
  have d₁ : l₁.Nodup := h₁.imp (fun h => ne_of_lt h)
  have d₂ : l₂.Nodup := h₂.imp (fun h => ne_of_lt h)
  have hp : l₁.Perm l₂ := (List.perm_ext_iff_of_nodup d₁ d₂).2 h
  exact List.eq_of_perm_of_sorted hp h₁ h₂

theorem same_keys_iff (old new : TicketListingResponse) :
    ((if old.size != new.size then false else same_keys_loop old.begin_ new.begin_) = true)
      ↔ ∀ k, k ∈ old.keys ↔ k ∈ new.keys := by
  have hkeys : old.keys = new.keys ↔ ∀ k, k ∈ old.keys ↔ k ∈ new.keys :=
    ⟨fun h k => by rw [h],
     fun h => sorted_keys_eq_of_same_members _ _ old.sorted new.sorted h⟩
  rw [← hkeys]
  unfold TicketListingResponse.size TicketListingResponse.begin_ TicketListingResponse.keys
  by_cases hlen : old.entries.length = new.entries.length
  · simp [hlen, same_keys_loop_iff _ _ hlen]
  · have hne : old.entries.map Prod.fst ≠ new.entries.map Prod.fst := by
      intro h
      apply hlen
      simpa using congrArg List.length h
    simp [hlen, hne]

theorem SetIsValid_events {α δ : Type} (p : ConcretePropertyModel α δ) (b : Bool) :
    (p.SetIsValid b).events = p.events
      ∨ (p.SetIsValid b).events = p.events ++ [EventType.ValueChangedEvent] := by
  unfold ConcretePropertyModel.SetIsValid
  split
  · exact Or.inr rfl
  · exact Or.inl rfl

theorem ApplyTicketListingResponse_events (s : DistributedSegmentationModel)
    (resp : TicketListingResponse) :
    (s.ApplyTicketListingResponse resp).m_TicketListModel.events =
      (s.m_TicketListModel.SetIsValid (decide (resp.size > 0))).events ++
        [if (if s.m_TicketListing.size != resp.size then false
              else same_keys_loop s.m_TicketListing.begin_ resp.begin_) = true
          then EventType.DomainDescriptionChangedEvent else EventType.DomainChangedEvent] := by
  unfold ApplyTicketListingResponse
  simp only []
  generalize (if s.m_TicketListing.size != resp.size then false
    else same_keys_loop s.m_TicketListing.begin_ resp.begin_) = c
  cases c <;> rfl

theorem service_summary_cmp_true_le (a b : ServiceSummary)
    (h : service_summary_cmp a b = true) : name_version_le a b := by
  unfold service_summary_cmp at h
  unfold name_version_le
  by_cases h₁ : a.name < b.name
  · exact Or.inl h₁
  · by_cases h₂ : a.name = b.name ∧ a.version < b.version
    · exact Or.inr ⟨h₂.1, le_of_lt h₂.2⟩
    · simp [h₁, h₂] at h

theorem service_summary_cmp_false_le (a b : ServiceSummary)
    (h : service_summary_cmp a b = false) : name_version_le b a := by
  unfold service_summary_cmp at h
  unfold name_version_le
  by_cases h₁ : a.name < b.name
  · simp [h₁] at h
  · by_cases h₂ : a.name = b.name ∧ a.version < b.version
    · simp [h₁, h₂] at h
    · rcases lt_or_eq_of_le (not_lt.1 h₁) with hlt | heq
      · exact Or.inl hlt
      · refine Or.inr ⟨heq, ?_⟩
        exact not_lt.1 (fun hv => h₂ ⟨heq.symm, hv⟩)

theorem name_version_le_trans (a b c : ServiceSummary)
    (hab : name_version_le a b) (hbc : name_version_le b c) : name_version_le a c := by
  unfold name_version_le at *
  rcases hab with h₁ | ⟨h₁, h₁'⟩
  · rcases hbc with h₂ | ⟨h₂, _⟩
    · exact Or.inl (lt_trans h₁ h₂)
    · exact Or.inl (h₂ ▸ h₁)
  · rcases hbc with h₂ | ⟨h₂, h₂'⟩
    · exact Or.inl (h₁ ▸ h₂)
    · exact Or.inr ⟨h₁.trans h₂, le_trans h₁' h₂'⟩

theorem std_sort_insert_perm {α : Type} (cmp : α → α → Bool) (x : α) (l : List α) :
    (std_sort_insert cmp x l).Perm (x :: l) := by
  induction l with
  | nil => exact List.Perm.refl _
  | cons y ys ih =>
    unfold std_sort_insert
    split
    · exact List.Perm.refl _
    · exact (List.Perm.cons y ih).trans (List.Perm.swap x y ys)

theorem std_sort_perm {α : Type} (cmp : α → α → Bool) (l : List α) :
    (std_sort cmp l).Perm l := by
  induction l with
  | nil => exact List.Perm.refl _
  | cons x xs ih =>
    unfold std_sort
    exact (std_sort_insert_perm cmp x _).trans (List.Perm.cons x ih)

theorem std_sort_insert_sorted (x : ServiceSummary) (l : List ServiceSummary)
    (hl : l.Pairwise name_version_le) :
    (std_sort_insert service_summary_cmp x l).Pairwise name_version_le := by
  induction l with
  | nil => simp [std_sort_insert]
  | cons y ys ih =>
    rw [List.pairwise_cons] at hl
    unfold std_sort_insert
    by_cases hc : service_summary_cmp x y = true
    · rw [if_pos hc]
      have hxy := service_summary_cmp_true_le x y hc
      refine List.pairwise_cons.2 ⟨?_, List.pairwise_cons.2 hl⟩
      intro z hz
      rcases List.mem_cons.1 hz with h | h
      · rw [h]; exact hxy
      · exact name_version_le_trans x y z hxy (hl.1 z h)
    · rw [if_neg hc]
      have hyx := service_summary_cmp_false_le x y (by simpa using hc)
      refine List.pairwise_cons.2 ⟨?_, ih hl.2⟩
      intro z hz
      rcases List.mem_cons.1 ((std_sort_insert_perm service_summary_cmp x ys).mem_iff.1 hz) with h | h
      · rw [h]; exact hyx
      · exact hl.1 z h

theorem std_sort_sorted (l : List ServiceSummary) :
    (std_sort service_summary_cmp l).Pairwise name_version_le := by
  induction l with
  | nil => simp [std_sort]
  | cons x xs ih =>
    unfold std_sort
    exact std_sort_insert_sorted x _ ih

theorem SetServiceListing_listing (s : DistributedSegmentationModel) (C : List ServiceSummary)
    (hidx : s.m_CurrentServiceModel.GetValueAndDomain.1 = true →
      (vector_at s.m_ServiceListing s.m_CurrentServiceModel.GetValueAndDomain.2).isSome = true) :
    ∃ s', s.SetServiceListing C = some s'
      ∧ s'.m_ServiceListing = std_sort service_summary_cmp C := by
  unfold SetServiceListing
  simp only [ConcretePropertyModel.GetValueAndDomain] at hidx ⊢
  cases hv : s.m_CurrentServiceModel.m_IsValid with
  | false =>
    cases C with
    | nil => exact ⟨_, rfl, rfl⟩
    | cons c C => exact ⟨_, rfl, rfl⟩
  | true =>
    obtain ⟨x, hx⟩ := Option.isSome_iff_exists.1 (hidx hv)
    cases C with
    | nil => simp only [hx]; exact ⟨_, rfl, rfl⟩
    | cons c C => simp only [hx]; exact ⟨_, rfl, rfl⟩

/-- C1: for a validly selected ticket and a detail response for that ticket,
`ApplyTicketDetailResponse` leaves the cached log equal to the old cached log
(when the cached detail belongs to the same ticket, the empty log otherwise)
followed by the response's entries in the order received, and the cached ticket
id and progress equal to the response's. In the scenario of ticket 42, a
response with log ids 1,2,3 followed by one with ids 4,5 leaves the ids
1,2,3,4,5 in that order. -/
theorem C1_apply_detail_appends_log :
    (∀ (s : DistributedSegmentationModel) (resp : TicketDetailResponse),
      s.m_TicketListModel.GetValueAndDomain = (true, resp.ticket_id) →
      (s.ApplyTicketDetailResponse resp).m_SelectedTicketDetail.log =
          (if s.m_SelectedTicketDetail.ticket_id = resp.ticket_id
            then s.m_SelectedTicketDetail.log else []) ++ resp.log
        ∧ (s.ApplyTicketDetailResponse resp).m_SelectedTicketDetail.ticket_id = resp.ticket_id
        ∧ (s.ApplyTicketDetailResponse resp).m_SelectedTicketDetail.progress = resp.progress)
    ∧ (∀ (s : DistributedSegmentationModel) (r₁ r₂ : TicketDetailResponse),
      s.m_TicketListModel.GetValueAndDomain = (true, 42) →
      (s.m_SelectedTicketDetail.ticket_id ≠ 42 ∨ s.m_SelectedTicketDetail.log = []) →
      r₁.ticket_id = 42 → r₂.ticket_id = 42 →
      r₁.log.map (·.id) = [1, 2, 3] → r₂.log.map (·.id) = [4, 5] →
      ((s.ApplyTicketDetailResponse r₁).ApplyTicketDetailResponse
          r₂).m_SelectedTicketDetail.log.map (·.id) = [1, 2, 3, 4, 5]) := by
  refine ⟨fun s resp hsel => ?_, fun s r₁ r₂ hsel hold h₁ h₂ hl₁ hl₂ => ?_⟩
  · rw [ApplyTicketDetailResponse_detail s resp hsel]
    exact ⟨rfl, rfl, rfl⟩
  · have hsel₁ : s.m_TicketListModel.GetValueAndDomain = (true, r₁.ticket_id) := by rw [h₁]; exact hsel
    have hsel₂ : (s.ApplyTicketDetailResponse r₁).m_TicketListModel.GetValueAndDomain
        = (true, r₂.ticket_id) := by
      rw [ApplyTicketDetailResponse_ticket_model, h₂]; exact hsel
    rw [ApplyTicketDetailResponse_detail _ r₂ hsel₂, ApplyTicketDetailResponse_detail s r₁ hsel₁]
    simp only [h₁, h₂, if_true, List.map_append, hl₁, hl₂]
    rcases hold with h | h
    · simp [h]
    · simp [h]

/-- Witness of C1: ticket 42 is selected with nothing cached; the responses
carry the log ids 1,2,3 and then 4,5. -/
theorem C1_apply_detail_appends_log_witness :
    ((((Scenario.tracker Scenario.listing_42 42 true ⟨0, 0, []⟩).ApplyTicketDetailResponse
        ⟨42, 0, [Scenario.log_entry 1, Scenario.log_entry 2, Scenario.log_entry 3]⟩
        ).ApplyTicketDetailResponse
        ⟨42, 1, [Scenario.log_entry 4, Scenario.log_entry 5]⟩
        ).m_SelectedTicketDetail.log.map (·.id) = [1, 2, 3, 4, 5])
    ∧ ((Scenario.tracker Scenario.listing_42 42 true ⟨0, 0, []⟩).ApplyTicketDetailResponse
        ⟨42, 1, [Scenario.log_entry 1]⟩).m_SelectedTicketDetail.progress = 1 :=
  ⟨C1_apply_detail_appends_log.2 (Scenario.tracker Scenario.listing_42 42 true ⟨0, 0, []⟩)
      ⟨42, 0, [Scenario.log_entry 1, Scenario.log_entry 2, Scenario.log_entry 3]⟩
      ⟨42, 1, [Scenario.log_entry 4, Scenario.log_entry 5]⟩
      rfl (Or.inr rfl) rfl rfl rfl rfl,
   (C1_apply_detail_appends_log.1 (Scenario.tracker Scenario.listing_42 42 true ⟨0, 0, []⟩)
      ⟨42, 1, [Scenario.log_entry 1]⟩ rfl).2.2⟩

/-- C2: a detail response whose ticket id differs from the selected ticket id,
or any response while no ticket is validly selected, is ignored:
`ApplyTicketDetailResponse` returns the state it was given, so the cached
detail, the progress model, the validity flags and every event trace are as
before. In particular, once ticket `B` has been selected, a late response for
another ticket `A` leaves the state untouched. -/
theorem C2_stale_detail_is_ignored :
    (∀ (s : DistributedSegmentationModel) (resp : TicketDetailResponse),
      (s.m_TicketListModel.GetValueAndDomain.1 = false
        ∨ s.m_TicketListModel.GetValueAndDomain.2 ≠ resp.ticket_id) →
      s.ApplyTicketDetailResponse resp = s)
    ∧ (∀ (s : DistributedSegmentationModel) (A B : IdType) (resp : TicketDetailResponse),
      A ≠ B → resp.ticket_id = A →
      ({ s with m_TicketListModel := s.m_TicketListModel.SetValue B }).ApplyTicketDetailResponse resp
        = { s with m_TicketListModel := s.m_TicketListModel.SetValue B }) := by
  have key : ∀ (s : DistributedSegmentationModel) (resp : TicketDetailResponse),
      (s.m_TicketListModel.GetValueAndDomain.1 = false
        ∨ s.m_TicketListModel.GetValueAndDomain.2 ≠ resp.ticket_id) →
      s.ApplyTicketDetailResponse resp = s := by
    intro s resp h
    unfold ApplyTicketDetailResponse
    have hc : (!s.m_TicketListModel.GetValueAndDomain.1
        || s.m_TicketListModel.GetValueAndDomain.2 != resp.ticket_id) = true := by
      rcases h with h | h
      · simp [h]
      · simp [h]
    simp only [hc, if_true]
  refine ⟨key, fun s A B resp hne hA => key _ resp (Or.inr ?_)⟩
  have hB : (s.m_TicketListModel.SetValue B).m_Value = B := by
    unfold ConcretePropertyModel.SetValue
    split
    · rfl
    · rename_i h; simpa using h
  simp only [ConcretePropertyModel.GetValueAndDomain, hB, hA]
  exact fun h => hne h.symm

/-- Witness of C2: ticket 7 is selected and its detail cached; a response for
ticket 5 arrives late. -/
theorem C2_stale_detail_is_ignored_witness :
    (Scenario.tracker Scenario.listing_5_7_9 7 true ⟨7, 1, [Scenario.log_entry 3]⟩
        ).ApplyTicketDetailResponse ⟨5, 0, [Scenario.log_entry 9]⟩
      = Scenario.tracker Scenario.listing_5_7_9 7 true ⟨7, 1, [Scenario.log_entry 3]⟩ :=
  C2_stale_detail_is_ignored.1 _ _ (Or.inr (by decide))


/-- Counterexample to C3 as stated: ticket 42 is selected with an empty cached
log; delivering the response with the single log id 1 twice leaves the ids 1,1,
which differs from the log after one delivery and repeats an id. -/
theorem C3_duplicate_delivery_counterexample :
    (Scenario.tracker Scenario.listing_42 42 true ⟨42, 0, []⟩).m_TicketListModel.GetValueAndDomain
        = (true, 42)
    ∧ (((Scenario.tracker Scenario.listing_42 42 true ⟨42, 0, []⟩).ApplyTicketDetailResponse
          ⟨42, 0, [Scenario.log_entry 1]⟩).ApplyTicketDetailResponse
          ⟨42, 0, [Scenario.log_entry 1]⟩).m_SelectedTicketDetail.log.map (·.id) = [1, 1]
    ∧ ((Scenario.tracker Scenario.listing_42 42 true ⟨42, 0, []⟩).ApplyTicketDetailResponse
          ⟨42, 0, [Scenario.log_entry 1]⟩).m_SelectedTicketDetail.log.map (·.id) = [1]
    ∧ ¬ ((((Scenario.tracker Scenario.listing_42 42 true ⟨42, 0, []⟩).ApplyTicketDetailResponse
          ⟨42, 0, [Scenario.log_entry 1]⟩).ApplyTicketDetailResponse
          ⟨42, 0, [Scenario.log_entry 1]⟩).m_SelectedTicketDetail.log.map (·.id)).Nodup := by
  decide

/-- C3 (amended): for a validly selected ticket and a detail response for that
ticket, delivering the response twice leaves the cached log of one delivery
followed by the response's entries once more. The two logs are therefore equal
exactly when the response carries no log entry, and then the ids of the cached
log are those of the log retained from before, so no id is repeated unless one
already was. -/
theorem C3_duplicate_delivery_appends_again (s : DistributedSegmentationModel)
    (resp : TicketDetailResponse)
    (hsel : s.m_TicketListModel.GetValueAndDomain = (true, resp.ticket_id)) :
    ((s.ApplyTicketDetailResponse resp).ApplyTicketDetailResponse resp).m_SelectedTicketDetail.log
        = (s.ApplyTicketDetailResponse resp).m_SelectedTicketDetail.log ++ resp.log
    ∧ (((s.ApplyTicketDetailResponse resp).ApplyTicketDetailResponse resp).m_SelectedTicketDetail.log
        = (s.ApplyTicketDetailResponse resp).m_SelectedTicketDetail.log ↔ resp.log = [])
    ∧ (resp.log = [] →
        ((if s.m_SelectedTicketDetail.ticket_id = resp.ticket_id
            then s.m_SelectedTicketDetail.log else []).map (·.id)).Nodup →
        (((s.ApplyTicketDetailResponse resp).ApplyTicketDetailResponse
            resp).m_SelectedTicketDetail.log.map (·.id)).Nodup) := by
  have hsel₂ : (s.ApplyTicketDetailResponse resp).m_TicketListModel.GetValueAndDomain
      = (true, resp.ticket_id) := by
    rw [ApplyTicketDetailResponse_ticket_model]; exact hsel
  have h₂ := ApplyTicketDetailResponse_detail _ resp hsel₂
  have h₁ := ApplyTicketDetailResponse_detail s resp hsel
  have hid : (s.ApplyTicketDetailResponse resp).m_SelectedTicketDetail.ticket_id
      = resp.ticket_id := by rw [h₁]
  have hlog : ((s.ApplyTicketDetailResponse resp).ApplyTicketDetailResponse
      resp).m_SelectedTicketDetail.log
        = (s.ApplyTicketDetailResponse resp).m_SelectedTicketDetail.log ++ resp.log := by
    rw [h₂, if_pos hid]
  refine ⟨hlog, ?_, ?_⟩
  · rw [hlog]
    constructor
    · intro h
      exact List.append_right_eq_self.1 h
    · intro h
      rw [h, List.append_nil]
  · intro he hnd
    rw [hlog, h₁, he]
    simpa using hnd

/-- Witness of C3 (amended): ticket 42 is selected, log ids 1,2 are cached and
a response with progress only is delivered twice. -/
theorem C3_duplicate_delivery_appends_again_witness :
    (Scenario.tracker Scenario.listing_42 42 true
        ⟨42, 0, [Scenario.log_entry 1, Scenario.log_entry 2]⟩).m_TicketListModel.GetValueAndDomain
      = (true, 42)
    ∧ ((((Scenario.tracker Scenario.listing_42 42 true
          ⟨42, 0, [Scenario.log_entry 1, Scenario.log_entry 2]⟩).ApplyTicketDetailResponse
          ⟨42, 1, []⟩).ApplyTicketDetailResponse
          ⟨42, 1, []⟩).m_SelectedTicketDetail.log.map (·.id)).Nodup :=
  ⟨rfl, (C3_duplicate_delivery_appends_again
      (Scenario.tracker Scenario.listing_42 42 true
        ⟨42, 0, [Scenario.log_entry 1, Scenario.log_entry 2]⟩) ⟨42, 1, []⟩ rfl).2.2 rfl
      (by decide)⟩

/-- C4: when the cached log is strictly increasing in id and a response for the
validly selected ticket carries a log that is strictly increasing in id with
every id above the watermark `GetLastLogIdOfSelectedTicket` returned before the
apply, the cached log after `ApplyTicketDetailResponse` is strictly increasing
in id (each id at most once) and, when non-empty, the watermark read afterwards
is its largest id. The watermark is 0 when no ticket is validly selected, the
cached detail belongs to another ticket or the cached log is empty, and the id
of the last cached entry otherwise. -/
theorem C4_watermark_keeps_log_increasing (s : DistributedSegmentationModel)
    (resp : TicketDetailResponse)
    (hsel : s.m_TicketListModel.GetValueAndDomain = (true, resp.ticket_id))
    (hold : (s.m_SelectedTicketDetail.log.map (·.id)).Pairwise (· < ·))
    (hnew : (resp.log.map (·.id)).Pairwise (· < ·))
    (hwm : ∀ e ∈ resp.log, s.GetLastLogIdOfSelectedTicket < e.id) :
    ((s.ApplyTicketDetailResponse resp).m_SelectedTicketDetail.log.map (·.id)).Pairwise (· < ·)
    ∧ ((s.ApplyTicketDetailResponse resp).m_SelectedTicketDetail.log.map (·.id)).Nodup
    ∧ ((s.ApplyTicketDetailResponse resp).m_SelectedTicketDetail.log ≠ [] →
        (s.ApplyTicketDetailResponse resp).GetLastLogIdOfSelectedTicket
            ∈ (s.ApplyTicketDetailResponse resp).m_SelectedTicketDetail.log.map (·.id)
        ∧ ∀ i ∈ (s.ApplyTicketDetailResponse resp).m_SelectedTicketDetail.log.map (·.id),
            i ≤ (s.ApplyTicketDetailResponse resp).GetLastLogIdOfSelectedTicket)
    ∧ s.GetLastLogIdOfSelectedTicket =
        (if s.m_TicketListModel.GetValueAndDomain.1 = false
            ∨ s.m_TicketListModel.GetValueAndDomain.2 ≠ s.m_SelectedTicketDetail.ticket_id
            ∨ s.m_SelectedTicketDetail.log = [] then 0
         else (s.m_SelectedTicketDetail.log.getLast?.map (·.id)).getD 0) := by
  have hmodel := ApplyTicketDetailResponse_ticket_model s resp
  have hdet := ApplyTicketDetailResponse_detail s resp hsel
  have hv : s.m_TicketListModel.m_IsValid = true := congrArg Prod.fst hsel
  have hval : s.m_TicketListModel.m_Value = resp.ticket_id := congrArg Prod.snd hsel
  -- the watermark before the call
  have hwm_eq : s.GetLastLogIdOfSelectedTicket =
      (if s.m_TicketListModel.GetValueAndDomain.1 = false
          ∨ s.m_TicketListModel.GetValueAndDomain.2 ≠ s.m_SelectedTicketDetail.ticket_id
          ∨ s.m_SelectedTicketDetail.log = [] then 0
       else (s.m_SelectedTicketDetail.log.getLast?.map (·.id)).getD 0) := by
    unfold GetLastLogIdOfSelectedTicket
    simp only [ConcretePropertyModel.GetValueAndDomain, hv, hval]
    by_cases hc : resp.ticket_id = s.m_SelectedTicketDetail.ticket_id
    · cases hl : s.m_SelectedTicketDetail.log with
      | nil => simp [hc]
      | cons a l =>
        simp only [hc, bne_self_eq_false, Bool.not_true, Bool.or_self, List.length_cons,
          Bool.false_or, beq_iff_eq, AddLeftCancelMonoid.add_eq_zero, one_ne_zero, and_false,
          if_false, ne_eq, not_true_eq_false, false_or, reduceCtorEq, Bool.true_eq_false]
        cases hgl : (a :: l).getLast? with
        | none => simp at hgl
        | some e => simp
    · simp [hc]
  -- the log after the call is strictly increasing
  have hsorted : ((s.ApplyTicketDetailResponse resp).m_SelectedTicketDetail.log.map
      (·.id)).Pairwise (· < ·) := by
    rw [hdet]
    simp only [List.map_append, List.pairwise_append]
    by_cases hc : s.m_SelectedTicketDetail.ticket_id = resp.ticket_id
    · rw [if_pos hc]
      refine ⟨hold, hnew, ?_⟩
      intro a ha b hb
      obtain ⟨x, hx, rfl⟩ := List.mem_map.1 ha
      obtain ⟨y, hy, rfl⟩ := List.mem_map.1 hb
      have hne : s.m_SelectedTicketDetail.log ≠ [] := List.ne_nil_of_mem hx
      have hw := hwm y hy
      rw [hwm_eq] at hw
      simp only [ConcretePropertyModel.GetValueAndDomain, hv, hval, hc, hne, ne_eq,
        not_true_eq_false, or_self, if_false, Bool.true_eq_false] at hw
      cases hgl : s.m_SelectedTicketDetail.log.getLast? with
      | none => simp [hne] at hgl
      | some e =>
        rw [hgl] at hw
        simp only [Option.map_some', Option.getD_some] at hw
        exact lt_of_le_of_lt (ids_le_getLast _ e hold hgl x hx) hw
    · rw [if_neg hc]
      exact ⟨by simp, hnew, by simp⟩
  refine ⟨hsorted, ?_, ?_, hwm_eq⟩
  · exact hsorted.imp (fun h => ne_of_lt h)
  · intro hne
    have hgl : ∃ e, (s.ApplyTicketDetailResponse resp).m_SelectedTicketDetail.log.getLast?
        = some e := by
      cases h : (s.ApplyTicketDetailResponse resp).m_SelectedTicketDetail.log.getLast? with
      | none => simp [hne] at h
      | some e => exact ⟨e, rfl⟩
    obtain ⟨e, he⟩ := hgl
    have hlast : (s.ApplyTicketDetailResponse resp).GetLastLogIdOfSelectedTicket = e.id := by
      unfold GetLastLogIdOfSelectedTicket
      have hid : (s.ApplyTicketDetailResponse resp).m_SelectedTicketDetail.ticket_id
          = resp.ticket_id := by rw [hdet]
      have hlen : (s.ApplyTicketDetailResponse resp).m_SelectedTicketDetail.log.length ≠ 0 := by
        simpa using hne
      simp [ConcretePropertyModel.GetValueAndDomain, hmodel, hv, hval, hid, hlen, he]
    rw [hlast]
    refine ⟨List.mem_map_of_mem _ (List.mem_of_getLast?_eq_some he), ?_⟩
    intro i hi
    obtain ⟨x, hx, rfl⟩ := List.mem_map.1 hi
    exact ids_le_getLast _ e hsorted he x hx

/-- Witness of C4: ticket 42 is selected, log ids 1,2,3 are cached (watermark
3) and the response carries the ids 4,5. -/
theorem C4_watermark_keeps_log_increasing_witness :
    (((Scenario.tracker Scenario.listing_42 42 true
        ⟨42, 0, [Scenario.log_entry 1, Scenario.log_entry 2, Scenario.log_entry 3]⟩
        ).ApplyTicketDetailResponse
        ⟨42, 1, [Scenario.log_entry 4, Scenario.log_entry 5]⟩).m_SelectedTicketDetail.log.map
          (·.id)).Pairwise (· < ·) :=
  (C4_watermark_keeps_log_increasing
    (Scenario.tracker Scenario.listing_42 42 true
        ⟨42, 0, [Scenario.log_entry 1, Scenario.log_entry 2, Scenario.log_entry 3]⟩)
    ⟨42, 1, [Scenario.log_entry 4, Scenario.log_entry 5]⟩
    rfl (by decide) (by decide) (by decide)).1


/-- C5 (evaluation at the failing input): with the tickets 5 and 7 listed and
ticket 7, the highest id, validly selected, a successful `DeleteSelectedTicket`
leaves ticket 5 alone in the listing, but the selection is still valid with
value 7, the id just removed, not 5. -/
theorem C5_delete_highest_selects_removed_id :
    (DeleteSelectedTicket Scenario.rc_success
        (Scenario.tracker Scenario.listing_5_7 7 true ⟨0, 0, []⟩)).1.isOk = true
    ∧ (DeleteSelectedTicket Scenario.rc_success
        (Scenario.tracker Scenario.listing_5_7 7 true ⟨0, 0, []⟩)).2.m_TicketListing.keys = [5]
    ∧ (DeleteSelectedTicket Scenario.rc_success
        (Scenario.tracker Scenario.listing_5_7 7 true
          ⟨0, 0, []⟩)).2.m_TicketListModel.GetValueAndDomain = (true, 7) := by
  decide

/-- C6 (evaluation at the failing input): with ticket 42 alone in the listing
and validly selected, a successful `DeleteSelectedTicket` empties the listing,
but the selection is still valid with value 42. -/
theorem C6_delete_only_ticket_stays_selected :
    (DeleteSelectedTicket Scenario.rc_success
        (Scenario.tracker Scenario.listing_42 42 true ⟨0, 0, []⟩)).1.isOk = true
    ∧ (DeleteSelectedTicket Scenario.rc_success
        (Scenario.tracker Scenario.listing_42 42 true ⟨0, 0, []⟩)).2.m_TicketListing.entries = []
    ∧ (DeleteSelectedTicket Scenario.rc_success
        (Scenario.tracker Scenario.listing_42 42 true
          ⟨0, 0, []⟩)).2.m_TicketListModel.GetValueAndDomain = (true, 42) := by
  decide

/-- C7: when the validly selected id is in the listing together with at least
one larger id and the remote delete succeeds, `DeleteSelectedTicket` returns
normally, the listing afterwards is the old listing without the entry of the
selected id (all other entries kept, in order), and the selection is valid with
the smallest listed id greater than the deleted one. -/
theorem C7_delete_advances_to_next_id (rc : RESTClient) (s : DistributedSegmentationModel)
    (sel : IdType)
    (hsel : s.m_TicketListModel.GetValueAndDomain = (true, sel))
    (hmem : sel ∈ s.m_TicketListing.keys)
    (hlarger : ∃ k ∈ s.m_TicketListing.keys, sel < k)
    (hok : (rc "api/tickets/%d/delete".toList sel).ok = true) :
    (DeleteSelectedTicket rc s).1 = Except.ok ()
    ∧ (DeleteSelectedTicket rc s).2.m_TicketListing.entries
        = s.m_TicketListing.entries.filter (fun e => e.1 != sel)
    ∧ sel ∉ (DeleteSelectedTicket rc s).2.m_TicketListing.keys
    ∧ (DeleteSelectedTicket rc s).2.m_TicketListModel.GetValueAndDomain.1 = true
    ∧ (DeleteSelectedTicket rc s).2.m_TicketListModel.GetValueAndDomain.2 ∈ s.m_TicketListing.keys
    ∧ sel < (DeleteSelectedTicket rc s).2.m_TicketListModel.GetValueAndDomain.2
    ∧ ∀ k ∈ s.m_TicketListing.keys, sel < k →
        (DeleteSelectedTicket rc s).2.m_TicketListModel.GetValueAndDomain.2 ≤ k := by
  have hv : s.m_TicketListModel.m_IsValid = true := congrArg Prod.fst hsel
  have hval : s.m_TicketListModel.m_Value = sel := congrArg Prod.snd hsel
  obtain ⟨pre, v, post, hl, hpre, hpost⟩ :=
    listing_split_at_key s.m_TicketListing.entries sel s.m_TicketListing.sorted hmem
  have hfind : s.m_TicketListing.find sel = (sel, v) :: post := by
    unfold TicketListingResponse.find
    rw [hl]
    exact find_of_split pre post sel v hpre
  -- a larger id exists, so the iterator after the selected element is not at the end
  obtain ⟨k, hk, hlt⟩ := hlarger
  have hkpost : ∃ e ∈ post, e.1 = k := by
    unfold TicketListingResponse.keys at hk
    rw [hl] at hk
    obtain ⟨e, he, rfl⟩ := List.mem_map.1 hk
    rcases List.mem_append.1 he with h | h
    · exact absurd (hpre e h) (not_lt_of_lt hlt)
    · rcases List.mem_cons.1 h with h | h
      · rw [h] at hlt; exact absurd hlt (lt_irrefl _)
      · exact ⟨e, h, rfl⟩
  obtain ⟨n, post', rfl⟩ : ∃ n post', post = n :: post' := by
    obtain ⟨e, he, _⟩ := hkpost
    cases post with
    | nil => simp at he
    | cons n post' => exact ⟨n, post', rfl⟩
  have hsorted := s.m_TicketListing.sorted
  rw [hl] at hsorted
  simp only [List.map_append, List.map_cons, List.pairwise_append, List.pairwise_cons] at hsorted
  have hres : DeleteSelectedTicket rc s =
      (Except.ok (),
       { s with
         m_TicketListing := s.m_TicketListing.erase sel
         m_TicketListModel :=
           (s.m_TicketListModel.SetValue n.1).InvokeEvent EventType.DomainChangedEvent }) := by
    have hok' := hok
    simp only [String.toList] at hok'
    unfold DeleteSelectedTicket
    simp [ConcretePropertyModel.GetValueAndDomain, hv, hval, hfind, hok',
      TicketListingResponse.next]
  have hnewval : ((s.m_TicketListModel.SetValue n.1).InvokeEvent
      EventType.DomainChangedEvent).m_Value = n.1 := by
    unfold ConcretePropertyModel.InvokeEvent ConcretePropertyModel.SetValue
    split
    · rfl
    · rename_i h; simpa using h
  have hnewvalid : ((s.m_TicketListModel.SetValue n.1).InvokeEvent
      EventType.DomainChangedEvent).m_IsValid = true := by
    unfold ConcretePropertyModel.InvokeEvent ConcretePropertyModel.SetValue
    split <;> exact hv
  have herase : (s.m_TicketListing.erase sel).entries = pre ++ n :: post' := by
    unfold TicketListingResponse.erase
    simp only []
    rw [hl]
    exact eraseP_of_split pre (n :: post') sel v hpre
  rw [hres]
  simp only [ConcretePropertyModel.GetValueAndDomain, hnewval, hnewvalid, herase,
    TicketListingResponse.keys, true_and]
  refine ⟨?_, ?_, ?_, ?_, ?_⟩
  · conv_rhs => rw [hl]
    exact (filter_of_split pre (n :: post') sel v hpre hpost).symm
  · intro h
    obtain ⟨e, he, hes⟩ := List.mem_map.1 h
    rcases List.mem_append.1 he with h' | h'
    · exact absurd hes (ne_of_lt (hpre e h'))
    · exact absurd hes (ne_of_gt (hpost e h'))
  · rw [hl]; simp
  · exact hpost n (by simp)
  · intro k hk hlt
    rw [hl] at hk
    obtain ⟨e, he, rfl⟩ := List.mem_map.1 hk
    rcases List.mem_append.1 he with h | h
    · exact absurd (hpre e h) (not_lt_of_lt hlt)
    · rcases List.mem_cons.1 h with h | h
      · rw [h] at hlt; exact absurd hlt (lt_irrefl _)
      · rcases List.mem_cons.1 h with h | h
        · rw [h]
        · exact le_of_lt (hsorted.2.1.2.1 e.1 (List.mem_map_of_mem _ h))

/-- Witness of C7: the tickets 5, 7 and 9 are listed, 5 is selected and the
remote delete succeeds; the listing becomes 7, 9 and ticket 7 is selected. -/
theorem C7_delete_advances_to_next_id_witness :
    (DeleteSelectedTicket Scenario.rc_success
        (Scenario.tracker Scenario.listing_5_7_9 5 true ⟨0, 0, []⟩)).2.m_TicketListing.keys = [7, 9]
    ∧ (DeleteSelectedTicket Scenario.rc_success
        (Scenario.tracker Scenario.listing_5_7_9 5 true
          ⟨0, 0, []⟩)).2.m_TicketListModel.GetValueAndDomain = (true, 7)
    ∧ ∀ k ∈ Scenario.listing_5_7_9.keys, 5 < k →
        (DeleteSelectedTicket Scenario.rc_success
          (Scenario.tracker Scenario.listing_5_7_9 5 true
            ⟨0, 0, []⟩)).2.m_TicketListModel.GetValueAndDomain.2 ≤ k :=
  ⟨by decide, by decide,
   (C7_delete_advances_to_next_id Scenario.rc_success
      (Scenario.tracker Scenario.listing_5_7_9 5 true ⟨0, 0, []⟩) 5 rfl (by decide)
      ⟨7, by decide, by decide⟩ rfl).2.2.2.2.2.2⟩

/-- C8: when a ticket is validly selected and listed, so that the remote delete
is requested, and the request fails, `DeleteSelectedTicket` throws the
`IRISException` built from the selected ticket id and the response text of the
request, and the state at the throw is the state before the call. -/
theorem C8_failed_delete_throws_and_keeps_state (rc : RESTClient)
    (s : DistributedSegmentationModel) (sel : IdType)
    (hsel : s.m_TicketListModel.GetValueAndDomain = (true, sel))
    (hmem : sel ∈ s.m_TicketListing.keys)
    (hfail : (rc "api/tickets/%d/delete".toList sel).ok = false) :
    DeleteSelectedTicket rc s =
      (Except.error
        { format := "Error deleting ticket %d: %s".toList
          ticket_id := sel
          response_text := (rc "api/tickets/%d/delete".toList sel).text }, s) := by
  have hv : s.m_TicketListModel.m_IsValid = true := congrArg Prod.fst hsel
  have hval : s.m_TicketListModel.m_Value = sel := congrArg Prod.snd hsel
  obtain ⟨pre, v, post, hl, hpre, _⟩ :=
    listing_split_at_key s.m_TicketListing.entries sel s.m_TicketListing.sorted hmem
  have hfind : s.m_TicketListing.find sel = (sel, v) :: post := by
    unfold TicketListingResponse.find
    rw [hl]
    exact find_of_split pre post sel v hpre
  have hfail' := hfail
  simp only [String.toList] at hfail'
  unfold DeleteSelectedTicket
  simp [ConcretePropertyModel.GetValueAndDomain, hv, hval, hfind, hfail']

/-- Witness of C8: the tickets 5, 7 and 9 are listed, 7 is selected and the
remote side answers `denied`. -/
theorem C8_failed_delete_throws_and_keeps_state_witness :
    DeleteSelectedTicket Scenario.rc_failure
        (Scenario.tracker Scenario.listing_5_7_9 7 true ⟨0, 0, []⟩) =
      (Except.error
        { format := "Error deleting ticket %d: %s".toList
          ticket_id := 7
          response_text := "denied".toList },
       Scenario.tracker Scenario.listing_5_7_9 7 true ⟨0, 0, []⟩) :=
  C8_failed_delete_throws_and_keeps_state Scenario.rc_failure
    (Scenario.tracker Scenario.listing_5_7_9 7 true ⟨0, 0, []⟩) 7 rfl (by decide) rfl


/-- C9: `ApplyTicketListingResponse` replaces the known-tickets map by the new
one and invokes, after the validity update, exactly one further event on the
ticket list model: the lightweight `DomainDescriptionChangedEvent` if and only
if the old and the new map have the same set of ticket ids (whatever the
statuses), and the structural `DomainChangedEvent` otherwise. The ids 5,7,9
refreshed to 5,7,9 give the lightweight event, refreshed to 5,7 the structural
one. -/
theorem C9_listing_refresh_notification :
    (∀ (s : DistributedSegmentationModel) (resp : TicketListingResponse),
      (s.ApplyTicketListingResponse resp).m_TicketListing = resp
      ∧ (∃ pre, (pre = s.m_TicketListModel.events
                  ∨ pre = s.m_TicketListModel.events ++ [EventType.ValueChangedEvent])
          ∧ ((∀ k, k ∈ s.m_TicketListing.keys ↔ k ∈ resp.keys) →
              (s.ApplyTicketListingResponse resp).m_TicketListModel.events
                = pre ++ [EventType.DomainDescriptionChangedEvent])
          ∧ (¬ (∀ k, k ∈ s.m_TicketListing.keys ↔ k ∈ resp.keys) →
              (s.ApplyTicketListingResponse resp).m_TicketListModel.events
                = pre ++ [EventType.DomainChangedEvent]))
      ∧ (EventType.DomainDescriptionChangedEvent ∈
            (s.ApplyTicketListingResponse resp).m_TicketListModel.events.drop
              s.m_TicketListModel.events.length
          ↔ ∀ k, k ∈ s.m_TicketListing.keys ↔ k ∈ resp.keys)
      ∧ (EventType.DomainChangedEvent ∈
            (s.ApplyTicketListingResponse resp).m_TicketListModel.events.drop
              s.m_TicketListModel.events.length
          ↔ ¬ ∀ k, k ∈ s.m_TicketListing.keys ↔ k ∈ resp.keys))
    ∧ (∀ (s : DistributedSegmentationModel) (resp : TicketListingResponse),
      s.m_TicketListing.keys = [5, 7, 9] → resp.keys = [5, 7, 9] →
      EventType.DomainDescriptionChangedEvent ∈
        (s.ApplyTicketListingResponse resp).m_TicketListModel.events.drop
          s.m_TicketListModel.events.length)
    ∧ (∀ (s : DistributedSegmentationModel) (resp : TicketListingResponse),
      s.m_TicketListing.keys = [5, 7, 9] → resp.keys = [5, 7] →
      EventType.DomainChangedEvent ∈
        (s.ApplyTicketListingResponse resp).m_TicketListModel.events.drop
          s.m_TicketListModel.events.length) := by
  have main : ∀ (s : DistributedSegmentationModel) (resp : TicketListingResponse),
      (s.ApplyTicketListingResponse resp).m_TicketListing = resp
      ∧ (∃ pre, (pre = s.m_TicketListModel.events
                  ∨ pre = s.m_TicketListModel.events ++ [EventType.ValueChangedEvent])
          ∧ ((∀ k, k ∈ s.m_TicketListing.keys ↔ k ∈ resp.keys) →
              (s.ApplyTicketListingResponse resp).m_TicketListModel.events
                = pre ++ [EventType.DomainDescriptionChangedEvent])
          ∧ (¬ (∀ k, k ∈ s.m_TicketListing.keys ↔ k ∈ resp.keys) →
              (s.ApplyTicketListingResponse resp).m_TicketListModel.events
                = pre ++ [EventType.DomainChangedEvent]))
      ∧ (EventType.DomainDescriptionChangedEvent ∈
            (s.ApplyTicketListingResponse resp).m_TicketListModel.events.drop
              s.m_TicketListModel.events.length
          ↔ ∀ k, k ∈ s.m_TicketListing.keys ↔ k ∈ resp.keys)
      ∧ (EventType.DomainChangedEvent ∈
            (s.ApplyTicketListingResponse resp).m_TicketListModel.events.drop
              s.m_TicketListModel.events.length
          ↔ ¬ ∀ k, k ∈ s.m_TicketListing.keys ↔ k ∈ resp.keys) := by
    intro s resp
    have hev := ApplyTicketListingResponse_events s resp
    have hiff := same_keys_iff s.m_TicketListing resp
    have hpre := SetIsValid_events s.m_TicketListModel (decide (resp.size > 0))
    refine ⟨?_, ⟨_, hpre, ?_, ?_⟩, ?_, ?_⟩
    · unfold ApplyTicketListingResponse
      simp only []
      generalize (if s.m_TicketListing.size != resp.size then false
        else same_keys_loop s.m_TicketListing.begin_ resp.begin_) = c
      cases c <;> rfl
    · intro h
      rw [hev, if_pos (hiff.2 h)]
    · intro h
      rw [hev, if_neg (fun hc => h (hiff.1 hc))]
    · rw [hev]
      by_cases h : ∀ k, k ∈ s.m_TicketListing.keys ↔ k ∈ resp.keys
      · rw [if_pos (hiff.2 h)]
        rcases hpre with hp | hp <;> rw [hp] <;> simp [h]
      · rw [if_neg (fun hc => h (hiff.1 hc))]
        rcases hpre with hp | hp <;> rw [hp] <;> simp [h]
    · rw [hev]
      by_cases h : ∀ k, k ∈ s.m_TicketListing.keys ↔ k ∈ resp.keys
      · rw [if_pos (hiff.2 h)]
        rcases hpre with hp | hp <;> rw [hp] <;> simp [h]
      · rw [if_neg (fun hc => h (hiff.1 hc))]
        rcases hpre with hp | hp <;> rw [hp] <;> simp [h]
  refine ⟨main, ?_, ?_⟩
  · intro s resp h₁ h₂
    exact (main s resp).2.2.1.2 (fun k => by rw [h₁, h₂])
  · intro s resp h₁ h₂
    refine (main s resp).2.2.2.2 (fun h => ?_)
    have := (h 9).1 (by rw [h₁]; simp)
    rw [h₂] at this
    simp at this

/-- Witness of C9: the tickets 5, 7, 9 are known; a refresh to 5, 7, 9 with
other statuses invokes the lightweight event, a refresh to 5, 7 the structural
one. -/
theorem C9_listing_refresh_notification_witness :
    (EventType.DomainDescriptionChangedEvent ∈
        ((Scenario.tracker Scenario.listing_5_7_9 7 true ⟨0, 0, []⟩).ApplyTicketListingResponse
          Scenario.listing_5_7_9_done).m_TicketListModel.events.drop
          (Scenario.tracker Scenario.listing_5_7_9 7 true ⟨0, 0, []⟩).m_TicketListModel.events.length)
    ∧ (EventType.DomainChangedEvent ∈
        ((Scenario.tracker Scenario.listing_5_7_9 7 true ⟨0, 0, []⟩).ApplyTicketListingResponse
          Scenario.listing_5_7).m_TicketListModel.events.drop
          (Scenario.tracker Scenario.listing_5_7_9 7 true ⟨0, 0, []⟩).m_TicketListModel.events.length) :=
  ⟨C9_listing_refresh_notification.2.1
      (Scenario.tracker Scenario.listing_5_7_9 7 true ⟨0, 0, []⟩) Scenario.listing_5_7_9_done
      (by decide) (by decide),
   C9_listing_refresh_notification.2.2
      (Scenario.tracker Scenario.listing_5_7_9 7 true ⟨0, 0, []⟩) Scenario.listing_5_7
      (by decide) (by decide)⟩


/-- C10: from every state in which reading the hash of a validly selected
service is defined (its index lies within the stored catalog),
`SetServiceListing C` returns, and the stored catalog is a permutation of `C`
in non-decreasing order by name and then by version, both compared as plain
strings. Two entries named seg-net with versions 2.0 and 1.0, given in that
order, are stored with 1.0 first. -/
theorem C10_catalog_is_sorted_permutation :
    (∀ (s : DistributedSegmentationModel) (C : List ServiceSummary),
      (s.m_CurrentServiceModel.GetValueAndDomain.1 = true →
        (vector_at s.m_ServiceListing s.m_CurrentServiceModel.GetValueAndDomain.2).isSome = true) →
      ∃ s', s.SetServiceListing C = some s'
        ∧ s'.m_ServiceListing.Perm C
        ∧ s'.m_ServiceListing.Pairwise name_version_le)
    ∧ (∀ (s : DistributedSegmentationModel) (a b : ServiceSummary),
      (s.m_CurrentServiceModel.GetValueAndDomain.1 = true →
        (vector_at s.m_ServiceListing s.m_CurrentServiceModel.GetValueAndDomain.2).isSome = true) →
      a.name = "seg-net".toList → a.version = "2.0".toList →
      b.name = "seg-net".toList → b.version = "1.0".toList →
      ∃ s', s.SetServiceListing [a, b] = some s' ∧ s'.m_ServiceListing = [b, a]) := by
  constructor
  · intro s C hidx
    obtain ⟨s', hs', hl⟩ := SetServiceListing_listing s C hidx
    exact ⟨s', hs', hl ▸ std_sort_perm _ C, hl ▸ std_sort_sorted C⟩
  · intro s a b hidx ha ha' hb hb'
    obtain ⟨s', hs', hl⟩ := SetServiceListing_listing s [a, b] hidx
    refine ⟨s', hs', ?_⟩
    rw [hl]
    have hc : service_summary_cmp a b = false := by
      unfold service_summary_cmp
      rw [ha, ha', hb, hb']
      decide
    simp [std_sort, std_sort_insert, hc]

/-- Witness of C10: no service is selected and the catalog seg-net 2.0,
seg-net 1.0 is set. -/
theorem C10_catalog_is_sorted_permutation_witness :
    ∃ s', (Scenario.tracker Scenario.listing_42 42 true ⟨0, 0, []⟩).SetServiceListing
        [Scenario.service "seg-net" "2.0" "bbb", Scenario.service "seg-net" "1.0" "aaa"] = some s'
      ∧ s'.m_ServiceListing
        = [Scenario.service "seg-net" "1.0" "aaa", Scenario.service "seg-net" "2.0" "bbb"] :=
  C10_catalog_is_sorted_permutation.2
    (Scenario.tracker Scenario.listing_42 42 true ⟨0, 0, []⟩)
    (Scenario.service "seg-net" "2.0" "bbb") (Scenario.service "seg-net" "1.0" "aaa")
    (fun h => absurd h (by decide)) rfl rfl rfl rfl

theorem SetValue_m_Value {α δ : Type} [DecidableEq α] (p : ConcretePropertyModel α δ) (v : α) :
    (p.SetValue v).m_Value = v := by
  unfold ConcretePropertyModel.SetValue
  split
  · rfl
  · rename_i h; simpa using h

theorem SetValue_m_IsValid {α δ : Type} [DecidableEq α] (p : ConcretePropertyModel α δ) (v : α) :
    (p.SetValue v).m_IsValid = p.m_IsValid := by
  unfold ConcretePropertyModel.SetValue
  split <;> rfl

theorem SetIsValid_m_IsValid {α δ : Type} (p : ConcretePropertyModel α δ) (b : Bool) :
    (p.SetIsValid b).m_IsValid = b := by
  unfold ConcretePropertyModel.SetIsValid
  split
  · rfl
  · rename_i h; simpa using h

theorem SetIsValid_m_Value {α δ : Type} (p : ConcretePropertyModel α δ) (b : Bool) :
    (p.SetIsValid b).m_Value = p.m_Value := by
  unfold ConcretePropertyModel.SetIsValid
  split <;> rfl

theorem SetDomain_m_IsValid {α δ : Type} [DecidableEq δ] (p : ConcretePropertyModel α δ) (d : δ) :
    (p.SetDomain d).m_IsValid = p.m_IsValid := by
  unfold ConcretePropertyModel.SetDomain
  split <;> rfl

theorem SetDomain_m_Value {α δ : Type} [DecidableEq δ] (p : ConcretePropertyModel α δ) (d : δ) :
    (p.SetDomain d).m_Value = p.m_Value := by
  unfold ConcretePropertyModel.SetDomain
  split <;> rfl

theorem SetServiceListing_loop_no_match (h : std_string) (l : List ServiceSummary)
    (hno : ∀ c ∈ l, c.githash ≠ h) :
    ∀ (i : Int) (acc : CurrentServiceDomain × Int),
      (SetServiceListing_loop true h l i acc).2 = acc.2 := by
  induction l with
  | nil => intro i acc; rfl
  | cons svc rest ih =>
    intro i acc
    obtain ⟨d, n⟩ := acc
    have hsvc : svc.githash ≠ h := hno svc (by simp)
    unfold SetServiceListing_loop
    rw [ih (fun c hc => hno c (by simp [hc]))]
    simp [hsvc]

theorem SetServiceListing_loop_match (h : std_string) (l : List ServiceSummary)
    (hex : ∃ c ∈ l, c.githash = h) :
    ∀ (i : Int) (acc : CurrentServiceDomain × Int),
      ∃ k : Nat, (SetServiceListing_loop true h l i acc).2 = i + k
        ∧ (l.get? k).map (·.githash) = some h := by
  induction l with
  | nil => simp at hex
  | cons svc rest ih =>
    intro i acc
    obtain ⟨d, n⟩ := acc
    by_cases hrest : ∃ c ∈ rest, c.githash = h
    · obtain ⟨k, hk, hget⟩ := ih hrest (i + 1)
        (map_assign d i (service_label svc),
          if (true && svc.githash == h) = true then i else n)
      refine ⟨k + 1, ?_, ?_⟩
      · unfold SetServiceListing_loop
        rw [hk]
        push_cast
        ring
      · simpa using hget
    · have hno : ∀ c ∈ rest, c.githash ≠ h := fun c hc hch => hrest ⟨c, hc, hch⟩
      have hsvc : svc.githash = h := by
        obtain ⟨c, hc, hch⟩ := hex
        rcases List.mem_cons.1 hc with rfl | hc'
        · exact hch
        · exact absurd hch (hno c hc')
      refine ⟨0, ?_, ?_⟩
      · unfold SetServiceListing_loop
        rw [SetServiceListing_loop_no_match h rest hno]
        simp [hsvc]
      · simp [hsvc]

theorem SetServiceListing_selection (s : DistributedSegmentationModel) (C : List ServiceSummary)
    (x : ServiceSummary) (hne : C ≠ [])
    (hv : s.m_CurrentServiceModel.m_IsValid = true)
    (hx : vector_at s.m_ServiceListing s.m_CurrentServiceModel.m_Value = some x) :
    ∃ s', s.SetServiceListing C = some s'
      ∧ s'.m_ServiceListing = std_sort service_summary_cmp C
      ∧ s'.m_CurrentServiceModel.m_IsValid = true
      ∧ s'.m_CurrentServiceModel.m_Value =
          (SetServiceListing_loop true x.githash (std_sort service_summary_cmp C) 0 ([], 0)).2 := by
  unfold SetServiceListing
  simp only [ConcretePropertyModel.GetValueAndDomain, hv, hx, if_true, Option.map_some']
  have hlen : (C.length == 0) = false := by
    cases C with
    | nil => exact absurd rfl hne
    | cons c C => rfl
  simp only [hlen]
  refine ⟨_, rfl, rfl, ?_, ?_⟩
  · simp only [Bool.false_eq_true, if_false]
    rw [SetValue_m_IsValid, SetDomain_m_IsValid, SetIsValid_m_IsValid]
  · simp only [Bool.false_eq_true, if_false]
    rw [SetValue_m_Value]

/-- C11: when a service is validly selected, its content hash is `h` and the new
listing `C` contains an entry with hash `h`, `SetServiceListing C` returns with
a valid selection whose entry in the stored, sorted catalog has content hash
`h`. -/
theorem C11_selection_follows_hash (s : DistributedSegmentationModel) (C : List ServiceSummary)
    (h : std_string)
    (hvalid : s.m_CurrentServiceModel.GetValueAndDomain.1 = true)
    (hhash : (vector_at s.m_ServiceListing s.m_CurrentServiceModel.GetValueAndDomain.2).map
      (·.githash) = some h)
    (hmem : ∃ c ∈ C, c.githash = h) :
    ∃ s', s.SetServiceListing C = some s'
      ∧ s'.m_CurrentServiceModel.GetValueAndDomain.1 = true
      ∧ (vector_at s'.m_ServiceListing s'.m_CurrentServiceModel.GetValueAndDomain.2).map
          (·.githash) = some h := by
  simp only [ConcretePropertyModel.GetValueAndDomain] at hvalid hhash ⊢
  obtain ⟨x, hx, hxh⟩ := Option.map_eq_some'.1 hhash
  have hne : C ≠ [] := by
    rintro rfl
    simp at hmem
  obtain ⟨s', hs', hl, hv', hval'⟩ := SetServiceListing_selection s C x hne hvalid hx
  refine ⟨s', hs', hv', ?_⟩
  have hmem' : ∃ c ∈ std_sort service_summary_cmp C, c.githash = h := by
    obtain ⟨c, hc, hch⟩ := hmem
    exact ⟨c, (std_sort_perm service_summary_cmp C).mem_iff.2 hc, hch⟩
  obtain ⟨k, hk, hget⟩ :=
    SetServiceListing_loop_match h (std_sort service_summary_cmp C) hmem' 0 ([], 0)
  rw [hval', hl, hxh, hk]
  unfold vector_at
  simpa using hget

/-- Witness of C11: the catalog holds seg-net 1.0 (hash aaa) and seg-net 2.0
(hash bbb), bbb is selected, and the same two entries are set again in reverse
order. -/
theorem C11_selection_follows_hash_witness :
    ∃ s', (Scenario.catalog_selected_bbb).SetServiceListing
        [Scenario.service "seg-net" "2.0" "bbb", Scenario.service "seg-net" "1.0" "aaa"] = some s'
      ∧ s'.m_CurrentServiceModel.GetValueAndDomain.1 = true
      ∧ (vector_at s'.m_ServiceListing s'.m_CurrentServiceModel.GetValueAndDomain.2).map
          (·.githash) = some "bbb".toList :=
  C11_selection_follows_hash Scenario.catalog_selected_bbb
    [Scenario.service "seg-net" "2.0" "bbb", Scenario.service "seg-net" "1.0" "aaa"]
    "bbb".toList (by decide) (by decide) ⟨Scenario.service "seg-net" "2.0" "bbb", by decide, by decide⟩

theorem AreAllRequiredTagsAssignedTarget_loop_iff (l : List TagTargetSpec) :
    AreAllRequiredTagsAssignedTarget_loop l = true
      ↔ ∀ e ∈ l, e.tag_spec.required = true → e.object_id ≠ 0 := by
  induction l with
  | nil => simp [AreAllRequiredTagsAssignedTarget_loop]
  | cons e rest ih =>
    unfold AreAllRequiredTagsAssignedTarget_loop
    by_cases hreq : e.tag_spec.required = true
    · by_cases hid : e.object_id = 0
      · simp [hreq, hid]
      · simp [hreq, hid, ih]
    · simp [hreq, ih]

/-- C13: `AreAllRequiredTagsAssignedTarget`, which is what `CheckState` returns
for `UIF_TAGS_ASSIGNED`, is true if and only if every entry of the binding
array whose tag spec is required has a non-zero bound object id. This holds in
particular for the array produced by `ApplyServiceDetailResponse` and for the
array after `SetCurrentTagImageLayerValue`; an array without required entries,
the empty array included, is complete. -/
theorem C13_tags_assigned_iff_required_bound :
    (∀ s : DistributedSegmentationModel,
      (s.AreAllRequiredTagsAssignedTarget = true
        ↔ ∀ e ∈ s.m_TagSpecArray, e.tag_spec.required = true → e.object_id ≠ 0)
      ∧ s.CheckState UIState.UIF_TAGS_ASSIGNED = s.AreAllRequiredTagsAssignedTarget)
    ∧ (∀ (s : DistributedSegmentationModel) (driver : IRISApplication)
        (resp : ServiceDetailResponse),
      (s.ApplyServiceDetailResponse driver resp).AreAllRequiredTagsAssignedTarget = true
        ↔ ∀ e ∈ (s.ApplyServiceDetailResponse driver resp).m_TagSpecArray,
            e.tag_spec.required = true → e.object_id ≠ 0)
    ∧ (∀ (s : DistributedSegmentationModel) (driver : IRISApplication) (value : Nat),
      (s.m_TagListModel.GetValueAndDomain.1 = true →
        (vector_at s.m_TagSpecArray s.m_TagListModel.GetValueAndDomain.2).isSome = true) →
      ∃ s', s.SetCurrentTagImageLayerValue driver value = some s'
        ∧ (s'.AreAllRequiredTagsAssignedTarget = true
            ↔ ∀ e ∈ s'.m_TagSpecArray, e.tag_spec.required = true → e.object_id ≠ 0))
    ∧ (∀ s : DistributedSegmentationModel,
      (∀ e ∈ s.m_TagSpecArray, e.tag_spec.required = false) →
      s.AreAllRequiredTagsAssignedTarget = true)
    ∧ (∀ s : DistributedSegmentationModel,
      s.m_TagSpecArray = [] → s.AreAllRequiredTagsAssignedTarget = true) := by
  have main : ∀ s : DistributedSegmentationModel,
      (s.AreAllRequiredTagsAssignedTarget = true
        ↔ ∀ e ∈ s.m_TagSpecArray, e.tag_spec.required = true → e.object_id ≠ 0) :=
    fun s => AreAllRequiredTagsAssignedTarget_loop_iff s.m_TagSpecArray
  refine ⟨fun s => ⟨main s, rfl⟩, fun s driver resp => main _, ?_, ?_, ?_⟩
  · intro s driver value hidx
    unfold SetCurrentTagImageLayerValue
    simp only [ConcretePropertyModel.GetValueAndDomain] at hidx ⊢
    cases hv : s.m_TagListModel.m_IsValid with
    | false => exact ⟨s, by simp, main s⟩
    | true =>
      obtain ⟨entry, he⟩ := Option.isSome_iff_exists.1 (hidx hv)
      simp only [he, if_true]
      exact ⟨_, rfl, main _⟩
  · intro s h
    refine (main s).2 (fun e he hreq => ?_)
    rw [h e he] at hreq
    exact absurd hreq (by decide)
  · intro s h
    refine (main s).2 (fun e he => ?_)
    rw [h] at he
    simp at he

/-- Witness of C13: a required tag bound to object 1 and an optional unbound
tag; the check passes, and it fails once the required tag is rebound to 0. -/
theorem C13_tags_assigned_iff_required_bound_witness :
    (Scenario.with_tags [Scenario.tag "T1" TagType.TAG_LAYER_MAIN true 1,
        Scenario.tag "Seg" TagType.TAG_LAYER_OVERLAY false 0]).AreAllRequiredTagsAssignedTarget
      = true
    ∧ ∃ s', (Scenario.with_tags [Scenario.tag "T1" TagType.TAG_LAYER_MAIN true 1,
          Scenario.tag "Seg" TagType.TAG_LAYER_OVERLAY false 0]).SetCurrentTagImageLayerValue
          Scenario.workspace 0 = some s'
        ∧ (s'.AreAllRequiredTagsAssignedTarget = true
            ↔ ∀ e ∈ s'.m_TagSpecArray, e.tag_spec.required = true → e.object_id ≠ 0) :=
  ⟨(C13_tags_assigned_iff_required_bound.1 _).1.2 (by decide),
   C13_tags_assigned_iff_required_bound.2.2.1 _ Scenario.workspace 0 (fun _ => by decide)⟩

theorem SetServiceListing_frame (s s' : DistributedSegmentationModel) (C : List ServiceSummary)
    (h : s.SetServiceListing C = some s') :
    s'.m_ServerStatusModel = s.m_ServerStatusModel ∧ s'.m_TokenModel = s.m_TokenModel := by
  unfold SetServiceListing at h
  simp only [] at h
  split at h
  · exact absurd h (by simp)
  · split at h
    · simp only [Option.some.injEq] at h
      subst h
      exact ⟨rfl, rfl⟩
    · simp only [Option.some.injEq] at h
      subst h
      exact ⟨rfl, rfl⟩

/-- C17: from every state in which the final `SetServiceListing` is defined,
`ApplyStatusCheckResponse` returns; the server status is `CONNECTED_AUTHORIZED`
when the probe is connected and authenticated, `CONNECTED_NOT_AUTHORIZED` when
connected and not authenticated, `NOT_CONNECTED` when not connected; the stored
token is the empty string in the first case and unchanged in the other two; and
in all cases the stored catalog is the listing of the probe result, reordered
by `SetServiceListing` (empty when the listing is empty). -/
theorem C17_status_check_applied (s : DistributedSegmentationModel)
    (result : StatusCheckResponse)
    (hidx : s.m_CurrentServiceModel.GetValueAndDomain.1 = true →
      (vector_at s.m_ServiceListing s.m_CurrentServiceModel.GetValueAndDomain.2).isSome = true) :
    ∃ s', s.ApplyStatusCheckResponse result = some s'
      ∧ s'.m_ServerStatusModel.GetValueAndDomain.2 =
          (if result.auth_response.connected = true then
            if result.auth_response.authenticated = true then ServerStatus.CONNECTED_AUTHORIZED
            else ServerStatus.CONNECTED_NOT_AUTHORIZED
           else ServerStatus.NOT_CONNECTED)
      ∧ s'.m_TokenModel.GetValueAndDomain.2 =
          (if result.auth_response.connected = true ∧ result.auth_response.authenticated = true
            then [] else s.m_TokenModel.GetValueAndDomain.2)
      ∧ s'.m_ServiceListing.Perm result.service_listing
      ∧ s'.m_ServiceListing.Pairwise name_version_le
      ∧ (result.service_listing = [] → s'.m_ServiceListing = []) := by
  -- the state handed to SetServiceListing
  obtain ⟨s₁, hs₁, hstatus, htoken, hcat, hcur⟩ : ∃ s₁ : DistributedSegmentationModel,
      s.ApplyStatusCheckResponse result = s₁.SetServiceListing result.service_listing
      ∧ s₁.m_ServerStatusModel.m_Value =
          (if result.auth_response.connected = true then
            if result.auth_response.authenticated = true then ServerStatus.CONNECTED_AUTHORIZED
            else ServerStatus.CONNECTED_NOT_AUTHORIZED
           else ServerStatus.NOT_CONNECTED)
      ∧ s₁.m_TokenModel.m_Value =
          (if result.auth_response.connected = true ∧ result.auth_response.authenticated = true
            then [] else s.m_TokenModel.m_Value)
      ∧ s₁.m_ServiceListing = s.m_ServiceListing
      ∧ s₁.m_CurrentServiceModel = s.m_CurrentServiceModel := by
    unfold ApplyStatusCheckResponse
    cases hc : result.auth_response.connected <;> cases ha : result.auth_response.authenticated
    · exact ⟨_, rfl, by simp [SetServerStatus, SetValue_m_Value], by simp [SetServerStatus],
        rfl, rfl⟩
    · exact ⟨_, rfl, by simp [SetServerStatus, SetValue_m_Value], by simp [SetServerStatus],
        rfl, rfl⟩
    · exact ⟨_, rfl, by simp [SetServerStatus, SetValue_m_Value], by simp [SetServerStatus],
        rfl, rfl⟩
    · exact ⟨_, rfl, by simp [SetServerStatus, SetToken, SetValue_m_Value],
        by simp [SetServerStatus, SetToken, SetValue_m_Value], rfl, rfl⟩
  have hidx₁ : s₁.m_CurrentServiceModel.GetValueAndDomain.1 = true →
      (vector_at s₁.m_ServiceListing s₁.m_CurrentServiceModel.GetValueAndDomain.2).isSome
        = true := by
    rw [hcat, hcur]; exact hidx
  obtain ⟨s', hs', hl⟩ := SetServiceListing_listing s₁ result.service_listing hidx₁
  obtain ⟨hfs, hft⟩ := SetServiceListing_frame s₁ s' _ hs'
  refine ⟨s', hs₁.trans hs', ?_, ?_, ?_, ?_, ?_⟩
  · simp only [ConcretePropertyModel.GetValueAndDomain, hfs, hstatus]
  · simp only [ConcretePropertyModel.GetValueAndDomain, hft, htoken]
  · rw [hl]; exact std_sort_perm _ _
  · rw [hl]; exact std_sort_sorted _
  · intro he
    rw [hl, he]
    rfl

/-- Witness of C17: a token is stored and the probe comes back connected and
authenticated with a catalog of two services. -/
theorem C17_status_check_applied_witness :
    ∃ s', Scenario.servers_b_selected.ApplyStatusCheckResponse
        ⟨⟨true, true⟩,
          [Scenario.service "seg-net" "2.0" "bbb", Scenario.service "seg-net" "1.0" "aaa"]⟩
        = some s'
      ∧ s'.m_ServerStatusModel.GetValueAndDomain.2 = ServerStatus.CONNECTED_AUTHORIZED
      ∧ s'.m_TokenModel.GetValueAndDomain.2 = [] := by
  obtain ⟨s', hs', hst, htok, _⟩ := C17_status_check_applied Scenario.servers_b_selected
    ⟨⟨true, true⟩,
      [Scenario.service "seg-net" "2.0" "bbb", Scenario.service "seg-net" "1.0" "aaa"]⟩
    (fun h => absurd h (by decide))
  exact ⟨s', hs', hst, htok⟩

theorem std_find_of_mem {α : Type} [DecidableEq α] (l : List α) (v : α) (h : v ∈ l) :
    std_find l v < l.length ∧ l.get? (std_find l v) = some v := by
  induction l with
  | nil => simp at h
  | cons x rest ih =>
    unfold std_find
    by_cases hx : x = v
    · simp [hx]
    · have hr : v ∈ rest := by
        rcases List.mem_cons.1 h with h' | h'
        · exact absurd h'.symm hx
        · exact h'
      obtain ⟨h₁, h₂⟩ := ih hr
      constructor
      · simp [hx, h₁]
      · simp only [hx, if_false, List.get?_cons_succ]
        exact h₂

theorem std_find_of_not_mem {α : Type} [DecidableEq α] (l : List α) (v : α) (h : v ∉ l) :
    std_find l v = l.length := by
  induction l with
  | nil => rfl
  | cons x rest ih =>
    unfold std_find
    have hx : x ≠ v := fun hx => h (by simp [hx])
    have hr : v ∉ rest := fun hr => h (by simp [hr])
    simp [hx, ih hr]

/-- C19: from every state whose built-in URL list is not empty and whose
selected index lies within the server URL list (so that the selected URL
`my_server` can be read), `SetUserServerList U` returns; the server URL list
is the built-in URLs followed by `U`, the selected index lies within the new
list, the URL at that index is `my_server` whenever `my_server` occurs in the
new list, and otherwise the index is 0, the first built-in URL. -/
theorem C19_user_server_list_keeps_selection (s : DistributedSegmentationModel)
    (U : List std_string) (my_server : std_string)
    (hsys : s.m_SystemServerURLList ≠ [])
    (hcur : vector_at s.m_ServerURLList s.GetServerURL = some my_server) :
    ∃ s', s.SetUserServerList U = some s'
      ∧ s'.m_ServerURLList = s.m_SystemServerURLList ++ U
      ∧ (∃ url, vector_at s'.m_ServerURLList s'.GetServerURL = some url
          ∧ (my_server ∈ s'.m_ServerURLList → url = my_server))
      ∧ (my_server ∉ s'.m_ServerURLList →
          s'.GetServerURL = 0
          ∧ vector_at s'.m_ServerURLList s'.GetServerURL = s.m_SystemServerURLList.head?) := by
  unfold SetUserServerList
  simp only [hcur]
  by_cases hmem : my_server ∈ s.m_SystemServerURLList ++ U
  · obtain ⟨hlt, hget⟩ := std_find_of_mem (s.m_SystemServerURLList ++ U) my_server hmem
    have hne : (std_find (s.m_SystemServerURLList ++ U) my_server
        == (s.m_SystemServerURLList ++ U).length) = false := by
      simpa using ne_of_lt hlt
    refine ⟨_, rfl, ?_, ?_, ?_⟩
    · simp only [hne]
      rfl
    · refine ⟨my_server, ?_, fun _ => rfl⟩
      simp only [hne, Bool.false_eq_true, if_false, GetServerURL, SetServerURL,
        ConcretePropertyModel.GetValueAndDomain, ConcretePropertyModel.InvokeEvent,
        SetValue_m_Value]
      unfold vector_at
      simp only [Int.toNat_ofNat, Int.natCast_nonneg, if_true]
      exact hget
    · intro hnot
      simp only [hne, Bool.false_eq_true, if_false] at hnot
      exact absurd hmem hnot
  · have heq : (std_find (s.m_SystemServerURLList ++ U) my_server
        == (s.m_SystemServerURLList ++ U).length) = true := by
      simpa using std_find_of_not_mem _ _ hmem
    obtain ⟨u, us, hus⟩ : ∃ u us, s.m_SystemServerURLList = u :: us := by
      cases h : s.m_SystemServerURLList with
      | nil => exact absurd h hsys
      | cons u us => exact ⟨u, us, rfl⟩
    have hzero : vector_at (s.m_SystemServerURLList ++ U) 0 = s.m_SystemServerURLList.head? := by
      rw [hus]
      rfl
    refine ⟨_, rfl, ?_, ?_, ?_⟩
    · simp only [heq]
      rfl
    · refine ⟨u, ?_, fun h => ?_⟩
      · simp only [heq, if_true, GetServerURL, SetServerURL,
          ConcretePropertyModel.GetValueAndDomain, ConcretePropertyModel.InvokeEvent,
          SetValue_m_Value]
        rw [hzero, hus]
        rfl
      · simp only [heq, if_true] at h
        exact absurd h hmem
    · intro _
      simp only [heq, if_true, GetServerURL, SetServerURL,
        ConcretePropertyModel.GetValueAndDomain, ConcretePropertyModel.InvokeEvent,
        SetValue_m_Value, true_and]
      exact hzero

/-- Witness of C19: the user servers `a.org` and `b.org` with `b.org` selected
are replaced by `b.org` alone; `b.org` stays selected, now at index 1. -/
theorem C19_user_server_list_keeps_selection_witness :
    ∃ s', Scenario.servers_b_selected.SetUserServerList ["b.org".toList] = some s'
      ∧ s'.m_ServerURLList = ["https://dss.itksnap.org".toList, "b.org".toList]
      ∧ ∃ url, vector_at s'.m_ServerURLList s'.GetServerURL = some url
          ∧ (("b.org".toList) ∈ s'.m_ServerURLList → url = "b.org".toList) := by
  obtain ⟨s', hs', hl, hurl, _⟩ := C19_user_server_list_keeps_selection
    Scenario.servers_b_selected ["b.org".toList] "b.org".toList (by decide) (by decide)
  exact ⟨s', hs', hl, hurl⟩

theorem AsyncGetTicketListing_failed (t : TicketListingTransport)
    (hfail : t.Get ≠ Fallible.returns true) :
    AsyncGetTicketListing t = TicketListingResponse.empty := by
  unfold AsyncGetTicketListing
  cases hg : t.Get with
  | throws => rfl
  | returns b =>
    cases b with
    | false => rfl
    | true => exact absurd hg hfail

theorem ApplyTicketListingResponse_fields (s : DistributedSegmentationModel)
    (resp : TicketListingResponse) :
    (s.ApplyTicketListingResponse resp).m_TicketListing = resp
      ∧ (s.ApplyTicketListingResponse resp).m_TicketListModel.m_IsValid
          = decide (resp.size > 0)
      ∧ (s.ApplyTicketListingResponse resp).m_TicketListModel.m_Value
          = s.m_TicketListModel.m_Value := by
  unfold ApplyTicketListingResponse
  simp only []
  generalize (if s.m_TicketListing.size != resp.size then false
    else same_keys_loop s.m_TicketListing.begin_ resp.begin_) = c
  cases c
  · refine ⟨rfl, ?_, ?_⟩
    · simp only [Bool.false_eq_true, if_false, ConcretePropertyModel.InvokeEvent,
        SetIsValid_m_IsValid]
    · simp only [Bool.false_eq_true, if_false, ConcretePropertyModel.InvokeEvent,
        SetIsValid_m_Value]
  · refine ⟨rfl, ?_, ?_⟩
    · simp only [if_true, ConcretePropertyModel.InvokeEvent, SetIsValid_m_IsValid]
    · simp only [if_true, ConcretePropertyModel.InvokeEvent, SetIsValid_m_Value]

/-- Counterexample to C18 as stated: the tickets 5, 7, 9 are known and ticket 7
is validly selected; the listing request fails, and applying the response that
`AsyncGetTicketListing` returns leaves no known ticket and an invalid
selection. -/
theorem C18_failed_listing_poll_counterexample :
    Scenario.ticket_poll_failed.Get = Fallible.returns false
    ∧ (Scenario.tracker Scenario.listing_5_7_9 7 true ⟨0, 0, []⟩).m_TicketListing.keys = [5, 7, 9]
    ∧ (Scenario.tracker Scenario.listing_5_7_9 7 true ⟨0, 0, []⟩).m_TicketListModel.m_IsValid
        = true
    ∧ ((Scenario.tracker Scenario.listing_5_7_9 7 true ⟨0, 0, []⟩).ApplyTicketListingResponse
        (AsyncGetTicketListing Scenario.ticket_poll_failed)).m_TicketListing.keys = []
    ∧ ((Scenario.tracker Scenario.listing_5_7_9 7 true ⟨0, 0, []⟩).ApplyTicketListingResponse
        (AsyncGetTicketListing Scenario.ticket_poll_failed)).m_TicketListModel.m_IsValid
        = false := by
  decide

/-- C18 (amended): when the listing request fails or throws,
`AsyncGetTicketListing` returns the empty map, and applying it with
`ApplyTicketListingResponse` leaves the known-tickets map empty and the ticket
selection invalid (its value is kept). The map and the validity are as before
the poll exactly when the map was already empty and the selection already
invalid. -/
theorem C18_failed_listing_poll_empties_listing (t : TicketListingTransport)
    (s : DistributedSegmentationModel)
    (hfail : t.Get = Fallible.returns false ∨ t.Get = Fallible.throws) :
    AsyncGetTicketListing t = TicketListingResponse.empty
    ∧ (s.ApplyTicketListingResponse (AsyncGetTicketListing t)).m_TicketListing.entries = []
    ∧ (s.ApplyTicketListingResponse (AsyncGetTicketListing t)).m_TicketListModel.m_IsValid = false
    ∧ (s.ApplyTicketListingResponse (AsyncGetTicketListing t)).m_TicketListModel.m_Value
        = s.m_TicketListModel.m_Value
    ∧ (((s.ApplyTicketListingResponse (AsyncGetTicketListing t)).m_TicketListing.entries
          = s.m_TicketListing.entries
        ∧ (s.ApplyTicketListingResponse (AsyncGetTicketListing t)).m_TicketListModel.m_IsValid
          = s.m_TicketListModel.m_IsValid)
      ↔ (s.m_TicketListing.entries = [] ∧ s.m_TicketListModel.m_IsValid = false)) := by
  have hne : t.Get ≠ Fallible.returns true := by
    rcases hfail with h | h <;> rw [h] <;> simp
  have hempty := AsyncGetTicketListing_failed t hne
  obtain ⟨hl, hv, hval⟩ := ApplyTicketListingResponse_fields s (AsyncGetTicketListing t)
  have hl' : (s.ApplyTicketListingResponse (AsyncGetTicketListing t)).m_TicketListing.entries
      = [] := by
    rw [hl, hempty]; rfl
  have hv' : (s.ApplyTicketListingResponse (AsyncGetTicketListing t)).m_TicketListModel.m_IsValid
      = false := by
    rw [hv, hempty]; rfl
  refine ⟨hempty, hl', hv', hval, ?_⟩
  rw [hl', hv']
  constructor
  · rintro ⟨h₁, h₂⟩
    exact ⟨h₁.symm, h₂.symm⟩
  · rintro ⟨h₁, h₂⟩
    exact ⟨h₁.symm, h₂.symm⟩

/-- Witness of C18 (amended): the listing request fails while the tickets 5, 7
and 9 are known. -/
theorem C18_failed_listing_poll_empties_listing_witness :
    ((Scenario.tracker Scenario.listing_5_7_9 7 true ⟨0, 0, []⟩).ApplyTicketListingResponse
        (AsyncGetTicketListing Scenario.ticket_poll_failed)).m_TicketListing.entries = [] :=
  (C18_failed_listing_poll_empties_listing Scenario.ticket_poll_failed
    (Scenario.tracker Scenario.listing_5_7_9 7 true ⟨0, 0, []⟩) (Or.inl rfl)).2.1

theorem FindLayersByTag_eq_candidates (driver : IRISApplication) (ts : TagSpec)
    (hk : is_layer_kind ts.type) :
    0 ≤ role_filter_of ts.type
    ∧ driver.FindLayersByTag ts.name (role_filter_of ts.type).toNat = tag_candidates driver ts := by
  unfold IRISApplication.FindLayersByTag tag_candidates
  rcases hk with h | h | h
  · rw [h]
    refine ⟨by decide, List.filter_congr (fun l _ => ?_)⟩
    cases l.role <;> rfl
  · rw [h]
    refine ⟨by decide, List.filter_congr (fun l _ => ?_)⟩
    cases l.role <;> rfl
  · rw [h]
    refine ⟨by decide, List.filter_congr (fun l _ => ?_)⟩
    cases l.role <;> rfl

theorem tag_candidates_not_layer_kind (driver : IRISApplication) (ts : TagSpec)
    (hk : ¬ is_layer_kind ts.type) :
    role_filter_of ts.type = -1 ∧ tag_candidates driver ts = [] := by
  unfold is_layer_kind at hk
  unfold tag_candidates
  cases ht : ts.type <;> simp [ht] at hk <;>
    exact ⟨rfl, by simp [kind_allows_role]⟩

theorem AssignTagObjectIds_body_spec (driver : IRISApplication) (tag : TagTargetSpec) :
    (AssignTagObjectIds_body driver tag).tag_spec = tag.tag_spec
    ∧ (∀ w, driver.IsMainImageLoaded = true → is_layer_kind tag.tag_spec.type →
        tag_candidates driver tag.tag_spec = [w] →
        (AssignTagObjectIds_body driver tag).object_id = w.m_UniqueId
        ∧ (AssignTagObjectIds_body driver tag).desc = w.m_Nickname)
    ∧ (¬ (driver.IsMainImageLoaded = true ∧ is_layer_kind tag.tag_spec.type
          ∧ ∃ w, tag_candidates driver tag.tag_spec = [w]) →
        (AssignTagObjectIds_body driver tag).object_id = 0
        ∧ (AssignTagObjectIds_body driver tag).desc = "Unassigned".toList) := by
  unfold AssignTagObjectIds_body
  simp only []
  cases hm : driver.IsMainImageLoaded with
  | false => simp
  | true =>
    by_cases hk : is_layer_kind tag.tag_spec.type
    · obtain ⟨hge, hfind⟩ := FindLayersByTag_eq_candidates driver tag.tag_spec hk
      simp only [if_true, ge_iff_le, hge, hfind]
      cases hc : tag_candidates driver tag.tag_spec with
      | nil => simp
      | cons a rest =>
        cases rest with
        | nil => simp [hk]
        | cons b rest' => simp
    · obtain ⟨hneg, hcand⟩ := tag_candidates_not_layer_kind driver tag.tag_spec hk
      simp [hneg, hk]

/-- C12: after `AssignTagObjectIds` the binding array has the same length and
the same tag specs, and for every entry: if a main image is loaded, the tag
kind is `LayerMain`, `LayerOverlay` or `LayerAnatomical`, and exactly one object
carries the tag's name within the kind's role filter, the entry is bound to
that object's id with its display name as description; in every other case,
two or more matches included, the bound id is 0 and the description is
`Unassigned`. When no object has the id 0, the bound id is therefore non-zero
if and only if the three conditions hold. -/
theorem C12_auto_binding_single_match (s : DistributedSegmentationModel)
    (driver : IRISApplication) :
    (s.AssignTagObjectIds driver).m_TagSpecArray.length = s.m_TagSpecArray.length
    ∧ ∀ (i : Nat) (tag : TagTargetSpec), s.m_TagSpecArray.get? i = some tag →
      ∃ tag', (s.AssignTagObjectIds driver).m_TagSpecArray.get? i = some tag'
        ∧ tag'.tag_spec = tag.tag_spec
        ∧ (∀ w, driver.IsMainImageLoaded = true → is_layer_kind tag.tag_spec.type →
            tag_candidates driver tag.tag_spec = [w] →
            tag'.object_id = w.m_UniqueId ∧ tag'.desc = w.m_Nickname)
        ∧ (¬ (driver.IsMainImageLoaded = true ∧ is_layer_kind tag.tag_spec.type
              ∧ ∃ w, tag_candidates driver tag.tag_spec = [w]) →
            tag'.object_id = 0 ∧ tag'.desc = "Unassigned".toList)
        ∧ (2 ≤ (tag_candidates driver tag.tag_spec).length →
            tag'.object_id = 0 ∧ tag'.desc = "Unassigned".toList)
        ∧ ((∀ l ∈ driver.layers, l.m_UniqueId ≠ 0) →
            (tag'.object_id ≠ 0 ↔
              (driver.IsMainImageLoaded = true ∧ is_layer_kind tag.tag_spec.type
                ∧ ∃ w, tag_candidates driver tag.tag_spec = [w]))) := by
  refine ⟨by simp [AssignTagObjectIds], fun i tag hget => ?_⟩
  obtain ⟨hspec, hbound, hunbound⟩ := AssignTagObjectIds_body_spec driver tag
  refine ⟨AssignTagObjectIds_body driver tag, ?_, hspec, hbound, hunbound, ?_, ?_⟩
  · have hget' : s.m_TagSpecArray[i]? = some tag := by simpa using hget
    simp [AssignTagObjectIds, hget']
  · intro h2
    apply hunbound
    rintro ⟨_, _, w, hw⟩
    rw [hw] at h2
    simp at h2
  · intro hids
    constructor
    · intro hne
      by_contra hcond
      exact hne (hunbound hcond).1
    · rintro ⟨hm, hk, w, hw⟩
      rw [(hbound w hm hk hw).1]
      apply hids
      have : w ∈ tag_candidates driver tag.tag_spec := by rw [hw]; simp
      exact (List.mem_filter.1 this).1

/-- Witness of C12: in a workspace with one main image tagged `T1` and two
overlays tagged `Seg`, the tag `T1` is bound to the main image (id 1) and the
ambiguous tag `Seg` stays unassigned. -/
theorem C12_auto_binding_single_match_witness :
    (∃ tag', ((Scenario.with_tags [Scenario.tag "T1" TagType.TAG_LAYER_MAIN true 0,
          Scenario.tag "Seg" TagType.TAG_LAYER_OVERLAY true 0]).AssignTagObjectIds
          Scenario.workspace).m_TagSpecArray.get? 0 = some tag'
        ∧ tag'.object_id = 1 ∧ tag'.desc = "t1.nii".toList)
    ∧ (∃ tag', ((Scenario.with_tags [Scenario.tag "T1" TagType.TAG_LAYER_MAIN true 0,
          Scenario.tag "Seg" TagType.TAG_LAYER_OVERLAY true 0]).AssignTagObjectIds
          Scenario.workspace).m_TagSpecArray.get? 1 = some tag'
        ∧ tag'.object_id = 0 ∧ tag'.desc = "Unassigned".toList) := by
  constructor
  · obtain ⟨tag', h, _, hb, _⟩ := (C12_auto_binding_single_match
      (Scenario.with_tags [Scenario.tag "T1" TagType.TAG_LAYER_MAIN true 0,
        Scenario.tag "Seg" TagType.TAG_LAYER_OVERLAY true 0]) Scenario.workspace).2 0
      (Scenario.tag "T1" TagType.TAG_LAYER_MAIN true 0) rfl
    exact ⟨tag', h, hb (Scenario.layer 1 "t1.nii" LayerRole.MAIN_ROLE ["T1"]) rfl
      (by decide) (by decide)⟩
  · obtain ⟨tag', h, _, _, _, h2, _⟩ := (C12_auto_binding_single_match
      (Scenario.with_tags [Scenario.tag "T1" TagType.TAG_LAYER_MAIN true 0,
        Scenario.tag "Seg" TagType.TAG_LAYER_OVERLAY true 0]) Scenario.workspace).2 1
      (Scenario.tag "Seg" TagType.TAG_LAYER_OVERLAY true 0) rfl
    exact ⟨tag', h, h2 (by decide)⟩

theorem AsyncGetServiceListing_loop_all (l : List ServiceSummary) :
    ∀ services : List ServiceSummary,
      AsyncGetServiceListing_loop (l.map Fallible.returns) services
        = (Fallible.returns (), services ++ l) := by
  induction l with
  | nil => intro services; simp [AsyncGetServiceListing_loop]
  | cons a l ih => intro services; simp [AsyncGetServiceListing_loop, ih]

theorem AsyncGetServiceListing_loop_fault (result : List (Fallible ServiceSummary))
    (h : Fallible.throws ∈ result) :
    ∀ services : List ServiceSummary,
      (AsyncGetServiceListing_loop result services).1 = Fallible.throws := by
  induction result with
  | nil => simp at h
  | cons a rest ih =>
    intro services
    cases a with
    | throws => rfl
    | returns x =>
      unfold AsyncGetServiceListing_loop
      exact ih (by simpa using h) _

theorem AsyncCheckStatus_try_fetch (url token : std_string) (t : StatusCheckTransport)
    (h : (token = [] ∧ t.SetServerURL = Fallible.returns ())
      ∨ (token ≠ [] ∧ t.Authenticate = Fallible.returns true)) :
    (AsyncCheckStatus_try url token t ⟨⟨false, false⟩, []⟩).1 = Fallible.returns ()
    ∧ (AsyncCheckStatus_try url token t ⟨⟨false, false⟩, []⟩).2.1 =
        (if (AsyncGetServiceListing t.listing []).1 = true
          then ⟨⟨true, true⟩, (AsyncGetServiceListing t.listing []).2⟩
          else ⟨⟨false, false⟩, (AsyncGetServiceListing t.listing []).2⟩) := by
  unfold AsyncCheckStatus_try
  rcases h with ⟨ht, hs⟩ | ⟨ht, ha⟩
  · simp only [ht, hs, List.length_nil, beq_self_eq_true, if_true]
    cases hok : (AsyncGetServiceListing t.listing []).1 <;> simp [hok]
  · have hlen : (token.length == 0) = false := by
      cases token with
      | nil => exact absurd rfl ht
      | cons c cs => rfl
    simp only [hlen, ha, Bool.false_eq_true, if_false]
    cases hok : (AsyncGetServiceListing t.listing []).1 <;> simp [hok]

/-- C16: `AsyncCheckStatus` always returns a response, never a fault, and in
the response `authenticated` implies `connected`. With a non-empty token and a
refused authentication the response is connected, not authenticated, with an
empty catalog, and the only request made is the authentication. With an empty
token (after `SetServerURL`) or an accepted authentication, the response is
connected and authenticated with the fetched catalog when
`AsyncGetServiceListing` returns true, and neither connected nor authenticated
when it returns false. A fault thrown by `SetServerURL` or `Authenticate`
gives a response that is not connected. The catalog fetch returns true with the
decoded entries when the request succeeds and the body decodes, and false when
the request fails or any step of it throws. -/
theorem C16_probe_outcomes (url token : std_string) (t : StatusCheckTransport) :
    (∃ r, (AsyncCheckStatus url token t).1 = Fallible.returns r
      ∧ (r.auth_response.authenticated = true → r.auth_response.connected = true)
      ∧ (token ≠ [] → t.Authenticate = Fallible.returns false →
          r = ⟨⟨true, false⟩, []⟩
          ∧ (AsyncCheckStatus url token t).2 = [TransportCall.Authenticate url token])
      ∧ ((token = [] ∧ t.SetServerURL = Fallible.returns ())
            ∨ (token ≠ [] ∧ t.Authenticate = Fallible.returns true) →
          ((AsyncGetServiceListing t.listing []).1 = true →
            r = ⟨⟨true, true⟩, (AsyncGetServiceListing t.listing []).2⟩)
          ∧ ((AsyncGetServiceListing t.listing []).1 = false →
            r.auth_response = ⟨false, false⟩))
      ∧ ((token = [] ∧ t.SetServerURL = Fallible.throws)
            ∨ (token ≠ [] ∧ t.Authenticate = Fallible.throws) →
          r = ⟨⟨false, false⟩, []⟩))
    ∧ (∀ l : List ServiceSummary, t.listing.Get = Fallible.returns true →
        t.listing.parse = Fallible.returns true → t.listing.result = l.map Fallible.returns →
        AsyncGetServiceListing t.listing [] = (true, l))
    ∧ (t.listing.Get = Fallible.returns false → AsyncGetServiceListing t.listing [] = (false, []))
    ∧ ((t.listing.Get = Fallible.throws
          ∨ (t.listing.Get = Fallible.returns true ∧ t.listing.parse = Fallible.throws)
          ∨ (t.listing.Get = Fallible.returns true ∧ t.listing.parse = Fallible.returns true
              ∧ Fallible.throws ∈ t.listing.result)) →
        (AsyncGetServiceListing t.listing []).1 = false) := by
  refine ⟨?_, ?_, ?_, ?_⟩
  · -- the probe itself
    by_cases htok : token = []
    · cases hs : t.SetServerURL with
      | throws =>
        refine ⟨⟨⟨false, false⟩, []⟩, ?_, by simp, ?_, ?_, fun _ => rfl⟩
        · simp [AsyncCheckStatus, AsyncCheckStatus_try, htok, hs]
        · intro h; exact absurd htok h
        · rintro (⟨_, h⟩ | ⟨h, _⟩)
          · simp at h
          · exact absurd htok h
      | returns u =>
        obtain ⟨h₁, h₂⟩ := AsyncCheckStatus_try_fetch url token t (Or.inl ⟨htok, hs⟩)
        refine ⟨(AsyncCheckStatus_try url token t ⟨⟨false, false⟩, []⟩).2.1, ?_, ?_, ?_, ?_, ?_⟩
        · unfold AsyncCheckStatus
          simp only []
          generalize hx : AsyncCheckStatus_try url token t ⟨⟨false, false⟩, []⟩ = x at h₁
          obtain ⟨x₁, x₂, x₃⟩ := x
          simp only at h₁
          subst h₁
          rfl
        · rw [h₂]
          split <;> simp
        · intro h; exact absurd htok h
        · intro _
          rw [h₂]
          constructor
          · intro hok; rw [if_pos hok]
          · intro hok; rw [if_neg (by simp [hok])]
        · rintro (⟨_, h⟩ | ⟨h, _⟩)
          · simp at h
          · exact absurd htok h
    · have hlen : (token.length == 0) = false := by
        cases token with
        | nil => exact absurd rfl htok
        | cons c cs => rfl
      cases ha : t.Authenticate with
      | throws =>
        refine ⟨⟨⟨false, false⟩, []⟩, ?_, by simp, ?_, ?_, fun _ => rfl⟩
        · simp [AsyncCheckStatus, AsyncCheckStatus_try, hlen, ha]
        · intro _ h; simp at h
        · rintro (⟨h, _⟩ | ⟨_, h⟩)
          · exact absurd h htok
          · simp at h
      | returns b =>
        cases b with
        | false =>
          refine ⟨⟨⟨true, false⟩, []⟩, ?_, by simp, ?_, ?_, ?_⟩
          · simp [AsyncCheckStatus, AsyncCheckStatus_try, hlen, ha]
          · intro _ _
            refine ⟨rfl, ?_⟩
            simp [AsyncCheckStatus, AsyncCheckStatus_try, hlen, ha]
          · rintro (⟨h, _⟩ | ⟨_, h⟩)
            · exact absurd h htok
            · simp at h
          · rintro (⟨h, _⟩ | ⟨_, h⟩)
            · exact absurd h htok
            · simp at h
        | true =>
          obtain ⟨h₁, h₂⟩ := AsyncCheckStatus_try_fetch url token t (Or.inr ⟨htok, ha⟩)
          refine ⟨(AsyncCheckStatus_try url token t ⟨⟨false, false⟩, []⟩).2.1, ?_, ?_, ?_, ?_, ?_⟩
          · unfold AsyncCheckStatus
            simp only []
            generalize hx : AsyncCheckStatus_try url token t ⟨⟨false, false⟩, []⟩ = x at h₁
            obtain ⟨x₁, x₂, x₃⟩ := x
            simp only at h₁
            subst h₁
            rfl
          · rw [h₂]
            split <;> simp
          · intro _ h; simp at h
          · intro _
            rw [h₂]
            constructor
            · intro hok; rw [if_pos hok]
            · intro hok; rw [if_neg (by simp [hok])]
          · rintro (⟨h, _⟩ | ⟨_, h⟩)
            · exact absurd h htok
            · simp at h
  · intro l hg hp hr
    unfold AsyncGetServiceListing
    simp only [hg, hp, hr, AsyncGetServiceListing_loop_all, List.nil_append]
  · intro hg
    unfold AsyncGetServiceListing
    simp only [hg]
  · rintro (hg | ⟨hg, hp⟩ | ⟨hg, hp, hr⟩)
    · unfold AsyncGetServiceListing
      simp only [hg]
    · unfold AsyncGetServiceListing
      simp only [hg, hp]
    · unfold AsyncGetServiceListing
      simp only [hg, hp]
      have := AsyncGetServiceListing_loop_fault t.listing.result hr []
      generalize AsyncGetServiceListing_loop t.listing.result [] = x at this
      obtain ⟨x₁, x₂⟩ := x
      simp only at this
      subst this
      rfl

/-- Witness of C16: with the token `secret`, a refused authentication gives a
connected, unauthenticated response without a catalog request, and an accepted
one gives a connected, authenticated response with the fetched catalog. -/
theorem C16_probe_outcomes_witness :
    AsyncCheckStatus "https://dss.itksnap.org".toList "secret".toList Scenario.probe_auth_refused
      = (Fallible.returns ⟨⟨true, false⟩, []⟩,
         [TransportCall.Authenticate "https://dss.itksnap.org".toList "secret".toList])
    ∧ AsyncGetServiceListing Scenario.probe_ok.listing []
      = (true, [Scenario.service "seg-net" "1.0" "aaa"]) := by
  obtain ⟨⟨r, hr, _, hrefused, _⟩, _⟩ := C16_probe_outcomes "https://dss.itksnap.org".toList
    "secret".toList Scenario.probe_auth_refused
  obtain ⟨hr', hcalls⟩ := hrefused (by decide) rfl
  refine ⟨?_, (C16_probe_outcomes "https://dss.itksnap.org".toList "secret".toList
    Scenario.probe_ok).2.1 [Scenario.service "seg-net" "1.0" "aaa"] rfl rfl rfl⟩
  rw [← hr', ← hr, ← hcalls]

theorem FindLayer_from_congr (l l' : List ImageWrapperBase)
    (h : l.map (·.m_UniqueId) = l'.map (·.m_UniqueId)) :
    ∀ (j x : Nat), IRISApplication.FindLayer_from j l x = IRISApplication.FindLayer_from j l' x := by
  induction l generalizing l' with
  | nil =>
    intro j x
    cases l' with
    | nil => rfl
    | cons b l' => simp at h
  | cons a l ih =>
    intro j x
    cases l' with
    | nil => simp at h
    | cons b l' =>
      simp only [List.map_cons, List.cons.injEq] at h
      unfold IRISApplication.FindLayer_from
      rw [h.1, ih l' h.2]

theorem FindLayer_from_bound (l : List ImageWrapperBase) :
    ∀ (j x w : Nat), IRISApplication.FindLayer_from j l x = some w → w < j + l.length := by
  induction l with
  | nil => intro j x w h; simp [IRISApplication.FindLayer_from] at h
  | cons a l ih =>
    intro j x w h
    unfold IRISApplication.FindLayer_from at h
    split at h
    · simp only [Option.some.injEq] at h
      subst h
      simp
    · have := ih (j + 1) x w h
      simp only [List.length_cons]
      omega

theorem SetTags_ids (d : IRISApplication) (w : Nat) (tags : List std_string) :
    (SetTags d w tags).layers.map (·.m_UniqueId) = d.layers.map (·.m_UniqueId) := by
  unfold SetTags
  cases h : d.layers.get? w with
  | none => rfl
  | some l =>
    simp only [List.map_set]
    have h' : d.layers[w]? = some l := by simpa using h
    have hw : w < d.layers.length := by
      by_contra hlt
      rw [List.getElem?_eq_none (by omega)] at h'
      simp at h'
    apply List.ext_getElem?
    intro k
    rw [List.getElem?_set]
    by_cases hk : w = k
    · subst hk
      have hl : d.layers[w] = l := by
        rw [List.getElem?_eq_getElem hw] at h'
        simpa using h'
      simp [hw, hl]
    · simp [hk]

theorem SetTags_GetTags (d : IRISApplication) (w : Nat) (tags : List std_string) (k : Nat) :
    GetTags (SetTags d w tags) k
      = if k = w ∧ w < d.layers.length then tags else GetTags d k := by
  unfold SetTags GetTags
  cases h : d.layers.get? w with
  | none =>
    have hw : ¬ w < d.layers.length := by
      intro hlt
      have : d.layers[w]? = none := by simpa using h
      rw [List.getElem?_eq_getElem hlt] at this
      simp at this
    simp [hw]
  | some l =>
    have h' : d.layers[w]? = some l := by simpa using h
    have hw : w < d.layers.length := by
      by_contra hlt
      rw [List.getElem?_eq_none (by omega)] at h'
      simp at h'
    simp only [List.get?_eq_getElem?, List.getElem?_set]
    by_cases hk : w = k
    · subst hk
      simp [hw]
    · have hk' : ¬ k = w := fun e => hk e.symm
      simp [hk, hk']

theorem GetTags_of_ge (d : IRISApplication) (k : Nat) (h : d.layers.length ≤ k) :
    GetTags d k = [] := by
  unfold GetTags
  have : d.layers.get? k = none := by simp [List.getElem?_eq_none h]
  rw [this]

theorem ApplyTagsToTargets_others_spec (w : Nat) (name : std_string) (its : List Nat) :
    ∀ d : IRISApplication,
      (ApplyTagsToTargets_others w name its d).layers.map (·.m_UniqueId)
          = d.layers.map (·.m_UniqueId)
      ∧ ∀ (k : Nat) (t : std_string),
          t ∈ GetTags (ApplyTagsToTargets_others w name its d) k
            ↔ t ∈ GetTags d k ∧ ¬ (k ∈ its ∧ k ≠ w ∧ t = name) := by
  induction its with
  | nil => intro d; simp [ApplyTagsToTargets_others]
  | cons it rest ih =>
    intro d
    -- the state after visiting `it`
    obtain ⟨d₁, hd₁, hids₁, htags₁⟩ : ∃ d₁ : IRISApplication,
        ApplyTagsToTargets_others w name (it :: rest) d = ApplyTagsToTargets_others w name rest d₁
        ∧ d₁.layers.map (·.m_UniqueId) = d.layers.map (·.m_UniqueId)
        ∧ ∀ (k : Nat) (t : std_string),
            t ∈ GetTags d₁ k ↔ t ∈ GetTags d k ∧ ¬ (k = it ∧ k ≠ w ∧ t = name) := by
      by_cases hw : it = w
      · refine ⟨d, ?_, rfl, ?_⟩
        · simp [ApplyTagsToTargets_others, hw]
        · intro k t
          constructor
          · intro h
            refine ⟨h, ?_⟩
            rintro ⟨h₁, h₂, _⟩
            exact h₂ (h₁.trans hw)
          · exact fun h => h.1
      · by_cases hc : name ∈ GetTags d it
        · refine ⟨SetTags d it ((GetTags d it).filter (fun t => t != name)), ?_,
            SetTags_ids _ _ _, ?_⟩
          · simp [ApplyTagsToTargets_others, hw, hc]
          · intro k t
            rw [SetTags_GetTags]
            by_cases hk : k = it
            · subst hk
              by_cases hlt : k < d.layers.length
              · simp [hlt, hw]
              · have he := GetTags_of_ge d k (by omega)
                simp [hlt, he]
            · simp [hk]
        · refine ⟨d, ?_, rfl, ?_⟩
          · simp [ApplyTagsToTargets_others, hw, hc]
          · intro k t
            constructor
            · intro h
              refine ⟨h, ?_⟩
              rintro ⟨h₁, _, h₃⟩
              apply hc
              rw [← h₁, ← h₃]
              exact h
            · exact fun h => h.1
    obtain ⟨hids, htags⟩ := ih d₁
    rw [hd₁]
    refine ⟨hids.trans hids₁, fun k t => ?_⟩
    rw [htags k t, htags₁ k t]
    simp only [List.mem_cons]
    tauto

theorem bound_layer_of_layer_kind (d : IRISApplication) (tts : TagTargetSpec)
    (hk : is_layer_kind tts.tag_spec.type) :
    bound_layer d tts = d.FindLayer tts.object_id := by
  unfold bound_layer
  rcases hk with h | h | h <;> simp [h]

theorem bound_layer_congr (d d' : IRISApplication)
    (h : d.layers.map (·.m_UniqueId) = d'.layers.map (·.m_UniqueId)) (tts : TagTargetSpec) :
    bound_layer d tts = bound_layer d' tts := by
  unfold bound_layer IRISApplication.FindLayer
  rw [FindLayer_from_congr d.layers d'.layers h]

theorem last_bound_layer_congr (d d' : IRISApplication)
    (h : d.layers.map (·.m_UniqueId) = d'.layers.map (·.m_UniqueId))
    (specs : List TagTargetSpec) (t : std_string) :
    last_bound_layer d specs t = last_bound_layer d' specs t := by
  induction specs with
  | nil => rfl
  | cons tts rest ih =>
    unfold last_bound_layer
    rw [ih, bound_layer_congr d d' h]

theorem bound_layer_lt (d : IRISApplication) (tts : TagTargetSpec) (w : Nat)
    (h : bound_layer d tts = some w) : w < d.layers.length := by
  unfold bound_layer at h
  split at h
  · have := FindLayer_from_bound d.layers 0 tts.object_id w h
    omega
  · simp at h

theorem ApplyTagsToTargets_body_ids (d : IRISApplication) (tts : TagTargetSpec) :
    (ApplyTagsToTargets_body d tts).layers.map (·.m_UniqueId)
      = d.layers.map (·.m_UniqueId) := by
  unfold ApplyTagsToTargets_body
  simp only []
  split
  · split
    · rename_i wrapper _
      rw [(ApplyTagsToTargets_others_spec wrapper tts.tag_spec.name _ _).1]
      split
      · exact SetTags_ids _ _ _
      · rfl
    · rfl
  · rfl

theorem ApplyTagsToTargets_body_none (d : IRISApplication) (tts : TagTargetSpec)
    (h : bound_layer d tts = none) : ApplyTagsToTargets_body d tts = d := by
  unfold bound_layer at h
  unfold ApplyTagsToTargets_body
  simp only []
  split
  · rename_i hc
    rw [if_pos hc] at h
    rw [h]
  · rfl

theorem ApplyTagsToTargets_body_some (d : IRISApplication) (tts : TagTargetSpec) (w : Nat)
    (h : bound_layer d tts = some w) (k : Nat) (t : std_string) :
    t ∈ GetTags (ApplyTagsToTargets_body d tts) k
      ↔ if t = tts.tag_spec.name then k = w else t ∈ GetTags d k := by
  have hw : w < d.layers.length := bound_layer_lt d tts w h
  unfold bound_layer at h
  unfold ApplyTagsToTargets_body
  simp only []
  split
  · rename_i hc
    rw [if_pos hc] at h
    rw [h]
    simp only []
    -- the workspace after the tag has been written to the bound layer
    obtain ⟨d₁, hd₁, hlen₁, htags₁⟩ : ∃ d₁ : IRISApplication,
        (if (!(GetTags d w).contains tts.tag_spec.name) = true
          then SetTags d w (GetTags d w ++ [tts.tag_spec.name]) else d) = d₁
        ∧ d₁.layers.length = d.layers.length
        ∧ ∀ (k : Nat) (t : std_string),
            t ∈ GetTags d₁ k ↔ t ∈ GetTags d k ∨ (k = w ∧ t = tts.tag_spec.name) := by
      by_cases hn : tts.tag_spec.name ∈ GetTags d w
      · refine ⟨d, by simp [hn], rfl, fun k t => ?_⟩
        constructor
        · exact fun h => Or.inl h
        · rintro (h | ⟨h₁, h₂⟩)
          · exact h
          · rw [h₁, h₂]; exact hn
      · refine ⟨SetTags d w (GetTags d w ++ [tts.tag_spec.name]), by simp [hn], ?_,
          fun k t => ?_⟩
        · have := congrArg List.length (SetTags_ids d w (GetTags d w ++ [tts.tag_spec.name]))
          simpa using this
        · rw [SetTags_GetTags]
          by_cases hk : k = w
          · subst hk
            simp [hw]
          · simp [hk]
    rw [hd₁, (ApplyTagsToTargets_others_spec w tts.tag_spec.name _ d₁).2 k t, htags₁ k t, hlen₁]
    simp only [List.mem_range]
    by_cases ht : t = tts.tag_spec.name
    · simp only [ht, if_true, and_true, true_and]
      constructor
      · rintro ⟨h₁, h₂⟩
        by_contra hkw
        rcases h₁ with h₁ | h₁
        · have hlt : k < d.layers.length := by
            by_contra hge
            rw [GetTags_of_ge d k (by omega)] at h₁
            simp at h₁
          exact h₂ ⟨hlt, hkw⟩
        · exact hkw h₁
      · intro hkw
        exact ⟨Or.inr hkw, fun h => h.2 hkw⟩
    · simp [ht]
  · rename_i hc
    rw [if_neg hc] at h
    simp at h

theorem last_bound_layer_cons (d : IRISApplication) (tts : TagTargetSpec)
    (rest : List TagTargetSpec) (t : std_string) :
    last_bound_layer d (tts :: rest) t =
      match last_bound_layer d rest t with
      | some w => some w
      | none => if tts.tag_spec.name = t then bound_layer d tts else none := rfl

theorem ApplyTagsToTargets_loop_spec (specs : List TagTargetSpec) :
    ∀ d : IRISApplication,
      (ApplyTagsToTargets_loop specs d).layers.map (·.m_UniqueId)
          = d.layers.map (·.m_UniqueId)
      ∧ ∀ (k : Nat) (t : std_string),
          t ∈ GetTags (ApplyTagsToTargets_loop specs d) k
            ↔ match last_bound_layer d specs t with
              | some w => k = w
              | none => t ∈ GetTags d k := by
  induction specs with
  | nil => intro d; simp [ApplyTagsToTargets_loop, last_bound_layer]
  | cons tts rest ih =>
    intro d
    obtain ⟨hids, htags⟩ := ih (ApplyTagsToTargets_body d tts)
    have hbody := ApplyTagsToTargets_body_ids d tts
    unfold ApplyTagsToTargets_loop
    refine ⟨hids.trans hbody, fun k t => ?_⟩
    rw [htags k t, last_bound_layer_congr _ d hbody rest t, last_bound_layer_cons]
    cases hrest : last_bound_layer d rest t with
    | some w => rfl
    | none =>
      simp only []
      cases hb : bound_layer d tts with
      | none =>
        rw [ApplyTagsToTargets_body_none d tts hb]
        by_cases ht : tts.tag_spec.name = t <;> simp [ht]
      | some w =>
        rw [ApplyTagsToTargets_body_some d tts w hb k t]
        by_cases ht : tts.tag_spec.name = t
        · simp [ht]
        · have ht' : ¬ t = tts.tag_spec.name := fun e => ht e.symm
          simp [ht, ht']

theorem last_bound_layer_of_mem (d : IRISApplication) (specs : List TagTargetSpec)
    (tts : TagTargetSpec) (w : Nat) (hmem : tts ∈ specs) (hb : bound_layer d tts = some w) :
    ∃ w', last_bound_layer d specs tts.tag_spec.name = some w' := by
  induction specs with
  | nil => simp at hmem
  | cons q rest ih =>
    unfold last_bound_layer
    cases hrest : last_bound_layer d rest tts.tag_spec.name with
    | some w' => exact ⟨w', rfl⟩
    | none =>
      rcases List.mem_cons.1 hmem with h | h
      · subst h
        exact ⟨w, by simp [hb]⟩
      · obtain ⟨w', hw'⟩ := ih h
        rw [hrest] at hw'
        simp at hw'

theorem last_bound_layer_some_mem (d : IRISApplication) (specs : List TagTargetSpec)
    (t : std_string) (w : Nat) (h : last_bound_layer d specs t = some w) :
    ∃ q ∈ specs, q.tag_spec.name = t ∧ bound_layer d q = some w := by
  induction specs with
  | nil => simp [last_bound_layer] at h
  | cons q rest ih =>
    unfold last_bound_layer at h
    cases hrest : last_bound_layer d rest t with
    | some w' =>
      rw [hrest] at h
      simp only [Option.some.injEq] at h
      subst h
      obtain ⟨q', hq', hn, hb⟩ := ih hrest
      exact ⟨q', by simp [hq'], hn, hb⟩
    | none =>
      rw [hrest] at h
      simp only [] at h
      by_cases hn : q.tag_spec.name = t
      · rw [if_pos hn] at h
        exact ⟨q, by simp, hn, h⟩
      · rw [if_neg hn] at h
        simp at h

theorem last_bound_layer_append (d : IRISApplication) (pre post : List TagTargetSpec)
    (t : std_string) :
    last_bound_layer d (pre ++ post) t =
      match last_bound_layer d post t with
      | some w => some w
      | none => last_bound_layer d pre t := by
  induction pre with
  | nil =>
    simp only [List.nil_append]
    cases last_bound_layer d post t <;> rfl
  | cons q rest ih =>
    simp only [List.cons_append]
    rw [last_bound_layer_cons, last_bound_layer_cons, ih]
    cases last_bound_layer d post t <;> rfl

/-- C14: for every binding array and every workspace, running
`ApplyTagsToTargets` a second time with unchanged bindings leaves the same
layers (same unique ids, in the same order) and every layer with the same set
of tag names as after the first run. -/
theorem C14_apply_tags_idempotent_on_tag_sets (s : DistributedSegmentationModel)
    (driver : IRISApplication) :
    (s.ApplyTagsToTargets (s.ApplyTagsToTargets driver)).layers.map (·.m_UniqueId)
        = (s.ApplyTagsToTargets driver).layers.map (·.m_UniqueId)
    ∧ ∀ (k : Nat) (t : std_string),
        t ∈ GetTags (s.ApplyTagsToTargets (s.ApplyTagsToTargets driver)) k
          ↔ t ∈ GetTags (s.ApplyTagsToTargets driver) k := by
  unfold ApplyTagsToTargets
  obtain ⟨hids₁, htags₁⟩ := ApplyTagsToTargets_loop_spec s.m_TagSpecArray driver
  obtain ⟨hids₂, htags₂⟩ := ApplyTagsToTargets_loop_spec s.m_TagSpecArray
    (ApplyTagsToTargets_loop s.m_TagSpecArray driver)
  refine ⟨hids₂, fun k t => ?_⟩
  rw [htags₂ k t, last_bound_layer_congr _ driver hids₁, htags₁ k t]
  cases last_bound_layer driver s.m_TagSpecArray t with
  | some w => rfl
  | none => simp only []

/-- Counterexample to C15 as stated: the binding array holds the overlay tag
`Seg`, unbound (id 0), and two overlays of the workspace carry `Seg`; after
`ApplyTagsToTargets` both still carry it. -/
theorem C15_unbound_tag_counterexample :
    is_layer_kind (Scenario.tag "Seg" TagType.TAG_LAYER_OVERLAY true 0).tag_spec.type
    ∧ ("Seg".toList) ∈ GetTags ((Scenario.with_tags
        [Scenario.tag "Seg" TagType.TAG_LAYER_OVERLAY true 0]).ApplyTagsToTargets
        Scenario.workspace) 1
    ∧ ("Seg".toList) ∈ GetTags ((Scenario.with_tags
        [Scenario.tag "Seg" TagType.TAG_LAYER_OVERLAY true 0]).ApplyTagsToTargets
        Scenario.workspace) 2 := by
  decide

/-- C15 (amended): after `ApplyTagsToTargets`, for every entry of the binding
array whose kind is a layer kind and whose bound id refers to an object present
in the workspace, at most one object carries that entry's tag name. -/
theorem C15_bound_tag_is_exclusive (s : DistributedSegmentationModel)
    (driver : IRISApplication) (tts : TagTargetSpec) (w : Nat)
    (hmem : tts ∈ s.m_TagSpecArray)
    (hkind : is_layer_kind tts.tag_spec.type)
    (hfound : driver.FindLayer tts.object_id = some w) :
    ∀ j k : Nat,
      tts.tag_spec.name ∈ GetTags (s.ApplyTagsToTargets driver) j →
      tts.tag_spec.name ∈ GetTags (s.ApplyTagsToTargets driver) k → j = k := by
  have hb : bound_layer driver tts = some w := by
    rw [bound_layer_of_layer_kind driver tts hkind]; exact hfound
  obtain ⟨w', hw'⟩ := last_bound_layer_of_mem driver s.m_TagSpecArray tts w hmem hb
  intro j k hj hk
  unfold ApplyTagsToTargets at hj hk
  rw [(ApplyTagsToTargets_loop_spec s.m_TagSpecArray driver).2 j, hw'] at hj
  rw [(ApplyTagsToTargets_loop_spec s.m_TagSpecArray driver).2 k, hw'] at hk
  simp only [] at hj hk
  rw [hj, hk]

/-- Witness of C15 (amended): the overlay tag `Seg` is bound to the overlay
with id 3 (position 2) while two overlays carry `Seg`; afterwards that overlay
carries `Seg` and the other overlay (position 1) does not. -/
theorem C15_bound_tag_is_exclusive_witness :
    ("Seg".toList) ∈ GetTags ((Scenario.with_tags
        [Scenario.tag "Seg" TagType.TAG_LAYER_OVERLAY true 3]).ApplyTagsToTargets
        Scenario.workspace) 2
    ∧ ¬ ("Seg".toList) ∈ GetTags ((Scenario.with_tags
        [Scenario.tag "Seg" TagType.TAG_LAYER_OVERLAY true 3]).ApplyTagsToTargets
        Scenario.workspace) 1 :=
  ⟨by decide, fun h => absurd
    (C15_bound_tag_is_exclusive
      (Scenario.with_tags [Scenario.tag "Seg" TagType.TAG_LAYER_OVERLAY true 3])
      Scenario.workspace (Scenario.tag "Seg" TagType.TAG_LAYER_OVERLAY true 3) 2
      (by decide) (by decide) (by decide) 1 2 h (by decide))
    (by decide)⟩

/-- Counterexample to C20 as stated: two entries of the binding array carry the
same tag name `T1`, the first bound to the object with id 1 and the second to
the object with id 2, both present; after `ApplyTagsToTargets` the object with
id 1 (position 0) does not carry `T1`. -/
theorem C20_shared_name_counterexample :
    is_layer_kind (Scenario.tag "T1" TagType.TAG_LAYER_ANATOMICAL true 1).tag_spec.type
    ∧ Scenario.workspace.FindLayer
        (Scenario.tag "T1" TagType.TAG_LAYER_ANATOMICAL true 1).object_id = some 0
    ∧ ("T1".toList) ∉ GetTags ((Scenario.with_tags
        [Scenario.tag "T1" TagType.TAG_LAYER_ANATOMICAL true 1,
         Scenario.tag "T1" TagType.TAG_LAYER_ANATOMICAL true 2]).ApplyTagsToTargets
        Scenario.workspace) 0 := by
  decide

/-- C20 (amended): after `ApplyTagsToTargets`, for every entry of the binding
array of layer kind whose bound id refers to an object present in the
workspace, and which is not followed in the array by an entry of layer kind
with the same tag name bound to a different present object, the bound object's
tags contain the entry's tag name. -/
theorem C20_bound_object_carries_tag (s : DistributedSegmentationModel)
    (driver : IRISApplication) (pre post : List TagTargetSpec) (tts : TagTargetSpec) (w : Nat)
    (harr : s.m_TagSpecArray = pre ++ tts :: post)
    (hkind : is_layer_kind tts.tag_spec.type)
    (hfound : driver.FindLayer tts.object_id = some w)
    (hlater : ∀ q ∈ post, is_layer_kind q.tag_spec.type →
      q.tag_spec.name = tts.tag_spec.name →
      ∀ w', driver.FindLayer q.object_id = some w' → w' = w) :
    tts.tag_spec.name ∈ GetTags (s.ApplyTagsToTargets driver) w := by
  have hb : bound_layer driver tts = some w := by
    rw [bound_layer_of_layer_kind driver tts hkind]; exact hfound
  have hlast : last_bound_layer driver (pre ++ tts :: post) tts.tag_spec.name = some w := by
    rw [last_bound_layer_append]
    cases hpost : last_bound_layer driver (tts :: post) tts.tag_spec.name with
    | none =>
      obtain ⟨w', hw'⟩ := last_bound_layer_of_mem driver (tts :: post) tts w (by simp) hb
      rw [hpost] at hw'
      simp at hw'
    | some w' =>
      simp only []
      rw [last_bound_layer_cons] at hpost
      cases hrest : last_bound_layer driver post tts.tag_spec.name with
      | none =>
        rw [hrest] at hpost
        simp only [if_true, hb, Option.some.injEq] at hpost
        rw [hpost]
      | some w'' =>
        rw [hrest] at hpost
        simp only [Option.some.injEq] at hpost
        obtain ⟨q, hq, hn, hbq⟩ := last_bound_layer_some_mem driver post _ w'' hrest
        have hkq : is_layer_kind q.tag_spec.type := by
          by_contra hnk
          unfold bound_layer at hbq
          unfold is_layer_kind at hnk
          simp only [not_or] at hnk
          simp [hnk.1, hnk.2.1, hnk.2.2] at hbq
        rw [bound_layer_of_layer_kind driver q hkq] at hbq
        rw [← hpost, hlater q hq hkq hn w'' hbq]
  unfold ApplyTagsToTargets
  rw [(ApplyTagsToTargets_loop_spec s.m_TagSpecArray driver).2 w, harr, hlast]

/-- Witness of C20 (amended): the tags `T1` and `Seg` are bound to the main
image (id 1) and to the overlay with id 3; the main image carries `T1`
afterwards. -/
theorem C20_bound_object_carries_tag_witness :
    ("T1".toList) ∈ GetTags ((Scenario.with_tags
        [Scenario.tag "T1" TagType.TAG_LAYER_MAIN true 1,
         Scenario.tag "Seg" TagType.TAG_LAYER_OVERLAY true 3]).ApplyTagsToTargets
        Scenario.workspace) 0 :=
  C20_bound_object_carries_tag
    (Scenario.with_tags [Scenario.tag "T1" TagType.TAG_LAYER_MAIN true 1,
      Scenario.tag "Seg" TagType.TAG_LAYER_OVERLAY true 3])
    Scenario.workspace [] [Scenario.tag "Seg" TagType.TAG_LAYER_OVERLAY true 3]
    (Scenario.tag "T1" TagType.TAG_LAYER_MAIN true 1) 0 rfl (by decide) (by decide)
    (by decide)

theorem service_summary_cmp_iff (a b : ServiceSummary) :
    service_summary_cmp a b = true
      ↔ (a.name < b.name ∨ (a.name = b.name ∧ a.version < b.version)) := by
  unfold service_summary_cmp
  by_cases h₁ : a.name < b.name
  · simp [h₁]
  · by_cases h₂ : a.name = b.name ∧ a.version < b.version
    · simp [h₂]
    · simp only [h₁, h₂, if_false, false_or]
      simp

theorem service_summary_cmp_incomparable_iff (a b : ServiceSummary) :
    (service_summary_cmp a b = false ∧ service_summary_cmp b a = false)
      ↔ (a.name = b.name ∧ a.version = b.version) := by
  constructor
  · rintro ⟨hab, hba⟩
    have h₁ := service_summary_cmp_false_le a b hab
    have h₂ := service_summary_cmp_false_le b a hba
    unfold name_version_le at h₁ h₂
    rcases h₁ with h₁ | ⟨h₁, h₁'⟩
    · rcases h₂ with h₂ | ⟨h₂, _⟩
      · exact absurd h₂ (not_lt_of_lt h₁)
      · rw [h₂] at h₁; exact absurd h₁ (lt_irrefl _)
    · rcases h₂ with h₂ | ⟨h₂, h₂'⟩
      · rw [h₁] at h₂; exact absurd h₂ (lt_irrefl _)
      · exact ⟨h₂, le_antisymm h₂' h₁'⟩
  · rintro ⟨hn, hv⟩
    constructor
    · cases h : service_summary_cmp a b with
      | false => rfl
      | true =>
        rcases (service_summary_cmp_iff a b).1 h with h' | ⟨_, h'⟩
        · rw [hn] at h'; exact absurd h' (lt_irrefl _)
        · rw [hv] at h'; exact absurd h' (lt_irrefl _)
    · cases h : service_summary_cmp b a with
      | false => rfl
      | true =>
        rcases (service_summary_cmp_iff b a).1 h with h' | ⟨_, h'⟩
        · rw [hn] at h'; exact absurd h' (lt_irrefl _)
        · rw [hv] at h'; exact absurd h' (lt_irrefl _)

/-- C28: `service_summary_cmp` is the strict lexicographic order on the pair
(name, version): it is irreflexive, asymmetric and transitive; two summaries
are incomparable exactly when they have equal names and equal versions, and
incomparability is transitive; its value depends only on the names and the
versions of its arguments, not on the content hash or the short description. -/
theorem C28_cmp_is_strict_weak_order :
    (∀ a b : ServiceSummary, service_summary_cmp a b = true
      ↔ (a.name < b.name ∨ (a.name = b.name ∧ a.version < b.version)))
    ∧ (∀ a : ServiceSummary, service_summary_cmp a a = false)
    ∧ (∀ a b : ServiceSummary, service_summary_cmp a b = true → service_summary_cmp b a = false)
    ∧ (∀ a b c : ServiceSummary, service_summary_cmp a b = true →
        service_summary_cmp b c = true → service_summary_cmp a c = true)
    ∧ (∀ a b : ServiceSummary,
        (service_summary_cmp a b = false ∧ service_summary_cmp b a = false)
          ↔ (a.name = b.name ∧ a.version = b.version))
    ∧ (∀ a b c : ServiceSummary,
        (service_summary_cmp a b = false ∧ service_summary_cmp b a = false) →
        (service_summary_cmp b c = false ∧ service_summary_cmp c b = false) →
        (service_summary_cmp a c = false ∧ service_summary_cmp c a = false))
    ∧ (∀ a b a' b' : ServiceSummary, a'.name = a.name → a'.version = a.version →
        b'.name = b.name → b'.version = b.version →
        service_summary_cmp a' b' = service_summary_cmp a b) := by
  refine ⟨service_summary_cmp_iff, ?_, ?_, ?_, service_summary_cmp_incomparable_iff, ?_, ?_⟩
  · intro a
    exact ((service_summary_cmp_incomparable_iff a a).2 ⟨rfl, rfl⟩).1
  · intro a b hab
    cases hba : service_summary_cmp b a with
    | false => rfl
    | true =>
      rcases (service_summary_cmp_iff a b).1 hab with h | ⟨hn, hv⟩
      · rcases (service_summary_cmp_iff b a).1 hba with h' | ⟨hn', _⟩
        · exact absurd h' (not_lt_of_lt h)
        · rw [hn'] at h; exact absurd h (lt_irrefl _)
      · rcases (service_summary_cmp_iff b a).1 hba with h' | ⟨_, hv'⟩
        · rw [hn] at h'; exact absurd h' (lt_irrefl _)
        · exact absurd hv' (not_lt_of_lt hv)
  · intro a b c hab hbc
    apply (service_summary_cmp_iff a c).2
    rcases (service_summary_cmp_iff a b).1 hab with h | ⟨hn, hv⟩
    · rcases (service_summary_cmp_iff b c).1 hbc with h' | ⟨hn', _⟩
      · exact Or.inl (lt_trans h h')
      · exact Or.inl (hn' ▸ h)
    · rcases (service_summary_cmp_iff b c).1 hbc with h' | ⟨hn', hv'⟩
      · exact Or.inl (hn ▸ h')
      · exact Or.inr ⟨hn.trans hn', lt_trans hv hv'⟩
  · intro a b c hab hbc
    obtain ⟨h₁, h₂⟩ := (service_summary_cmp_incomparable_iff a b).1 hab
    obtain ⟨h₃, h₄⟩ := (service_summary_cmp_incomparable_iff b c).1 hbc
    exact (service_summary_cmp_incomparable_iff a c).2 ⟨h₁.trans h₃, h₂.trans h₄⟩
  · intro a b a' b' h₁ h₂ h₃ h₄
    unfold service_summary_cmp
    rw [h₁, h₂, h₃, h₄]

/-- Witness of C28: seg-net 1.0 is ordered before seg-net 2.0, hence not after
it, whatever the content hashes. -/
theorem C28_cmp_is_strict_weak_order_witness :
    service_summary_cmp (Scenario.service "seg-net" "1.0" "aaa")
        (Scenario.service "seg-net" "2.0" "bbb") = true
    ∧ service_summary_cmp (Scenario.service "seg-net" "2.0" "bbb")
        (Scenario.service "seg-net" "1.0" "aaa") = false :=
  ⟨by decide, C28_cmp_is_strict_weak_order.2.2.1 _ _ (by decide)⟩

theorem ApplyTicketDetailResponse_models (s : DistributedSegmentationModel)
    (resp : TicketDetailResponse)
    (hsel : s.m_TicketListModel.GetValueAndDomain = (true, resp.ticket_id)) :
    (s.ApplyTicketDetailResponse resp).m_SelectedTicketProgressModel
        = (s.m_SelectedTicketProgressModel.SetValue resp.progress).SetIsValid true
    ∧ (s.ApplyTicketDetailResponse resp).m_SelectedTicketLogModel
        = (if s.m_SelectedTicketDetail.ticket_id ≠ resp.ticket_id ∨ resp.log ≠ []
            then (s.m_SelectedTicketLogModel.SetIsValid true).InvokeEvent
              EventType.DomainChangedEvent
            else s.m_SelectedTicketLogModel.SetIsValid true) := by
  simp only [ConcretePropertyModel.GetValueAndDomain, Prod.mk.injEq] at hsel
  obtain ⟨hv, hid⟩ := hsel
  unfold ApplyTicketDetailResponse
  simp only [ConcretePropertyModel.GetValueAndDomain, hv, hid]
  by_cases hc : s.m_SelectedTicketDetail.ticket_id = resp.ticket_id
  · cases hl : resp.log with
    | nil => simp [hc, ApplyTicketDetailResponse_loop_eq]
    | cons e rest => simp [hc, ApplyTicketDetailResponse_loop_eq]
  · simp [hc, ApplyTicketDetailResponse_loop_eq]

theorem SetValue_events {α δ : Type} [DecidableEq α] (p : ConcretePropertyModel α δ) (v : α) :
    (p.SetValue v).events = p.events
      ∨ (p.SetValue v).events = p.events ++ [EventType.ValueChangedEvent] := by
  unfold ConcretePropertyModel.SetValue
  split
  · exact Or.inr rfl
  · exact Or.inl rfl

/-- C25: for a detail response for the validly selected ticket,
`ApplyTicketDetailResponse` invokes the structural `DomainChangedEvent` on the
log model if and only if the response carries at least one log entry or the
cached detail belonged to another ticket id. In every case the log model and
the progress model are valid afterwards, and no structural event is invoked on
the progress model; so a progress-only response for the already cached ticket
invokes no structural event at all. -/
theorem C25_structural_event_iff_log_changed (s : DistributedSegmentationModel)
    (resp : TicketDetailResponse)
    (hsel : s.m_TicketListModel.GetValueAndDomain = (true, resp.ticket_id)) :
    (EventType.DomainChangedEvent ∈
        (s.ApplyTicketDetailResponse resp).m_SelectedTicketLogModel.events.drop
          s.m_SelectedTicketLogModel.events.length
      ↔ (resp.log ≠ [] ∨ s.m_SelectedTicketDetail.ticket_id ≠ resp.ticket_id))
    ∧ (s.ApplyTicketDetailResponse resp).m_SelectedTicketLogModel.m_IsValid = true
    ∧ (s.ApplyTicketDetailResponse resp).m_SelectedTicketProgressModel.m_IsValid = true
    ∧ EventType.DomainChangedEvent ∉
        (s.ApplyTicketDetailResponse resp).m_SelectedTicketProgressModel.events.drop
          s.m_SelectedTicketProgressModel.events.length := by
  obtain ⟨hp, hl⟩ := ApplyTicketDetailResponse_models s resp hsel
  have hlv := SetIsValid_events s.m_SelectedTicketLogModel true
  refine ⟨?_, ?_, ?_, ?_⟩
  · rw [hl]
    by_cases hc : s.m_SelectedTicketDetail.ticket_id ≠ resp.ticket_id ∨ resp.log ≠ []
    · rw [if_pos hc]
      have hc' : resp.log ≠ [] ∨ s.m_SelectedTicketDetail.ticket_id ≠ resp.ticket_id :=
        hc.symm
      simp only [ConcretePropertyModel.InvokeEvent]
      rcases hlv with h | h <;> rw [h] <;> simp [hc']
    · rw [if_neg hc]
      have hc' : ¬ (resp.log ≠ [] ∨ s.m_SelectedTicketDetail.ticket_id ≠ resp.ticket_id) :=
        fun h => hc h.symm
      rcases hlv with h | h <;> rw [h] <;> simp [hc']
  · rw [hl]
    split
    · simp only [ConcretePropertyModel.InvokeEvent]
      exact SetIsValid_m_IsValid _ _
    · exact SetIsValid_m_IsValid _ _
  · rw [hp]
    exact SetIsValid_m_IsValid _ _
  · rw [hp]
    have h₁ := SetIsValid_events (s.m_SelectedTicketProgressModel.SetValue resp.progress) true
    have h₂ := SetValue_events s.m_SelectedTicketProgressModel resp.progress
    rcases h₁ with h₁ | h₁ <;> rcases h₂ with h₂ | h₂ <;> rw [h₁, h₂] <;> simp

/-- Witness of C25: ticket 42 is selected and cached with the log ids 1, 2; a
response with progress only invokes no structural event on the log model, a
response with the log id 3 does. -/
theorem C25_structural_event_iff_log_changed_witness :
    EventType.DomainChangedEvent ∉
        (Scenario.tracker_42_in_progress.ApplyTicketDetailResponse
          ⟨42, 1, []⟩).m_SelectedTicketLogModel.events.drop
          Scenario.tracker_42_in_progress.m_SelectedTicketLogModel.events.length
    ∧ EventType.DomainChangedEvent ∈
        (Scenario.tracker_42_in_progress.ApplyTicketDetailResponse
          ⟨42, 1, [Scenario.log_entry 3]⟩).m_SelectedTicketLogModel.events.drop
          Scenario.tracker_42_in_progress.m_SelectedTicketLogModel.events.length :=
  ⟨fun h => absurd ((C25_structural_event_iff_log_changed Scenario.tracker_42_in_progress
      ⟨42, 1, []⟩ rfl).1.1 h) (by decide),
   (C25_structural_event_iff_log_changed Scenario.tracker_42_in_progress
      ⟨42, 1, [Scenario.log_entry 3]⟩ rfl).1.2 (Or.inl (by decide))⟩

theorem AsyncGetTicketDetails_failed (t : TicketDetailTransport) (ticket_id last_log : IdType)
    (hfail : t.Get ≠ Fallible.returns true) :
    AsyncGetTicketDetails t ticket_id last_log
      = { ticket_id := ticket_id, progress := 0, log := [] } := by
  unfold AsyncGetTicketDetails
  cases hg : t.Get with
  | throws => rfl
  | returns b =>
    cases b with
    | false => rfl
    | true => exact absurd hg hfail

/-- Counterexample to C21 as stated: ticket 42 is validly selected, its detail
is cached with progress 1 and the progress model shows 1; the detail request
fails, and after applying the response that `AsyncGetTicketDetails` returns the
cached progress and the progress model value are 0. -/
theorem C21_failed_detail_poll_counterexample :
    Scenario.detail_poll_failed.Get = Fallible.returns false
    ∧ Scenario.tracker_42_in_progress.m_TicketListModel.GetValueAndDomain = (true, 42)
    ∧ Scenario.tracker_42_in_progress.m_SelectedTicketDetail.ticket_id = 42
    ∧ Scenario.tracker_42_in_progress.m_SelectedTicketDetail.progress = 1
    ∧ Scenario.tracker_42_in_progress.m_SelectedTicketProgressModel.m_Value = 1
    ∧ (Scenario.tracker_42_in_progress.ApplyTicketDetailResponse
        (AsyncGetTicketDetails Scenario.detail_poll_failed 42
          2)).m_SelectedTicketDetail.progress = 0
    ∧ (Scenario.tracker_42_in_progress.ApplyTicketDetailResponse
        (AsyncGetTicketDetails Scenario.detail_poll_failed 42
          2)).m_SelectedTicketProgressModel.m_Value = 0 := by
  decide

/-- C21 (amended): when the detail request for the validly selected ticket
fails or throws and the cached detail already belongs to that ticket,
`AsyncGetTicketDetails` returns progress 0 and an empty log, and applying it
with `ApplyTicketDetailResponse` leaves the cached log as it was and invokes no
structural event on the log model, while the cached progress and the progress
model value become 0; they are as before the poll exactly when they were 0. -/
theorem C21_failed_detail_poll_keeps_log_resets_progress (t : TicketDetailTransport)
    (s : DistributedSegmentationModel) (ticket_id last_log : IdType)
    (hfail : t.Get = Fallible.returns false ∨ t.Get = Fallible.throws)
    (hsel : s.m_TicketListModel.GetValueAndDomain = (true, ticket_id))
    (hcached : s.m_SelectedTicketDetail.ticket_id = ticket_id) :
    AsyncGetTicketDetails t ticket_id last_log = { ticket_id := ticket_id, progress := 0, log := [] }
    ∧ (s.ApplyTicketDetailResponse
        (AsyncGetTicketDetails t ticket_id last_log)).m_SelectedTicketDetail.log
        = s.m_SelectedTicketDetail.log
    ∧ EventType.DomainChangedEvent ∉
        (s.ApplyTicketDetailResponse
          (AsyncGetTicketDetails t ticket_id last_log)).m_SelectedTicketLogModel.events.drop
          s.m_SelectedTicketLogModel.events.length
    ∧ (s.ApplyTicketDetailResponse
        (AsyncGetTicketDetails t ticket_id last_log)).m_SelectedTicketDetail.progress = 0
    ∧ (s.ApplyTicketDetailResponse
        (AsyncGetTicketDetails t ticket_id last_log)).m_SelectedTicketProgressModel.m_Value = 0
    ∧ ((s.ApplyTicketDetailResponse
          (AsyncGetTicketDetails t ticket_id last_log)).m_SelectedTicketDetail.progress
          = s.m_SelectedTicketDetail.progress
        ↔ s.m_SelectedTicketDetail.progress = 0)
    ∧ ((s.ApplyTicketDetailResponse
          (AsyncGetTicketDetails t ticket_id last_log)).m_SelectedTicketProgressModel.m_Value
          = s.m_SelectedTicketProgressModel.m_Value
        ↔ s.m_SelectedTicketProgressModel.m_Value = 0) := by
  have hne : t.Get ≠ Fallible.returns true := by
    rcases hfail with h | h <;> rw [h] <;> simp
  have hresp := AsyncGetTicketDetails_failed t ticket_id last_log hne
  rw [hresp]
  have hsel' : s.m_TicketListModel.GetValueAndDomain
      = (true, ({ ticket_id := ticket_id, progress := 0, log := [] } :
          TicketDetailResponse).ticket_id) := hsel
  have hdet := ApplyTicketDetailResponse_detail s _ hsel'
  obtain ⟨hp, hl⟩ := ApplyTicketDetailResponse_models s _ hsel'
  have hprog : (s.ApplyTicketDetailResponse
      { ticket_id := ticket_id, progress := 0, log := [] }).m_SelectedTicketDetail.progress
        = 0 := by rw [hdet]
  have hval : (s.ApplyTicketDetailResponse
      { ticket_id := ticket_id, progress := 0, log := [] }).m_SelectedTicketProgressModel.m_Value
        = 0 := by
    rw [hp, SetIsValid_m_Value, SetValue_m_Value]
  refine ⟨rfl, ?_, ?_, hprog, hval, ?_, ?_⟩
  · rw [hdet]
    simp [hcached]
  · rw [hl]
    have hlv := SetIsValid_events s.m_SelectedTicketLogModel true
    simp only [hcached, ne_eq, not_true_eq_false, or_self, if_false]
    rcases hlv with h | h <;> rw [h] <;> simp
  · rw [hprog]
    exact ⟨fun h => h.symm, fun h => h.symm⟩
  · rw [hval]
    exact ⟨fun h => h.symm, fun h => h.symm⟩

/-- Witness of C21 (amended): ticket 42 is selected and cached with progress 1
and the log ids 1, 2; the detail request fails. -/
theorem C21_failed_detail_poll_keeps_log_resets_progress_witness :
    (Scenario.tracker_42_in_progress.ApplyTicketDetailResponse
        (AsyncGetTicketDetails Scenario.detail_poll_failed 42 2)).m_SelectedTicketDetail.log
      = [Scenario.log_entry 1, Scenario.log_entry 2]
    ∧ (Scenario.tracker_42_in_progress.ApplyTicketDetailResponse
        (AsyncGetTicketDetails Scenario.detail_poll_failed 42
          2)).m_SelectedTicketDetail.progress = 0 :=
  ⟨(C21_failed_detail_poll_keeps_log_resets_progress Scenario.detail_poll_failed
      Scenario.tracker_42_in_progress 42 2 (Or.inl rfl) rfl rfl).2.1,
   (C21_failed_detail_poll_keeps_log_resets_progress Scenario.detail_poll_failed
      Scenario.tracker_42_in_progress 42 2 (Or.inl rfl) rfl rfl).2.2.2.1⟩

theorem fresh_tag_targets_eq (T : List TagSpec) :
    ∀ acc : List TagTargetSpec,
      fresh_tag_targets T acc
        = acc ++ T.map (fun ts => ({ tag_spec := ts, object_id := 0, desc := [] } : TagTargetSpec)) := by
  induction T with
  | nil => intro acc; simp [fresh_tag_targets]
  | cons ts rest ih => intro acc; simp [fresh_tag_targets, ih]

theorem ApplyServiceDetailResponse_fields (s : DistributedSegmentationModel)
    (driver : IRISApplication) (resp : ServiceDetailResponse) :
    (s.ApplyServiceDetailResponse driver resp).m_TagSpecArray
        = resp.tag_specs.map (fun ts => AssignTagObjectIds_body driver
            { tag_spec := ts, object_id := 0, desc := [] })
    ∧ (s.ApplyServiceDetailResponse driver resp).m_TagListModel
        = (if resp.tag_specs.length != 0 then
            ((s.m_TagListModel.InvokeEvent EventType.DomainChangedEvent).SetValue 0).SetIsValid true
           else (s.m_TagListModel.InvokeEvent EventType.DomainChangedEvent).SetIsValid false) := by
  unfold ApplyServiceDetailResponse
  simp only []
  split
  · refine ⟨?_, rfl⟩
    simp [AssignTagObjectIds, SetServiceDescription, fresh_tag_targets_eq]
  · refine ⟨?_, rfl⟩
    simp [AssignTagObjectIds, SetServiceDescription, fresh_tag_targets_eq]

/-- C22: after `ApplyServiceDetailResponse` with the tag specs `T`, the binding
array has exactly as many entries as `T`, its i-th entry carries the tag spec
`T[i]` and is what the auto-binding step makes of a fresh unbound entry for
`T[i]` (nothing of the previous array is used); the structural event is invoked
on the tag selection, which is valid with index 0 when `T` is non-empty and
invalid when `T` is empty. -/
theorem C22_tag_specs_loaded_fresh (s : DistributedSegmentationModel)
    (driver : IRISApplication) (resp : ServiceDetailResponse) :
    (s.ApplyServiceDetailResponse driver resp).m_TagSpecArray.length = resp.tag_specs.length
    ∧ (∀ (i : Nat) (ts : TagSpec), resp.tag_specs.get? i = some ts →
        ∃ e, (s.ApplyServiceDetailResponse driver resp).m_TagSpecArray.get? i = some e
          ∧ e.tag_spec = ts
          ∧ e = AssignTagObjectIds_body driver { tag_spec := ts, object_id := 0, desc := [] })
    ∧ EventType.DomainChangedEvent ∈
        (s.ApplyServiceDetailResponse driver resp).m_TagListModel.events.drop
          s.m_TagListModel.events.length
    ∧ (resp.tag_specs ≠ [] →
        (s.ApplyServiceDetailResponse driver resp).m_TagListModel.GetValueAndDomain = (true, 0))
    ∧ (resp.tag_specs = [] →
        (s.ApplyServiceDetailResponse driver resp).m_TagListModel.GetValueAndDomain.1 = false) := by
  obtain ⟨harr, hmodel⟩ := ApplyServiceDetailResponse_fields s driver resp
  refine ⟨?_, ?_, ?_, ?_, ?_⟩
  · rw [harr]; simp
  · intro i ts hget
    have hget' : resp.tag_specs[i]? = some ts := by simpa using hget
    refine ⟨AssignTagObjectIds_body driver { tag_spec := ts, object_id := 0, desc := [] },
      ?_, (AssignTagObjectIds_body_spec driver _).1, rfl⟩
    rw [harr]
    simp [hget']
  · rw [hmodel]
    split
    · have h₁ := SetIsValid_events
        ((s.m_TagListModel.InvokeEvent EventType.DomainChangedEvent).SetValue 0) true
      have h₂ := SetValue_events (s.m_TagListModel.InvokeEvent EventType.DomainChangedEvent) 0
      rcases h₁ with h₁ | h₁ <;> rcases h₂ with h₂ | h₂ <;> rw [h₁, h₂] <;>
        simp [ConcretePropertyModel.InvokeEvent]
    · have h₁ := SetIsValid_events
        (s.m_TagListModel.InvokeEvent EventType.DomainChangedEvent) false
      rcases h₁ with h₁ | h₁ <;> rw [h₁] <;> simp [ConcretePropertyModel.InvokeEvent]
  · intro hne
    have hlen : (resp.tag_specs.length != 0) = true := by
      cases h : resp.tag_specs with
      | nil => exact absurd h hne
      | cons t ts => rfl
    rw [hmodel, if_pos hlen]
    simp only [ConcretePropertyModel.GetValueAndDomain, SetIsValid_m_IsValid, SetIsValid_m_Value,
      SetValue_m_Value]
  · intro he
    rw [hmodel, he]
    simp only [ConcretePropertyModel.GetValueAndDomain, List.length_nil, bne_self_eq_false,
      Bool.false_eq_true, if_false, SetIsValid_m_IsValid]

/-- Witness of C22: a binding array with one bound entry is replaced by the tag
specs `T1` (main image) and `Seg` (overlay) in the workspace with one main image
tagged `T1` and two overlays tagged `Seg`. -/
theorem C22_tag_specs_loaded_fresh_witness :
    ((Scenario.with_tags [Scenario.tag "Old" TagType.TAG_LAYER_MAIN true 7]
        ).ApplyServiceDetailResponse Scenario.workspace
        ⟨true, [], [],
          [(Scenario.tag "T1" TagType.TAG_LAYER_MAIN true 0).tag_spec,
           (Scenario.tag "Seg" TagType.TAG_LAYER_OVERLAY true 0).tag_spec]⟩
        ).m_TagListModel.GetValueAndDomain = (true, 0)
    ∧ ((Scenario.with_tags [Scenario.tag "Old" TagType.TAG_LAYER_MAIN true 7]
        ).ApplyServiceDetailResponse Scenario.workspace
        ⟨true, [], [],
          [(Scenario.tag "T1" TagType.TAG_LAYER_MAIN true 0).tag_spec,
           (Scenario.tag "Seg" TagType.TAG_LAYER_OVERLAY true 0).tag_spec]⟩
        ).m_TagSpecArray.map (·.object_id) = [1, 0] :=
  ⟨(C22_tag_specs_loaded_fresh
      (Scenario.with_tags [Scenario.tag "Old" TagType.TAG_LAYER_MAIN true 7]) Scenario.workspace
      ⟨true, [], [],
        [(Scenario.tag "T1" TagType.TAG_LAYER_MAIN true 0).tag_spec,
         (Scenario.tag "Seg" TagType.TAG_LAYER_OVERLAY true 0).tag_spec]⟩).2.2.2.1 (by decide),
   by decide⟩

theorem map_assign_append (d : CurrentServiceDomain) (i : Int) (v : std_string)
    (h : ∀ e ∈ d, e.1 < i) : map_assign d i v = d ++ [(i, v)] := by
  induction d with
  | nil => rfl
  | cons e rest ih =>
    obtain ⟨k, w⟩ := e
    have hk : k < i := h (k, w) (by simp)
    unfold map_assign
    rw [if_neg (not_lt_of_lt hk), if_neg (ne_of_gt hk), ih (fun e he => h e (by simp [he]))]
    rfl

theorem SetServiceListing_loop_domain (v : Bool) (h : std_string) (l : List ServiceSummary) :
    ∀ (j : Nat) (d : CurrentServiceDomain) (n : Int), (∀ e ∈ d, e.1 < (j : Int)) →
      (SetServiceListing_loop v h l (j : Int) (d, n)).1
        = d ++ (l.enumFrom j).map (fun p => ((p.1 : Int), service_label p.2)) := by
  induction l with
  | nil => intro j d n _; simp [SetServiceListing_loop]
  | cons svc rest ih =>
    intro j d n hd
    unfold SetServiceListing_loop
    rw [map_assign_append d j (service_label svc) hd]
    have hcast : ((j : Int) + 1) = ((j + 1 : Nat) : Int) := by push_cast; ring
    rw [hcast, ih (j + 1)]
    · simp
    · intro e he
      rcases List.mem_append.1 he with he | he
      · have := hd e he
        push_cast
        omega
      · simp only [List.mem_singleton] at he
        rw [he]
        push_cast
        omega

theorem SetServiceListing_loop_invalid (h : std_string) (l : List ServiceSummary) :
    ∀ (i : Int) (acc : CurrentServiceDomain × Int),
      (SetServiceListing_loop false h l i acc).2 = acc.2 := by
  induction l with
  | nil => intro i acc; rfl
  | cons svc rest ih =>
    intro i acc
    obtain ⟨d, n⟩ := acc
    unfold SetServiceListing_loop
    rw [ih]
    simp

theorem SetDomain_m_Domain {α δ : Type} [DecidableEq δ] (p : ConcretePropertyModel α δ) (d : δ) :
    (p.SetDomain d).m_Domain = d := by
  unfold ConcretePropertyModel.SetDomain
  split
  · rfl
  · rename_i h; simpa using h

theorem SetValue_m_Domain {α δ : Type} [DecidableEq α] (p : ConcretePropertyModel α δ) (v : α) :
    (p.SetValue v).m_Domain = p.m_Domain := by
  unfold ConcretePropertyModel.SetValue
  split <;> rfl

theorem SetIsValid_m_Domain {α δ : Type} (p : ConcretePropertyModel α δ) (b : Bool) :
    (p.SetIsValid b).m_Domain = p.m_Domain := by
  unfold ConcretePropertyModel.SetIsValid
  split <;> rfl

theorem SetServiceListing_model (s : DistributedSegmentationModel) (C : List ServiceSummary)
    (hidx : s.m_CurrentServiceModel.GetValueAndDomain.1 = true →
      (vector_at s.m_ServiceListing s.m_CurrentServiceModel.GetValueAndDomain.2).isSome = true) :
    ∃ (s' : DistributedSegmentationModel) (hash : std_string),
      s.SetServiceListing C = some s'
      ∧ s'.m_ServiceListing = std_sort service_summary_cmp C
      ∧ (∀ x, s.m_CurrentServiceModel.m_IsValid = true →
          vector_at s.m_ServiceListing s.m_CurrentServiceModel.m_Value = some x →
          hash = x.githash)
      ∧ (C = [] → s'.m_CurrentServiceModel
          = (s.m_CurrentServiceModel.SetDomain []).SetIsValid false)
      ∧ (C ≠ [] → s'.m_CurrentServiceModel
          = (((s.m_CurrentServiceModel.SetIsValid true).SetDomain
              (SetServiceListing_loop s.m_CurrentServiceModel.m_IsValid hash
                (std_sort service_summary_cmp C) 0 ([], 0)).1).SetValue
              (SetServiceListing_loop s.m_CurrentServiceModel.m_IsValid hash
                (std_sort service_summary_cmp C) 0 ([], 0)).2)) := by
  unfold SetServiceListing
  simp only [ConcretePropertyModel.GetValueAndDomain] at hidx ⊢
  cases hv : s.m_CurrentServiceModel.m_IsValid with
  | false =>
    cases C with
    | nil => exact ⟨_, [], rfl, rfl, by simp, fun _ => rfl, fun h => absurd rfl h⟩
    | cons c C =>
      exact ⟨_, [], rfl, rfl, by simp, fun h => by simp at h, fun _ => rfl⟩
  | true =>
    obtain ⟨x, hx⟩ := Option.isSome_iff_exists.1 (hidx hv)
    cases C with
    | nil =>
      simp only [hx]
      exact ⟨_, x.githash, rfl, rfl, by simp, fun _ => rfl, fun h => absurd rfl h⟩
    | cons c C =>
      simp only [hx]
      exact ⟨_, x.githash, rfl, rfl, by simp, fun h => by simp at h, fun _ => rfl⟩

/-- C23: when no service was validly selected, or the new listing `C` does not
contain the content hash of the selected service, `SetServiceListing C`
returns; for empty `C` the selection is invalid and the label domain and the
catalog are empty; for non-empty `C` the selection is valid with index 0, the
stored catalog is `C` sorted, and the label stored for index `i` is the i-th
sorted entry's name, a space, its version, ` : ` and its short description. -/
theorem C23_selection_falls_back_to_first (s : DistributedSegmentationModel)
    (C : List ServiceSummary)
    (hidx : s.m_CurrentServiceModel.GetValueAndDomain.1 = true →
      (vector_at s.m_ServiceListing s.m_CurrentServiceModel.GetValueAndDomain.2).isSome = true)
    (hnew : s.m_CurrentServiceModel.GetValueAndDomain.1 = false
      ∨ ∀ x, vector_at s.m_ServiceListing s.m_CurrentServiceModel.GetValueAndDomain.2 = some x →
          ∀ c ∈ C, c.githash ≠ x.githash) :
    ∃ s', s.SetServiceListing C = some s'
      ∧ (C = [] →
          s'.m_CurrentServiceModel.GetValueAndDomain.1 = false
          ∧ s'.m_CurrentServiceModel.m_Domain = []
          ∧ s'.m_ServiceListing = [])
      ∧ (C ≠ [] →
          s'.m_CurrentServiceModel.GetValueAndDomain = (true, 0)
          ∧ s'.m_ServiceListing.Perm C
          ∧ s'.m_ServiceListing.Pairwise name_version_le
          ∧ s'.m_CurrentServiceModel.m_Domain.length = s'.m_ServiceListing.length
          ∧ ∀ (i : Nat) (svc : ServiceSummary), s'.m_ServiceListing.get? i = some svc →
              s'.m_CurrentServiceModel.m_Domain.get? i
                = some ((i : Int),
                    svc.name ++ " ".toList ++ svc.version ++ " : ".toList ++ svc.desc)) := by
  obtain ⟨s', hash, hs', hl, hhash, hempty, hnonempty⟩ := SetServiceListing_model s C hidx
  simp only [ConcretePropertyModel.GetValueAndDomain] at hidx hnew ⊢
  refine ⟨s', hs', ?_, ?_⟩
  · intro he
    rw [hempty he, hl, he]
    refine ⟨SetIsValid_m_IsValid _ _, ?_, rfl⟩
    rw [SetIsValid_m_Domain, SetDomain_m_Domain]
  · intro hne
    have hid : (SetServiceListing_loop s.m_CurrentServiceModel.m_IsValid hash
        (std_sort service_summary_cmp C) 0 ([], 0)).2 = 0 := by
      cases hv : s.m_CurrentServiceModel.m_IsValid with
      | false => exact SetServiceListing_loop_invalid _ _ _ _
      | true =>
        obtain ⟨x, hx⟩ := Option.isSome_iff_exists.1 (hidx hv)
        have hh := hhash x hv hx
        rcases hnew with h | h
        · rw [hv] at h; exact absurd h (by decide)
        · apply SetServiceListing_loop_no_match
          intro c hc
          rw [hh]
          exact h x hx c ((std_sort_perm service_summary_cmp C).mem_iff.1 hc)
    have hdom : (SetServiceListing_loop s.m_CurrentServiceModel.m_IsValid hash
        (std_sort service_summary_cmp C) 0 ([], 0)).1
          = ((std_sort service_summary_cmp C).enumFrom 0).map
              (fun p => ((p.1 : Int), service_label p.2)) := by
      have := SetServiceListing_loop_domain s.m_CurrentServiceModel.m_IsValid hash
        (std_sort service_summary_cmp C) 0 [] 0 (by simp)
      simpa using this
    rw [hnonempty hne, hl, hid, hdom]
    refine ⟨?_, std_sort_perm _ _, std_sort_sorted _, ?_, ?_⟩
    · rw [Prod.mk.injEq]
      refine ⟨?_, SetValue_m_Value _ _⟩
      rw [SetValue_m_IsValid, SetDomain_m_IsValid, SetIsValid_m_IsValid]
    · rw [SetValue_m_Domain, SetDomain_m_Domain]
      simp
    · intro i svc hget
      have hget' : (std_sort service_summary_cmp C)[i]? = some svc := by simpa using hget
      rw [SetValue_m_Domain, SetDomain_m_Domain]
      simp [List.getElem?_enumFrom, hget', service_label]

/-- Witness of C23: seg-net 2.0 (hash bbb) is selected and the new listing
holds only unet 1.0 (hash ccc); the selection falls back to index 0. -/
theorem C23_selection_falls_back_to_first_witness :
    ∃ s', Scenario.catalog_selected_bbb.SetServiceListing
        [Scenario.service "unet" "1.0" "ccc"] = some s'
      ∧ s'.m_CurrentServiceModel.GetValueAndDomain = (true, 0) := by
  obtain ⟨s', hs', _, h⟩ := C23_selection_falls_back_to_first Scenario.catalog_selected_bbb
    [Scenario.service "unet" "1.0" "ccc"] (fun _ => by decide)
    (Or.inr (fun x hx c hc => by
      have hx' : x = Scenario.service "seg-net" "2.0" "bbb" := by
        have : vector_at Scenario.catalog_selected_bbb.m_ServiceListing
            Scenario.catalog_selected_bbb.m_CurrentServiceModel.GetValueAndDomain.2
              = some (Scenario.service "seg-net" "2.0" "bbb") := by decide
        rw [this] at hx
        exact (Option.some.inj hx).symm
      rw [hx']
      simp only [List.mem_singleton] at hc
      rw [hc]
      decide))
  exact ⟨s', hs', (h (by decide)).1⟩

theorem AsyncGetServiceDetails_request_failed (t : ServiceDetailTransport) (githash : std_string)
    (h : t.Get ≠ Fallible.returns true
      ∨ (t.Get = Fallible.returns true ∧ t.parse ≠ Fallible.returns true)) :
    AsyncGetServiceDetails t githash
      = Fallible.returns { valid := false, longdesc := [], url := [], tag_specs := [] } := by
  unfold AsyncGetServiceDetails AsyncGetServiceDetails_try
  rcases h with h | ⟨hg, hp⟩
  · cases hg : t.Get with
    | throws => rfl
    | returns b =>
      cases b with
      | false => rfl
      | true => exact absurd hg h
  · rw [hg]
    cases hp' : t.parse with
    | throws => rfl
    | returns b =>
      cases b with
      | false => rfl
      | true => exact absurd hp' hp

/-- C24 (evaluation at the failing inputs): when decoding the second tag entry
throws, `AsyncGetServiceDetails` returns a result with `valid = true`, the
decoded descriptions and the one tag spec decoded before the fault; when
decoding the URL throws, the result has `valid = false` but keeps the long
description already decoded. -/
theorem C24_fault_while_decoding_keeps_partial_result :
    Fallible.throws ∈ Scenario.detail_fault_in_tag.tags
    ∧ AsyncGetServiceDetails Scenario.detail_fault_in_tag "aaa".toList
        = Fallible.returns
            { valid := true
              longdesc := "Brain segmentation".toList
              url := "https://seg.org".toList
              tag_specs := [(Scenario.tag "T1" TagType.TAG_LAYER_MAIN true 0).tag_spec] }
    ∧ Scenario.detail_fault_in_url.url = Fallible.throws
    ∧ AsyncGetServiceDetails Scenario.detail_fault_in_url "aaa".toList
        = Fallible.returns
            { valid := false
              longdesc := "Brain segmentation".toList
              url := []
              tag_specs := [] } := by
  decide

theorem find_of_not_mem (m : TicketListingResponse) (sel : IdType) (h : sel ∉ m.keys) :
    m.find sel = [] := by
  unfold TicketListingResponse.find
  rw [List.dropWhile_eq_nil_iff]
  intro e he
  have hne : e.1 ≠ sel := by
    intro heq
    apply h
    unfold TicketListingResponse.keys
    exact heq ▸ List.mem_map_of_mem _ he
  simpa using hne

theorem find_of_mem (m : TicketListingResponse) (sel : IdType) (h : sel ∈ m.keys) :
    ∃ v post, m.find sel = (sel, v) :: post ∧ (sel, v) ∈ m.entries
      ∧ ∀ e ∈ m.entries, e.1 = sel → e = (sel, v) := by
  obtain ⟨pre, v, post, hl, hpre, hpost⟩ := listing_split_at_key m.entries sel m.sorted h
  refine ⟨v, post, ?_, ?_, ?_⟩
  · unfold TicketListingResponse.find
    rw [hl]
    exact find_of_split pre post sel v hpre
  · rw [hl]; simp
  · intro e he hes
    rw [hl] at he
    rcases List.mem_append.1 he with h' | h'
    · exact absurd hes (ne_of_lt (hpre e h'))
    · rcases List.mem_cons.1 h' with h' | h'
      · exact h'
      · exact absurd hes (ne_of_gt (hpost e h'))

/-- C26: `DownloadWorkspace` creates the directory and downloads the results
exactly when a ticket is validly selected, listed in the known-tickets map and
of status `STATUS_SUCCESS`; then these are its two calls, in this order, and it
returns what the download returns. In every other case it returns the empty
string and makes no call. The model, the known-tickets map included, is never
modified. -/
theorem C26_download_only_for_successful_ticket (api : WorkspaceAPI)
    (s : DistributedSegmentationModel) :
    (DownloadWorkspace api s).2.2 = s
    ∧ ((s.m_TicketListModel.GetValueAndDomain.1 = true
          ∧ ∃ e ∈ s.m_TicketListing.entries,
              e.1 = s.m_TicketListModel.GetValueAndDomain.2
              ∧ e.2.status = TicketStatus.STATUS_SUCCESS) →
        (DownloadWorkspace api s).2.1
            = [FileSystemCall.MakeDirectory api.GetTempDirName,
               FileSystemCall.DownloadTicketFiles s.m_TicketListModel.GetValueAndDomain.2
                 api.GetTempDirName false "results".toList]
        ∧ (DownloadWorkspace api s).1
            = api.DownloadTicketFiles s.m_TicketListModel.GetValueAndDomain.2 api.GetTempDirName)
    ∧ (¬ (s.m_TicketListModel.GetValueAndDomain.1 = true
          ∧ ∃ e ∈ s.m_TicketListing.entries,
              e.1 = s.m_TicketListModel.GetValueAndDomain.2
              ∧ e.2.status = TicketStatus.STATUS_SUCCESS) →
        (DownloadWorkspace api s).1 = Fallible.returns []
        ∧ (DownloadWorkspace api s).2.1 = []) := by
  simp only [ConcretePropertyModel.GetValueAndDomain]
  cases hv : s.m_TicketListModel.m_IsValid with
  | false =>
    refine ⟨?_, ?_, ?_⟩
    · simp [DownloadWorkspace, ConcretePropertyModel.GetValueAndDomain, hv]
    · rintro ⟨h, _⟩; exact absurd h (by decide)
    · intro _
      simp [DownloadWorkspace, ConcretePropertyModel.GetValueAndDomain, hv]
  | true =>
    by_cases hmem : s.m_TicketListModel.m_Value ∈ s.m_TicketListing.keys
    · obtain ⟨v, post, hfind, hin, huniq⟩ := find_of_mem _ _ hmem
      have hsub : s.m_TicketListing.subscript s.m_TicketListModel.m_Value
          = (v, s.m_TicketListing) := by
        unfold TicketListingResponse.subscript
        rw [hfind]
      by_cases hst : v.status = TicketStatus.STATUS_SUCCESS
      · have hres : DownloadWorkspace api s =
            (api.DownloadTicketFiles s.m_TicketListModel.m_Value api.GetTempDirName,
             [FileSystemCall.MakeDirectory api.GetTempDirName,
               FileSystemCall.DownloadTicketFiles s.m_TicketListModel.m_Value
                 api.GetTempDirName false "results".toList], s) := by
          unfold DownloadWorkspace
          simp only [ConcretePropertyModel.GetValueAndDomain, hv, hfind, hsub, hst]
          cases api.DownloadTicketFiles s.m_TicketListModel.m_Value api.GetTempDirName <;> rfl
        rw [hres]
        refine ⟨rfl, fun _ => ⟨rfl, rfl⟩, ?_⟩
        intro hneg
        exact absurd ⟨rfl, (s.m_TicketListModel.m_Value, v), hin, rfl, hst⟩ hneg
      · have hres : DownloadWorkspace api s = (Fallible.returns [], [], s) := by
          unfold DownloadWorkspace
          simp [ConcretePropertyModel.GetValueAndDomain, hv, hfind, hsub, hst]
        rw [hres]
        refine ⟨rfl, ?_, fun _ => ⟨rfl, rfl⟩⟩
        rintro ⟨_, e, he, hes, hstat⟩
        rw [huniq e he hes] at hstat
        exact absurd hstat hst
    · have hfind := find_of_not_mem _ _ hmem
      have hres : DownloadWorkspace api s = (Fallible.returns [], [], s) := by
        unfold DownloadWorkspace
        simp [ConcretePropertyModel.GetValueAndDomain, hv, hfind]
      rw [hres]
      refine ⟨rfl, ?_, fun _ => ⟨rfl, rfl⟩⟩
      rintro ⟨_, e, he, hes, _⟩
      exfalso
      apply hmem
      unfold TicketListingResponse.keys
      exact hes ▸ List.mem_map_of_mem _ he

/-- Witness of C26: with the tickets 5 (success), 7 (claimed) and 9 (ready)
listed, selecting 5 leads to the two calls and the downloaded file list;
selecting 7 returns the empty string without a call. -/
theorem C26_download_only_for_successful_ticket_witness :
    (DownloadWorkspace Scenario.store
        (Scenario.tracker Scenario.listing_5_7_9 5 true ⟨0, 0, []⟩)).2.1
      = [FileSystemCall.MakeDirectory "/tmp/dss".toList,
         FileSystemCall.DownloadTicketFiles 5 "/tmp/dss".toList false "results".toList]
    ∧ (DownloadWorkspace Scenario.store
        (Scenario.tracker Scenario.listing_5_7_9 7 true ⟨0, 0, []⟩)).1 = Fallible.returns []
    ∧ (DownloadWorkspace Scenario.store
        (Scenario.tracker Scenario.listing_5_7_9 7 true ⟨0, 0, []⟩)).2.1 = [] :=
  ⟨((C26_download_only_for_successful_ticket Scenario.store
      (Scenario.tracker Scenario.listing_5_7_9 5 true ⟨0, 0, []⟩)).2.1
        ⟨rfl, Scenario.ticket 5 TicketStatus.STATUS_SUCCESS, by decide, rfl, rfl⟩).1,
   ((C26_download_only_for_successful_ticket Scenario.store
      (Scenario.tracker Scenario.listing_5_7_9 7 true ⟨0, 0, []⟩)).2.2 (by decide)).1,
   ((C26_download_only_for_successful_ticket Scenario.store
      (Scenario.tracker Scenario.listing_5_7_9 7 true ⟨0, 0, []⟩)).2.2 (by decide)).2⟩

theorem SetTags_frame {β : Type} (f : ImageWrapperBase → β)
    (hf : ∀ (l : ImageWrapperBase) (tags : List std_string), f { l with m_Tags := tags } = f l)
    (d : IRISApplication) (w : Nat) (tags : List std_string) :
    (SetTags d w tags).main_image_loaded = d.main_image_loaded
    ∧ (SetTags d w tags).layers.map f = d.layers.map f := by
  unfold SetTags
  cases h : d.layers.get? w with
  | none => exact ⟨rfl, rfl⟩
  | some l =>
    refine ⟨rfl, ?_⟩
    simp only [List.map_set]
    have h' : d.layers[w]? = some l := by simpa using h
    have hw : w < d.layers.length := by
      by_contra hlt
      rw [List.getElem?_eq_none (by omega)] at h'
      simp at h'
    apply List.ext_getElem?
    intro k
    rw [List.getElem?_set]
    by_cases hk : w = k
    · subst hk
      have hl : d.layers[w] = l := by
        rw [List.getElem?_eq_getElem hw] at h'
        simpa using h'
      simp [hw, hl, hf]
    · simp [hk]

theorem ApplyTagsToTargets_others_frame {β : Type} (f : ImageWrapperBase → β)
    (hf : ∀ (l : ImageWrapperBase) (tags : List std_string), f { l with m_Tags := tags } = f l)
    (w : Nat) (name : std_string) (its : List Nat) :
    ∀ d : IRISApplication,
      (ApplyTagsToTargets_others w name its d).main_image_loaded = d.main_image_loaded
      ∧ (ApplyTagsToTargets_others w name its d).layers.map f = d.layers.map f := by
  induction its with
  | nil => intro d; exact ⟨rfl, rfl⟩
  | cons it rest ih =>
    intro d
    unfold ApplyTagsToTargets_others
    simp only []
    split
    · split
      · obtain ⟨h₁, h₂⟩ := ih (SetTags d it ((GetTags d it).filter (fun t => t != name)))
        obtain ⟨h₃, h₄⟩ := SetTags_frame f hf d it ((GetTags d it).filter (fun t => t != name))
        exact ⟨h₁.trans h₃, h₂.trans h₄⟩
      · exact ih d
    · exact ih d

theorem ApplyTagsToTargets_body_frame {β : Type} (f : ImageWrapperBase → β)
    (hf : ∀ (l : ImageWrapperBase) (tags : List std_string), f { l with m_Tags := tags } = f l)
    (d : IRISApplication) (tts : TagTargetSpec) :
    (ApplyTagsToTargets_body d tts).main_image_loaded = d.main_image_loaded
    ∧ (ApplyTagsToTargets_body d tts).layers.map f = d.layers.map f := by
  unfold ApplyTagsToTargets_body
  simp only []
  split
  · split
    · rename_i wrapper _
      split
      · obtain ⟨h₁, h₂⟩ := ApplyTagsToTargets_others_frame f hf wrapper tts.tag_spec.name
          (List.range (SetTags d wrapper (GetTags d wrapper ++ [tts.tag_spec.name])).layers.length)
          (SetTags d wrapper (GetTags d wrapper ++ [tts.tag_spec.name]))
        obtain ⟨h₃, h₄⟩ := SetTags_frame f hf d wrapper (GetTags d wrapper ++ [tts.tag_spec.name])
        exact ⟨h₁.trans h₃, h₂.trans h₄⟩
      · exact ApplyTagsToTargets_others_frame f hf wrapper tts.tag_spec.name _ d
    · exact ⟨rfl, rfl⟩
  · exact ⟨rfl, rfl⟩

theorem ApplyTagsToTargets_loop_frame {β : Type} (f : ImageWrapperBase → β)
    (hf : ∀ (l : ImageWrapperBase) (tags : List std_string), f { l with m_Tags := tags } = f l)
    (specs : List TagTargetSpec) :
    ∀ d : IRISApplication,
      (ApplyTagsToTargets_loop specs d).main_image_loaded = d.main_image_loaded
      ∧ (ApplyTagsToTargets_loop specs d).layers.map f = d.layers.map f := by
  induction specs with
  | nil => intro d; exact ⟨rfl, rfl⟩
  | cons tts rest ih =>
    intro d
    unfold ApplyTagsToTargets_loop
    obtain ⟨h₁, h₂⟩ := ih (ApplyTagsToTargets_body d tts)
    obtain ⟨h₃, h₄⟩ := ApplyTagsToTargets_body_frame f hf d tts
    exact ⟨h₁.trans h₃, h₂.trans h₄⟩

theorem bound_layer_not_layer_kind (d : IRISApplication) (tts : TagTargetSpec)
    (hk : ¬ is_layer_kind tts.tag_spec.type) : bound_layer d tts = none := by
  unfold bound_layer
  unfold is_layer_kind at hk
  simp only [not_or] at hk
  simp [hk.1, hk.2.1, hk.2.2]

theorem FindLayer_from_none (l : List ImageWrapperBase) (x : Nat)
    (h : ∀ a ∈ l, a.m_UniqueId ≠ x) :
    ∀ j : Nat, IRISApplication.FindLayer_from j l x = none := by
  induction l with
  | nil => intro j; rfl
  | cons a l ih =>
    intro j
    unfold IRISApplication.FindLayer_from
    have ha : a.m_UniqueId ≠ x := h a (by simp)
    simp only [beq_iff_eq, ha, if_false]
    exact ih (fun b hb => h b (by simp [hb])) (j + 1)

theorem ApplyTagsToTargets_loop_all_none (specs : List TagTargetSpec) (d : IRISApplication)
    (h : ∀ tts ∈ specs, bound_layer d tts = none) :
    ApplyTagsToTargets_loop specs d = d := by
  induction specs with
  | nil => rfl
  | cons tts rest ih =>
    unfold ApplyTagsToTargets_loop
    rw [ApplyTagsToTargets_body_none d tts (h tts (by simp))]
    exact ih (fun q hq => h q (by simp [hq]))

/-- C27: `ApplyTagsToTargets` changes nothing but tag lists: whether a main
image is loaded and the id, display name and role of every layer are as
before. A string that is not the tag name of an entry of layer kind whose bound
id is found in the workspace is carried by a layer afterwards if and only if it
was before. An entry that is not of a layer kind, or whose bound id matches no
layer (such as id 0 when no layer has id 0), causes no change at all, and when
every entry is of this sort the workspace is returned as it was. The method
does not write to the model; its embedding returns the workspace only. -/
theorem C27_apply_tags_frame (s : DistributedSegmentationModel) (driver : IRISApplication) :
    (s.ApplyTagsToTargets driver).main_image_loaded = driver.main_image_loaded
    ∧ (s.ApplyTagsToTargets driver).layers.map (fun l => (l.m_UniqueId, l.m_Nickname, l.role))
        = driver.layers.map (fun l => (l.m_UniqueId, l.m_Nickname, l.role))
    ∧ (∀ (k : Nat) (t : std_string),
        (∀ tts ∈ s.m_TagSpecArray, is_layer_kind tts.tag_spec.type →
          (driver.FindLayer tts.object_id).isSome = true → tts.tag_spec.name ≠ t) →
        (t ∈ GetTags (s.ApplyTagsToTargets driver) k ↔ t ∈ GetTags driver k))
    ∧ (∀ (d : IRISApplication) (tts : TagTargetSpec),
        (¬ is_layer_kind tts.tag_spec.type ∨ d.FindLayer tts.object_id = none) →
        ApplyTagsToTargets_body d tts = d)
    ∧ (∀ (d : IRISApplication) (tts : TagTargetSpec),
        (∀ l ∈ d.layers, l.m_UniqueId ≠ 0) → tts.object_id = 0 →
        ApplyTagsToTargets_body d tts = d)
    ∧ ((∀ tts ∈ s.m_TagSpecArray,
          ¬ is_layer_kind tts.tag_spec.type ∨ driver.FindLayer tts.object_id = none) →
        s.ApplyTagsToTargets driver = driver) := by
  have hnone : ∀ (d : IRISApplication) (tts : TagTargetSpec),
      (¬ is_layer_kind tts.tag_spec.type ∨ d.FindLayer tts.object_id = none) →
      bound_layer d tts = none := by
    intro d tts h
    by_cases hk : is_layer_kind tts.tag_spec.type
    · rcases h with h | h
      · exact absurd hk h
      · rw [bound_layer_of_layer_kind d tts hk]; exact h
    · exact bound_layer_not_layer_kind d tts hk
  obtain ⟨hmain, hskel⟩ := ApplyTagsToTargets_loop_frame
    (fun l => (l.m_UniqueId, l.m_Nickname, l.role)) (fun _ _ => rfl) s.m_TagSpecArray driver
  refine ⟨hmain, hskel, ?_, ?_, ?_, ?_⟩
  · intro k t ht
    unfold ApplyTagsToTargets
    rw [(ApplyTagsToTargets_loop_spec s.m_TagSpecArray driver).2 k t]
    cases hlast : last_bound_layer driver s.m_TagSpecArray t with
    | none => rfl
    | some w =>
      obtain ⟨q, hq, hn, hb⟩ := last_bound_layer_some_mem driver s.m_TagSpecArray t w hlast
      have hkq : is_layer_kind q.tag_spec.type := by
        by_contra hnk
        rw [bound_layer_not_layer_kind driver q hnk] at hb
        simp at hb
      rw [bound_layer_of_layer_kind driver q hkq] at hb
      exact absurd hn (ht q hq hkq (by rw [hb]; rfl))
  · intro d tts h
    exact ApplyTagsToTargets_body_none d tts (hnone d tts h)
  · intro d tts hids h0
    apply ApplyTagsToTargets_body_none d tts
    apply hnone d tts
    right
    unfold IRISApplication.FindLayer
    rw [h0]
    exact FindLayer_from_none d.layers 0 hids 0
  · intro h
    unfold ApplyTagsToTargets
    exact ApplyTagsToTargets_loop_all_none _ _ (fun tts htts => hnone driver tts (h tts htts))

/-- Witness of C27: with the overlay tag `Seg` bound to the overlay with id 3,
the tag `T1` of the main image is untouched; with the same tag unbound, the
workspace is returned as it was. -/
theorem C27_apply_tags_frame_witness :
    (("T1".toList) ∈ GetTags ((Scenario.with_tags
        [Scenario.tag "Seg" TagType.TAG_LAYER_OVERLAY true 3]).ApplyTagsToTargets
        Scenario.workspace) 0 ↔ ("T1".toList) ∈ GetTags Scenario.workspace 0)
    ∧ (Scenario.with_tags [Scenario.tag "Seg" TagType.TAG_LAYER_OVERLAY true 0]
        ).ApplyTagsToTargets Scenario.workspace = Scenario.workspace :=
  ⟨(C27_apply_tags_frame (Scenario.with_tags
      [Scenario.tag "Seg" TagType.TAG_LAYER_OVERLAY true 3]) Scenario.workspace).2.2.1 0
      "T1".toList (by decide),
   (C27_apply_tags_frame (Scenario.with_tags
      [Scenario.tag "Seg" TagType.TAG_LAYER_OVERLAY true 0]) Scenario.workspace).2.2.2.2.2
      (by decide)⟩

theorem SetUserServerList_lists (s : DistributedSegmentationModel) (U : List std_string)
    (my_server : std_string)
    (hcur : vector_at s.m_ServerURLList s.GetServerURL = some my_server) :
    ∃ s', s.SetUserServerList U = some s'
      ∧ s'.m_ServerURLList = s.m_SystemServerURLList ++ U
      ∧ s'.m_SystemServerURLList = s.m_SystemServerURLList := by
  unfold SetUserServerList
  simp only [hcur]
  refine ⟨_, rfl, ?_, ?_⟩
  · split <;> rfl
  · split <;> rfl

theorem LoadPreferences_lists (s : DistributedSegmentationModel) (folder : Registry)
    (my_server : std_string)
    (hcur : vector_at s.m_ServerURLList s.GetServerURL = some my_server) :
    ∃ s', s.LoadPreferences folder = some s'
      ∧ s'.m_ServerURLList = s.m_SystemServerURLList ++ folder.UserServerList
      ∧ s'.m_SystemServerURLList = s.m_SystemServerURLList := by
  obtain ⟨s₁, hs₁, hl, hsys⟩ := SetUserServerList_lists s folder.UserServerList my_server hcur
  unfold LoadPreferences
  simp only [hs₁]
  split
  · exact ⟨_, rfl, hl, hsys⟩
  · exact ⟨_, rfl, hl, hsys⟩

/-- C29: from every state whose selected index lies within the server URL list,
`SetUserServerList U` returns, `GetUserServerList` then returns exactly `U`,
and the built-in URL list, itself unchanged, is a prefix of the server URL
list. Consequently the user servers that `SavePreferences` stores are the ones
`GetUserServerList` returns after `LoadPreferences` reads them back, into the
same or another instance of the model. -/
theorem C29_user_server_list_round_trip :
    (∀ (s : DistributedSegmentationModel) (U : List std_string) (my_server : std_string),
      vector_at s.m_ServerURLList s.GetServerURL = some my_server →
      ∃ s', s.SetUserServerList U = some s'
        ∧ s'.GetUserServerList = U
        ∧ s'.m_SystemServerURLList = s.m_SystemServerURLList
        ∧ s'.m_SystemServerURLList <+: s'.m_ServerURLList)
    ∧ (∀ (s s₀ : DistributedSegmentationModel) (folder : Registry) (my_server : std_string),
      vector_at s₀.m_ServerURLList s₀.GetServerURL = some my_server →
      (s.SavePreferences folder).UserServerList = s.GetUserServerList
      ∧ ∃ s₁, s₀.LoadPreferences (s.SavePreferences folder) = some s₁
          ∧ s₁.GetUserServerList = s.GetUserServerList
          ∧ s₁.m_SystemServerURLList <+: s₁.m_ServerURLList) := by
  constructor
  · intro s U my_server hcur
    obtain ⟨s', hs', hl, hsys⟩ := SetUserServerList_lists s U my_server hcur
    refine ⟨s', hs', ?_, hsys, ?_⟩
    · unfold GetUserServerList
      rw [hl, hsys]
      simp
    · rw [hl, hsys]
      exact List.prefix_append _ _
  · intro s s₀ folder my_server hcur
    refine ⟨rfl, ?_⟩
    obtain ⟨s₁, hs₁, hl, hsys⟩ := LoadPreferences_lists s₀ (s.SavePreferences folder) my_server hcur
    refine ⟨s₁, hs₁, ?_, ?_⟩
    · unfold GetUserServerList
      rw [hl, hsys]
      simp [SavePreferences, GetUserServerList]
    · rw [hl, hsys]
      exact List.prefix_append _ _

/-- Witness of C29: with `b.org` selected among the user servers `a.org` and
`b.org`, the user servers are set to `c.org`, `c.org`; `GetUserServerList`
returns the two copies. -/
theorem C29_user_server_list_round_trip_witness :
    ∃ s', Scenario.servers_b_selected.SetUserServerList ["c.org".toList, "c.org".toList]
        = some s'
      ∧ s'.GetUserServerList = ["c.org".toList, "c.org".toList] := by
  obtain ⟨s', hs', hget, _⟩ := C29_user_server_list_round_trip.1 Scenario.servers_b_selected
    ["c.org".toList, "c.org".toList] "b.org".toList (by decide)
  exact ⟨s', hs', hget⟩

end DistributedSegmentationModel
